import Mathlib

/-!
# The `FixStartStateBounds` planning request adapter

A shallow embedding of
`moveit_ros/planning/planning_request_adapter_plugins/src/fix_start_state_bounds.cpp`.

Conventions of the embedding:

* a C++ `double` is an exact rational (`ℚ`): every finite double is a rational
  number, and the arithmetic of the adapter is carried out without rounding;
* a `std::size_t` is a natural number below `2 ^ 64`, incremented modulo `2 ^ 64`;
* the values of a joint (`const double*`) are a map from the variable index to
  its value, and a robot state maps a joint name to the values of that joint;
* the two loops over the joint models are left folds whose accumulator holds the
  local variables `start_state`, `prefix_state` and `change_req`;
* the planner callback is a function from the scene, the request and the response
  it is handed to the boolean it returns and the response it leaves.

The joint model, robot state, trajectory and message classes are declared
outside the adapter's source file; they are modelled here from the
specification and marked as such.
-/

namespace default_planner_request_adapters

/-! ## Numeric constants and helpers -/

/-- The double-precision constant `M_PI` (`0x400921FB54442D18`), as the exact
rational it denotes. -/
def M_PI : ℚ := 884279719003555 / 281474976710656

/-- The constant `std::numeric_limits<double>::epsilon()`, that is `2 ^ (-52)`. -/
def epsilon : ℚ := 1 / 4503599627370496

/-- The function `fabs`. -/
def fabs (x : ℚ) : ℚ := if x < 0 then -x else x

/-- The integer part of `x`, rounded toward zero. -/
def trunc (x : ℚ) : ℤ := if 0 ≤ x then ⌊x⌋ else ⌈x⌉

/-- The function `fmod`: the remainder `x - y * trunc (x / y)`, which has the sign of `x`. -/
def fmod (x y : ℚ) : ℚ := x - y * (trunc (x / y) : ℚ)

/-- The least natural number whose square is at least `c`. -/
def ceilSqrt (c : ℕ) : ℕ := if Nat.sqrt c * Nat.sqrt c = c then Nat.sqrt c else Nat.sqrt c + 1

/-- The function `sqrt` on doubles, idealised as the square root rounded up to a
multiple of `1 / (2 ^ 52 * x.den)`; it is exact on squares of rationals. -/
def sqrt (x : ℚ) : ℚ :=
  if x ≤ 0 then 0
  else (ceilSqrt (x.num.toNat * x.den * 2 ^ 104) : ℚ) / (2 ^ 52 * (x.den : ℚ))

/-- The increment of a `std::size_t`. -/
def sizeIncr (i : ℕ) : ℕ := (i + 1) % 2 ^ 64

/-! ## Joint models -/

/-- The type tag of a joint model (`moveit::core::JointModel::JointType`). -/
inductive JointType
  | UNKNOWN
  | REVOLUTE
  | PRISMATIC
  | PLANAR
  | FLOATING
  | FIXED
  deriving DecidableEq

/-- Modelled from the spec: the bounds of one variable of a joint, a pair (min, max). -/
structure VariableBounds where
  min_position_ : ℚ
  max_position_ : ℚ

/-- Modelled from the spec: the immutable joint descriptor, with its name, type
tag, continuity flag (read only for revolute joints) and ordered per-variable bounds. -/
structure JointModel where
  name_ : String
  type_ : JointType
  continuous_ : Bool
  variable_bounds_ : List VariableBounds

/-- The test `jm->getType() == REVOLUTE` followed by `isContinuous()`. -/
def JointModel.isContinuousRevolute (jm : JointModel) : Bool :=
  decide (jm.type_ = JointType.REVOLUTE) && jm.continuous_

/-- Modelled from the spec: one variable is within its bounds widened by `margin`
on both sides. -/
def VariableBounds.satisfies (b : VariableBounds) (v margin : ℚ) : Bool :=
  !(decide (v < b.min_position_ - margin) || decide (v > b.max_position_ + margin))

/-- Modelled from the spec: clamping one variable into its valid range. -/
def VariableBounds.clamp (b : VariableBounds) (v : ℚ) : ℚ :=
  if v < b.min_position_ then b.min_position_
  else if v > b.max_position_ then b.max_position_
  else v

/-- Modelled from the spec: the bounds that constrain the position of a joint.
The rotation components of a planar joint (yaw) and of a floating joint (the
quaternion) are kept canonical by normalization, so position bounds apply to
the translation components only: x, y of a planar joint and x, y, z of a
floating joint. Every variable of any other joint is bounded. -/
def JointModel.positionBounds (jm : JointModel) : List VariableBounds :=
  match jm.type_ with
  | JointType.PLANAR => jm.variable_bounds_.take 2
  | JointType.FLOATING => jm.variable_bounds_.take 3
  | _ => jm.variable_bounds_

/-- Every bound of the list `bs` is satisfied, with margin, by the variable it
belongs to; the first bound of the list belongs to variable `k`. -/
def satisfiesFrom : List VariableBounds → ℕ → (ℕ → ℚ) → ℚ → Bool
  | [], _, _, _ => true
  | b :: bs, k, values, margin =>
    b.satisfies (values k) margin && satisfiesFrom bs (k + 1) values margin

/-- Modelled from the spec: the strict (margin 0) and tolerant bounds-satisfaction
query of a joint model. A continuous joint is a revolute joint with no motion
limit, so every value satisfies its bounds. -/
def JointModel.satisfiesPositionBounds (jm : JointModel) (values : ℕ → ℚ) (margin : ℚ) : Bool :=
  if jm.isContinuousRevolute then true
  else satisfiesFrom jm.positionBounds 0 values margin

/-- Modelled from the spec: the modulo wrap of a continuous revolute joint into
its canonical range, the half-open interval from `-M_PI` to `M_PI`. -/
def wrapContinuous (v : ℚ) : ℚ :=
  if v ≤ -M_PI ∨ v > M_PI then
    if fmod v (2 * M_PI) ≤ -M_PI then fmod v (2 * M_PI) + 2 * M_PI
    else if fmod v (2 * M_PI) > M_PI then fmod v (2 * M_PI) - 2 * M_PI
    else fmod v (2 * M_PI)
  else v

/-- Modelled from the spec: bounds enforcement of a joint model, a wrap for
continuous joints and a clamp of every bounded variable otherwise. -/
def JointModel.enforcePositionBounds (jm : JointModel) (values : ℕ → ℚ) : ℕ → ℚ :=
  if jm.isContinuousRevolute then
    fun k => if k = 0 then wrapContinuous (values 0) else values k
  else
    fun k =>
      match jm.positionBounds[k]? with
      | some b => b.clamp (values k)
      | none => values k

/-- Modelled from the spec: `PlanarJointModel::normalizeRotation`, which brings the
yaw component (index 2) into the canonical range from `-M_PI` to `M_PI` and
reports whether it changed the values. -/
def PlanarJointModel.normalizeRotation (values : List ℚ) : Bool × List ℚ :=
  if -M_PI ≤ values.getD 2 0 ∧ values.getD 2 0 ≤ M_PI then (false, values)
  else
    (true, values.set 2
      (if fmod (values.getD 2 0) (2 * M_PI) < -M_PI then fmod (values.getD 2 0) (2 * M_PI) + 2 * M_PI
       else if fmod (values.getD 2 0) (2 * M_PI) > M_PI then
         fmod (values.getD 2 0) (2 * M_PI) - 2 * M_PI
       else fmod (values.getD 2 0) (2 * M_PI)))

/-- The squared norm of the orientation quaternion, components 3 to 6. -/
def quaternionNormSqr (values : List ℚ) : ℚ :=
  values.getD 3 0 * values.getD 3 0 + values.getD 4 0 * values.getD 4 0
    + values.getD 5 0 * values.getD 5 0 + values.getD 6 0 * values.getD 6 0

/-- Modelled from the spec: `FloatingJointModel::normalizeRotation`, which brings
the orientation quaternion (components 3 to 6) to unit norm, replaces a zero
quaternion by the identity, and reports whether it changed the values. -/
def FloatingJointModel.normalizeRotation (values : List ℚ) : Bool × List ℚ :=
  if fabs (quaternionNormSqr values - 1) > epsilon * 100 then
    if sqrt (quaternionNormSqr values) < epsilon * 100 then
      (true, (((values.set 3 0).set 4 0).set 5 0).set 6 1)
    else
      (true, (((values.set 3 (values.getD 3 0 / sqrt (quaternionNormSqr values))).set 4
        (values.getD 4 0 / sqrt (quaternionNormSqr values))).set 5
        (values.getD 5 0 / sqrt (quaternionNormSqr values))).set 6
        (values.getD 6 0 / sqrt (quaternionNormSqr values)))
  else (false, values)

/-! ## Robot states, models and scenes -/

/-- Modelled from the spec: a robot state, the mapping from a joint name to the
values of the variables of that joint. -/
@[ext]
structure RobotState where
  position_ : String → ℕ → ℚ

/-- Modelled from the spec: `RobotState::getJointPositions`. -/
def RobotState.getJointPositions (s : RobotState) (jm : JointModel) : ℕ → ℚ :=
  s.position_ jm.name_

/-- Modelled from the spec: `RobotState::setJointPositions`, which writes the
array `copy` over the leading variables of the joint. -/
def RobotState.setJointPositions (s : RobotState) (jm : JointModel) (copy : List ℚ) : RobotState :=
  { position_ := fun n k => if n = jm.name_ then copy.getD k (s.position_ n k) else s.position_ n k }

/-- Modelled from the spec: `RobotState::satisfiesBounds` for one joint. -/
def RobotState.satisfiesBounds (s : RobotState) (jm : JointModel) (margin : ℚ) : Bool :=
  jm.satisfiesPositionBounds (s.getJointPositions jm) margin

/-- Modelled from the spec: `RobotState::enforceBounds` for one joint. -/
def RobotState.enforceBounds (s : RobotState) (jm : JointModel) : RobotState :=
  { position_ := fun n =>
      if n = jm.name_ then jm.enforcePositionBounds (s.position_ n) else s.position_ n }

/-- Modelled from the spec: a planning group, a name and its joints in declared order. -/
structure JointModelGroup where
  name_ : String
  joint_model_vector_ : List JointModel

/-- Modelled from the spec: the robot model, all its joints and its planning groups by name. -/
structure RobotModel where
  joint_model_vector_ : List JointModel
  joint_model_group_map_ : String → Option JointModelGroup

/-- Modelled from the spec: `RobotModel::hasJointModelGroup`. -/
def RobotModel.hasJointModelGroup (m : RobotModel) (name : String) : Bool :=
  (m.joint_model_group_map_ name).isSome

/-- Modelled from the spec: the joints of `getJointModelGroup(name)`. -/
def RobotModel.getGroupJointModels (m : RobotModel) (name : String) : List JointModel :=
  match m.joint_model_group_map_ name with
  | some g => g.joint_model_vector_
  | none => []

/-- Modelled from the spec: the planning scene, read for its robot model and current state. -/
structure PlanningScene where
  robot_model_ : RobotModel
  current_state_ : RobotState

/-! ## Messages, requests, trajectories and responses -/

/-- Modelled from the spec: the start-state representation of a request. It
gives the values of some joints; the joints it does not mention keep the values
of the scene's current state. -/
structure RobotStateMsg where
  joint_state : String → Option (ℕ → ℚ)

/-- Modelled from the spec: `robotStateMsgToRobotState`, which overlays the message on `state`. -/
def robotStateMsgToRobotState (msg : RobotStateMsg) (state : RobotState) : RobotState :=
  { position_ := fun n =>
      match msg.joint_state n with
      | some values => values
      | none => state.position_ n }

/-- Modelled from the spec: `robotStateToRobotStateMsg`, which records every joint of the state. -/
def robotStateToRobotStateMsg (state : RobotState) : RobotStateMsg :=
  { joint_state := fun n => some (state.position_ n) }

/-- Modelled from the spec: the motion plan request, a start state, a planning
group name and further fields the adapter never reads. -/
structure MotionPlanRequest where
  start_state : RobotStateMsg
  group_name : String
  planner_id : String
  num_planning_attempts : ℤ
  allowed_planning_time : ℚ

/-- Modelled from the spec: a waypoint of a trajectory with its duration from the previous one. -/
structure WayPoint where
  state : RobotState
  duration_from_previous : ℚ

/-- Modelled from the spec: the trajectory container, an ordered sequence of waypoints. -/
structure RobotTrajectory where
  waypoints_ : List WayPoint

/-- Modelled from the spec: the emptiness check of a trajectory. -/
def RobotTrajectory.empty (t : RobotTrajectory) : Bool := t.waypoints_.isEmpty

/-- Modelled from the spec: the waypoint count of a trajectory. -/
def RobotTrajectory.getWayPointCount (t : RobotTrajectory) : ℕ := t.waypoints_.length

/-- Modelled from the spec: the total duration of a trajectory. -/
def RobotTrajectory.getDuration (t : RobotTrajectory) : ℚ :=
  (t.waypoints_.map WayPoint.duration_from_previous).sum

/-- Modelled from the spec: the average segment duration, the total duration
divided by the number of recorded durations, and 0 for an empty trajectory. -/
def RobotTrajectory.getAverageSegmentDuration (t : RobotTrajectory) : ℚ :=
  if t.waypoints_.isEmpty then 0 else t.getDuration / (t.waypoints_.length : ℚ)

/-- Replaces the duration of the waypoint at position `index` of a list. -/
def setDurationAt : List WayPoint → ℕ → ℚ → List WayPoint
  | [], _, _ => []
  | w :: ws, 0, value => { w with duration_from_previous := value } :: ws
  | w :: ws, index + 1, value => w :: setDurationAt ws index value

/-- Modelled from the spec: `setWayPointDurationFromPrevious(index, value)`. -/
def RobotTrajectory.setWayPointDurationFromPrevious (t : RobotTrajectory) (index : ℕ)
    (value : ℚ) : RobotTrajectory :=
  { waypoints_ := setDurationAt t.waypoints_ index value }

/-- Modelled from the spec: `addPrefixWayPoint(state, dt)`, which prepends a waypoint. -/
def RobotTrajectory.addPrefixWayPoint (t : RobotTrajectory) (state : RobotState) (dt : ℚ) :
    RobotTrajectory :=
  { waypoints_ := { state := state, duration_from_previous := dt } :: t.waypoints_ }

/-- Modelled from the spec: `getWayPointDurationFromPrevious(index)`, 0 past the end. -/
def RobotTrajectory.getWayPointDurationFromPrevious (t : RobotTrajectory) (index : ℕ) : ℚ :=
  match t.waypoints_[index]? with
  | some w => w.duration_from_previous
  | none => 0

/-- Modelled from the spec: the motion plan response, an optional trajectory
(a null pointer is `none`) plus status fields. -/
structure MotionPlanResponse where
  trajectory : Option RobotTrajectory
  planning_time : ℚ
  error_code : ℤ

/-- The planner callback `PlannerFn`: from the scene, the request and the
response it is handed, the boolean it returns and the response it leaves. -/
abbrev PlannerFn := PlanningScene → MotionPlanRequest → MotionPlanResponse → Bool × MotionPlanResponse

/-! ## The adapter -/

/-- The adapter with its two configuration scalars. -/
structure FixStartStateBounds where
  bounds_dist_ : ℚ
  max_dt_offset_ : ℚ

/-- Modelled from the spec: `getParam` of the adapter base class, the value of
the namespaced parameter when it is set and the default otherwise. -/
def getParam (node : String → Option ℚ) (parameter_namespace parameter_name : String)
    (default_value : ℚ) : ℚ :=
  match node (if parameter_namespace.isEmpty then parameter_name
              else parameter_namespace ++ "." ++ parameter_name) with
  | some value => value
  | none => default_value

/-- The member function `getDescription` of the adapter. -/
def getDescription : String := "Fix Start State Bounds"

/-- The constant `BOUNDS_PARAM_NAME`. -/
def BOUNDS_PARAM_NAME : String := "start_state_max_bounds_error"

/-- The constant `DT_PARAM_NAME`. -/
def DT_PARAM_NAME : String := "start_state_max_dt"

/-- The member function `initialize` of the adapter: both scalars are read once, with
defaults 0.05 and 0.5. -/
def initializeAdapter (node : String → Option ℚ) (parameter_namespace : String) :
    FixStartStateBounds :=
  { bounds_dist_ := getParam node parameter_namespace BOUNDS_PARAM_NAME (1 / 20)
    max_dt_offset_ := getParam node parameter_namespace DT_PARAM_NAME (1 / 2) }

/-- The local variables of `adaptAndPlan` that the two loops update. -/
structure Working where
  start_state : RobotState
  prefix_state : Option RobotState
  change_req : Bool

/-- The first three values of a joint, `{ p[0], p[1], p[2] }`. -/
def copy3 (p : ℕ → ℚ) : List ℚ := [p 0, p 1, p 2]

/-- The first seven values of a joint, `{ p[0], ..., p[6] }`. -/
def copy7 (p : ℕ → ℚ) : List ℚ := [p 0, p 1, p 2, p 3, p 4, p 5, p 6]

/-- The body of the first loop (source lines 85 to 128) for one joint model. -/
def normalizeJoint (w : Working) (jm : JointModel) : Working :=
  if jm.type_ = JointType.REVOLUTE then
    if jm.continuous_ then
      if fabs (w.start_state.getJointPositions jm 0
          - (w.start_state.enforceBounds jm).getJointPositions jm 0) > epsilon then
        { w with start_state := w.start_state.enforceBounds jm, change_req := true }
      else
        { w with start_state := w.start_state.enforceBounds jm }
    else w
  else if jm.type_ = JointType.PLANAR then
    if (PlanarJointModel.normalizeRotation (copy3 (w.start_state.getJointPositions jm))).1 then
      { w with
        start_state := w.start_state.setJointPositions jm
          (PlanarJointModel.normalizeRotation (copy3 (w.start_state.getJointPositions jm))).2
        change_req := true }
    else w
  else if jm.type_ = JointType.FLOATING then
    if (FloatingJointModel.normalizeRotation (copy7 (w.start_state.getJointPositions jm))).1 then
      { w with
        start_state := w.start_state.setJointPositions jm
          (FloatingJointModel.normalizeRotation (copy7 (w.start_state.getJointPositions jm))).2
        change_req := true }
    else w
  else w

/-- The first loop of `adaptAndPlan`: normalization of every joint in order. -/
def normalizePass (jmodels : List JointModel) (w : Working) : Working :=
  jmodels.foldl normalizeJoint w

/-- The body of the second loop (source lines 132 to 166) for one joint model;
the two log messages are not modelled. -/
def correctJoint (bounds_dist : ℚ) (w : Working) (jmodel : JointModel) : Working :=
  if !w.start_state.satisfiesBounds jmodel 0 then
    if w.start_state.satisfiesBounds jmodel bounds_dist then
      { start_state := w.start_state.enforceBounds jmodel
        prefix_state :=
          match w.prefix_state with
          | some p => some p
          | none => some w.start_state
        change_req := true }
    else w
  else w

/-- The second loop of `adaptAndPlan`: classification and correction of every joint in order. -/
def boundsPass (bounds_dist : ℚ) (jmodels : List JointModel) (w : Working) : Working :=
  jmodels.foldl (correctJoint bounds_dist) w

/-- The joint models `jmodels` of `adaptAndPlan` (source lines 79 to 82). -/
def selectJointModels (planning_scene : PlanningScene) (req : MotionPlanRequest) :
    List JointModel :=
  if planning_scene.robot_model_.hasJointModelGroup req.group_name then
    planning_scene.robot_model_.getGroupJointModels req.group_name
  else planning_scene.robot_model_.joint_model_vector_

/-- The start state specified by the request (source lines 76 to 77). -/
def specifiedStartState (planning_scene : PlanningScene) (req : MotionPlanRequest) : RobotState :=
  robotStateMsgToRobotState req.start_state planning_scene.current_state_

/-- The local variables of `adaptAndPlan` after the first loop (source lines 76 to 128). -/
def normalizedWorking (planning_scene : PlanningScene) (req : MotionPlanRequest) : Working :=
  normalizePass (selectJointModels planning_scene req)
    { start_state := specifiedStartState planning_scene req
      prefix_state := none
      change_req := false }

/-- The local variables of `adaptAndPlan` after both loops (source lines 76 to 166). -/
def FixStartStateBounds.fixStartState (self : FixStartStateBounds) (planning_scene : PlanningScene)
    (req : MotionPlanRequest) : Working :=
  boundsPass self.bounds_dist_ (selectJointModels planning_scene req)
    (normalizedWorking planning_scene req)

/-- The request the planner is called with (source lines 170 to 177). -/
def FixStartStateBounds.plannerRequest (self : FixStartStateBounds)
    (planning_scene : PlanningScene) (req : MotionPlanRequest) : MotionPlanRequest :=
  if (self.fixStartState planning_scene req).change_req then
    { req with
      start_state := robotStateToRobotStateMsg (self.fixStartState planning_scene req).start_state }
  else req

/-- What `adaptAndPlan` returns and leaves in its two output arguments. -/
structure AdaptResult where
  solved : Bool
  res : MotionPlanResponse
  added_path_index : List ℕ

/-- The re-adding of the prefix state (source lines 180 to 191), given the
prefix state, the response the planner left and the tracked indices. -/
def FixStartStateBounds.addPrefixState (self : FixStartStateBounds)
    (prefix_state : Option RobotState) (solved : Bool) (res : MotionPlanResponse)
    (added_path_index : List ℕ) : AdaptResult :=
  match prefix_state, res.trajectory with
  | some p, some trajectory =>
    if !trajectory.empty then
      { solved := solved
        res := { res with
          trajectory := some
            ((trajectory.setWayPointDurationFromPrevious 0
              (min self.max_dt_offset_ trajectory.getAverageSegmentDuration)).addPrefixWayPoint p 0) }
        added_path_index := added_path_index.map sizeIncr ++ [0] }
    else { solved := solved, res := res, added_path_index := added_path_index }
  | _, _ => { solved := solved, res := res, added_path_index := added_path_index }

/-- The member function `adaptAndPlan` of the adapter. -/
def FixStartStateBounds.adaptAndPlan (self : FixStartStateBounds) (planner : PlannerFn)
    (planning_scene : PlanningScene) (req : MotionPlanRequest) (res : MotionPlanResponse)
    (added_path_index : List ℕ) : AdaptResult :=
  self.addPrefixState (self.fixStartState planning_scene req).prefix_state
    (planner planning_scene (self.plannerRequest planning_scene req) res).1
    (planner planning_scene (self.plannerRequest planning_scene req) res).2
    added_path_index

/-- The classification "correctable" of the second loop: the joint violates its
strict bounds and satisfies them widened by the tolerance (source lines 134 and 136). -/
def correctable (bounds_dist : ℚ) (s : RobotState) (jmodel : JointModel) : Bool :=
  !s.satisfiesBounds jmodel 0 && s.satisfiesBounds jmodel bounds_dist

/-- The condition under which the prefix state is re-added (source line 180):
`prefix_state && res.trajectory && !res.trajectory->empty()`. -/
def prefixCondition (prefix_state : Option RobotState) (res : MotionPlanResponse) : Bool :=
  prefix_state.isSome &&
    (match res.trajectory with
     | some trajectory => !trajectory.empty
     | none => false)

/-- The values of a joint are in the normal form of the first loop: a
continuous revolute value is in its canonical range, and the rotation
normalization of a planar or floating joint reports no change. -/
def JointModel.isNormalized (jm : JointModel) (p : ℕ → ℚ) : Prop :=
  (jm.isContinuousRevolute = true → wrapContinuous (p 0) = p 0) ∧
  (jm.type_ = JointType.PLANAR → (PlanarJointModel.normalizeRotation (copy3 p)).1 = false) ∧
  (jm.type_ = JointType.FLOATING → (FloatingJointModel.normalizeRotation (copy7 p)).1 = false)

/-! ## Example data -/

/-- A bounded revolute joint with range from -1 to 1. -/
def exShoulder : JointModel :=
  { name_ := "shoulder", type_ := JointType.REVOLUTE, continuous_ := false,
    variable_bounds_ := [{ min_position_ := -1, max_position_ := 1 }] }

/-- A continuous revolute joint. -/
def exElbow : JointModel :=
  { name_ := "elbow", type_ := JointType.REVOLUTE, continuous_ := true,
    variable_bounds_ := [{ min_position_ := -M_PI, max_position_ := M_PI }] }

/-- A prismatic joint with range from 1/100 to 2. -/
def exWrist : JointModel :=
  { name_ := "wrist", type_ := JointType.PRISMATIC, continuous_ := false,
    variable_bounds_ := [{ min_position_ := 1 / 100, max_position_ := 2 }] }

/-- A floating joint with translation bounds from -10 to 10 and quaternion
component bounds from -1 to 1. -/
def exBase : JointModel :=
  { name_ := "base", type_ := JointType.FLOATING, continuous_ := false,
    variable_bounds_ :=
      [{ min_position_ := -10, max_position_ := 10 }, { min_position_ := -10, max_position_ := 10 },
       { min_position_ := -10, max_position_ := 10 }, { min_position_ := -1, max_position_ := 1 },
       { min_position_ := -1, max_position_ := 1 }, { min_position_ := -1, max_position_ := 1 },
       { min_position_ := -1, max_position_ := 1 }] }

/-- A scene whose robot has the given joints, all of them in the group "arm",
and whose current state is zero everywhere. -/
def exScene (joints : List JointModel) : PlanningScene :=
  { robot_model_ :=
      { joint_model_vector_ := joints
        joint_model_group_map_ := fun n =>
          if n = "arm" then some { name_ := "arm", joint_model_vector_ := joints } else none }
    current_state_ := { position_ := fun _ _ => 0 } }

/-- A request for the group "arm" whose start state gives the first variable of one joint. -/
def exRequest (joint : String) (value : ℚ) : MotionPlanRequest :=
  { start_state :=
      { joint_state := fun n => if n = joint then some (fun k => if k = 0 then value else 0) else none }
    group_name := "arm"
    planner_id := "RRTConnect"
    num_planning_attempts := 1
    allowed_planning_time := 5 }

/-- A planner that succeeds with a trajectory of two waypoints at the state
zero, with durations 0 and `d`. -/
def exPlanner (d : ℚ) : PlannerFn := fun _ _ res =>
  (true, { res with
    trajectory := some { waypoints_ :=
      [{ state := { position_ := fun _ _ => 0 }, duration_from_previous := 0 },
       { state := { position_ := fun _ _ => 0 }, duration_from_previous := d }] } })

/-- A planner that fails and leaves the response as it was handed. -/
def exFailingPlanner : PlannerFn := fun _ _ res => (false, res)

/-- A response that holds no trajectory yet. -/
def exResponse : MotionPlanResponse :=
  { trajectory := none, planning_time := 0, error_code := 0 }

/-- The adapter with its default configuration: tolerance 0.05 and ceiling 0.5. -/
def exAdapter : FixStartStateBounds := initializeAdapter (fun _ => none) ""

/-- A planar joint with x and y bounds from -10 to 10 and yaw bounds from
`-M_PI` to `M_PI`. -/
def exPlatform : JointModel :=
  { name_ := "platform", type_ := JointType.PLANAR, continuous_ := false,
    variable_bounds_ :=
      [{ min_position_ := -10, max_position_ := 10 }, { min_position_ := -10, max_position_ := 10 },
       { min_position_ := -M_PI, max_position_ := M_PI }] }

/-- A request for the group "arm" whose start state gives one variable of one
joint and 0 for the other variables of that joint. -/
def exRequestAt (joint : String) (index : ℕ) (value : ℚ) : MotionPlanRequest :=
  { start_state :=
      { joint_state := fun n =>
          if n = joint then some (fun k => if k = index then value else 0) else none }
    group_name := "arm"
    planner_id := "RRTConnect"
    num_planning_attempts := 1
    allowed_planning_time := 5 }

/-- A planner that fails and still leaves a trajectory of two waypoints at the
state zero, with durations 0 and 4. -/
def exPartialPlanner : PlannerFn := fun _ _ res =>
  (false, { res with
    trajectory := some { waypoints_ :=
      [{ state := { position_ := fun _ _ => 0 }, duration_from_previous := 0 },
       { state := { position_ := fun _ _ => 0 }, duration_from_previous := 4 }] } })

/-- A scene whose robot has the joints `all`, of which only the joints `group`
form the group "arm", and whose current state is zero everywhere. -/
def exSceneGroup (group all : List JointModel) : PlanningScene :=
  { robot_model_ :=
      { joint_model_vector_ := all
        joint_model_group_map_ := fun n =>
          if n = "arm" then some { name_ := "arm", joint_model_vector_ := group } else none }
    current_state_ := { position_ := fun _ _ => 0 } }

/-! ## Theorems -/

/-- Decoding the message that encodes a state gives that state back. -/
theorem robotStateMsg_roundtrip (s cur : RobotState) :
    robotStateMsgToRobotState (robotStateToRobotStateMsg s) cur = s := by
  rfl

/-! ### Frame lemmas for the two loops -/

/-- The body of the second loop changes only the values of its own joint. -/
theorem correctJoint_frame (t : ℚ) (w : Working) (jm : JointModel) (n : String)
    (h : n ≠ jm.name_) :
    (correctJoint t w jm).start_state.position_ n = w.start_state.position_ n := by
  unfold correctJoint
  split_ifs <;> simp [RobotState.enforceBounds, h]

/-- The body of the first loop changes only the values of its own joint. -/
theorem normalizeJoint_frame (w : Working) (jm : JointModel) (n : String)
    (h : n ≠ jm.name_) :
    (normalizeJoint w jm).start_state.position_ n = w.start_state.position_ n := by
  unfold normalizeJoint
  split_ifs <;> simp [RobotState.enforceBounds, RobotState.setJointPositions, h]

/-- A loop whose body changes only its own joint leaves every joint that is not
in the list untouched. -/
theorem foldl_frame (step : Working → JointModel → Working)
    (hstep : ∀ w jm n, n ≠ jm.name_ →
      (step w jm).start_state.position_ n = w.start_state.position_ n) :
    ∀ (l : List JointModel) (w : Working) (n : String), n ∉ l.map JointModel.name_ →
      (l.foldl step w).start_state.position_ n = w.start_state.position_ n := by
  intro l
  induction l with
  | nil => intro w n _; rfl
  | cons a l ih =>
    intro w n hn
    simp only [List.map_cons, List.mem_cons, not_or] at hn
    rw [List.foldl_cons, ih (step w a) n hn.2, hstep w a n hn.1]

/-- The second loop leaves every joint outside the list untouched. -/
theorem boundsPass_frame (t : ℚ) (l : List JointModel) (w : Working) (n : String)
    (hn : n ∉ l.map JointModel.name_) :
    (boundsPass t l w).start_state.position_ n = w.start_state.position_ n :=
  foldl_frame (correctJoint t) (correctJoint_frame t) l w n hn

/-- The first loop leaves every joint outside the list untouched. -/
theorem normalizePass_frame (l : List JointModel) (w : Working) (n : String)
    (hn : n ∉ l.map JointModel.name_) :
    (normalizePass l w).start_state.position_ n = w.start_state.position_ n :=
  foldl_frame normalizeJoint normalizeJoint_frame l w n hn

/-! ### The second loop: snapshot and change flag -/

/-- The body of the second loop on a correctable joint. -/
theorem correctJoint_of_correctable (t : ℚ) (w : Working) (jm : JointModel)
    (h : correctable t w.start_state jm = true) :
    correctJoint t w jm =
      { start_state := w.start_state.enforceBounds jm
        prefix_state :=
          match w.prefix_state with
          | some p => some p
          | none => some w.start_state
        change_req := true } := by
  simp only [correctable, Bool.and_eq_true, Bool.not_eq_true'] at h
  simp [correctJoint, h.1, h.2]

/-- The body of the second loop on a joint that is not correctable. -/
theorem correctJoint_of_not_correctable (t : ℚ) (w : Working) (jm : JointModel)
    (h : correctable t w.start_state jm = false) :
    correctJoint t w jm = w := by
  unfold correctable at h
  unfold correctJoint
  cases h0 : w.start_state.satisfiesBounds jm 0 <;>
    cases h1 : w.start_state.satisfiesBounds jm t <;> simp_all

/-- The second loop, one joint at a time. -/
theorem boundsPass_cons (t : ℚ) (a : JointModel) (l : List JointModel) (w : Working) :
    boundsPass t (a :: l) w = boundsPass t l (correctJoint t w a) := rfl

/-- The second loop over a concatenation. -/
theorem boundsPass_append (t : ℚ) (l₁ l₂ : List JointModel) (w : Working) :
    boundsPass t (l₁ ++ l₂) w = boundsPass t l₂ (boundsPass t l₁ w) := by
  simp [boundsPass, List.foldl_append]

/-- A snapshot, once captured, is kept as it is by the second loop. -/
theorem boundsPass_prefix_some (t : ℚ) (l : List JointModel) :
    ∀ (w : Working) (p : RobotState), w.prefix_state = some p →
      (boundsPass t l w).prefix_state = some p ∧
        ((boundsPass t l w).change_req = true ∨ (boundsPass t l w).change_req = w.change_req) := by
  induction l with
  | nil => intro w p h; exact ⟨h, Or.inr rfl⟩
  | cons a l ih =>
    intro w p h
    rw [boundsPass_cons]
    cases hc : correctable t w.start_state a with
    | false =>
      rw [correctJoint_of_not_correctable t w a hc]
      exact ih w p h
    | true =>
      rw [correctJoint_of_correctable t w a hc]
      have := ih { start_state := w.start_state.enforceBounds a
                   prefix_state :=
                     match w.prefix_state with
                     | some p => some p
                     | none => some w.start_state
                   change_req := true } p (by simp [h])
      refine ⟨this.1, ?_⟩
      rcases this.2 with h2 | h2
      · exact Or.inl h2
      · exact Or.inl (by rw [h2])

/-- Starting without a snapshot, the second loop either changes nothing at
all, or captures the state it started from as the snapshot and sets the
change flag. -/
theorem boundsPass_snapshot (t : ℚ) (l : List JointModel) :
    ∀ (w : Working), w.prefix_state = none →
      (boundsPass t l w = w) ∨
        ((boundsPass t l w).prefix_state = some w.start_state ∧
          (boundsPass t l w).change_req = true) := by
  induction l with
  | nil => intro w _; exact Or.inl rfl
  | cons a l ih =>
    intro w h
    rw [boundsPass_cons]
    cases hc : correctable t w.start_state a with
    | false =>
      rw [correctJoint_of_not_correctable t w a hc]
      exact ih w h
    | true =>
      rw [correctJoint_of_correctable t w a hc]
      right
      have := boundsPass_prefix_some t l
        { start_state := w.start_state.enforceBounds a
          prefix_state :=
            match w.prefix_state with
            | some p => some p
            | none => some w.start_state
          change_req := true } w.start_state (by simp [h])
      refine ⟨this.1, ?_⟩
      rcases this.2 with h2 | h2
      · exact h2
      · rw [h2]

/-- The second loop changes nothing when no joint is correctable in the state it starts from. -/
theorem boundsPass_of_none_correctable (t : ℚ) (l : List JointModel) (w : Working)
    (h : ∀ j ∈ l, correctable t w.start_state j = false) :
    boundsPass t l w = w := by
  induction l with
  | nil => rfl
  | cons a l ih =>
    rw [boundsPass_cons, correctJoint_of_not_correctable t w a (h a (List.mem_cons_self a l))]
    exact ih (fun j hj => h j (List.mem_cons_of_mem a hj))

/-- A snapshot exists after the second loop exactly when one existed before or
some joint was correctable at the moment it was evaluated. -/
theorem boundsPass_prefix_isSome_iff (t : ℚ) (l : List JointModel) :
    ∀ (w : Working), (boundsPass t l w).prefix_state.isSome = true ↔
      (w.prefix_state.isSome = true ∨
        ∃ pre j post, l = pre ++ j :: post ∧
          correctable t (boundsPass t pre w).start_state j = true) := by
  induction l with
  | nil =>
    intro w
    constructor
    · intro h; exact Or.inl h
    · rintro (h | ⟨pre, j, post, h, _⟩)
      · exact h
      · simp at h
  | cons a l ih =>
    intro w
    rw [boundsPass_cons, ih]
    constructor
    · rintro (h | ⟨pre, j, post, hl, hc⟩)
      · cases hc : correctable t w.start_state a with
        | false =>
          rw [correctJoint_of_not_correctable t w a hc] at h
          exact Or.inl h
        | true => exact Or.inr ⟨[], a, l, rfl, hc⟩
      · exact Or.inr ⟨a :: pre, j, post, by rw [hl]; rfl, by rw [boundsPass_cons]; exact hc⟩
    · rintro (h | ⟨pre, j, post, hl, hc⟩)
      · left
        cases hc : correctable t w.start_state a with
        | false => rw [correctJoint_of_not_correctable t w a hc]; exact h
        | true =>
          rw [correctJoint_of_correctable t w a hc]
          cases hp : w.prefix_state <;> simp
      · cases pre with
        | nil =>
          simp only [List.nil_append, List.cons.injEq] at hl
          obtain ⟨rfl, rfl⟩ := hl
          left
          have hc2 : correctable t w.start_state a = true := hc
          rw [correctJoint_of_correctable t w a hc2]
          cases hp : w.prefix_state <;> simp
        | cons a2 pre2 =>
          simp only [List.cons_append, List.cons.injEq] at hl
          obtain ⟨rfl, rfl⟩ := hl
          right
          exact ⟨pre2, j, post, rfl, by rw [boundsPass_cons] at hc; exact hc⟩

/-- The first loop never captures a snapshot. -/
theorem normalizeJoint_prefix_state (w : Working) (jm : JointModel) :
    (normalizeJoint w jm).prefix_state = w.prefix_state := by
  unfold normalizeJoint
  split_ifs <;> rfl

/-- The first loop never captures a snapshot. -/
theorem normalizePass_prefix_state (l : List JointModel) :
    ∀ w : Working, (normalizePass l w).prefix_state = w.prefix_state := by
  induction l with
  | nil => intro w; rfl
  | cons a l ih =>
    intro w
    show (normalizePass l (normalizeJoint w a)).prefix_state = w.prefix_state
    rw [ih, normalizeJoint_prefix_state]

/-- No snapshot exists when the second loop starts. -/
theorem normalizedWorking_prefix_state (planning_scene : PlanningScene) (req : MotionPlanRequest) :
    (normalizedWorking planning_scene req).prefix_state = none := by
  unfold normalizedWorking
  rw [normalizePass_prefix_state]

/-! ### The trajectory patch -/

/-- Setting a duration keeps the number of waypoints. -/
theorem setDurationAt_length (ws : List WayPoint) :
    ∀ (index : ℕ) (value : ℚ), (setDurationAt ws index value).length = ws.length := by
  induction ws with
  | nil => intro index value; rfl
  | cons w ws ih =>
    intro index value
    cases index with
    | zero => rfl
    | succ k => simp [setDurationAt, ih]

/-- The patch when its condition holds. -/
theorem addPrefixState_of_condition (self : FixStartStateBounds) (prefix_state : Option RobotState)
    (solved : Bool) (res : MotionPlanResponse) (idx : List ℕ)
    (h : prefixCondition prefix_state res = true) :
    ∃ p trajectory, prefix_state = some p ∧ res.trajectory = some trajectory ∧
      trajectory.waypoints_ ≠ [] ∧
      self.addPrefixState prefix_state solved res idx =
        { solved := solved
          res := { res with
            trajectory := some
              ((trajectory.setWayPointDurationFromPrevious 0
                (min self.max_dt_offset_ trajectory.getAverageSegmentDuration)).addPrefixWayPoint
                  p 0) }
          added_path_index := idx.map sizeIncr ++ [0] } := by
  unfold prefixCondition at h
  cases hp : prefix_state with
  | none => simp [hp] at h
  | some p =>
    cases ht : res.trajectory with
    | none => simp [ht] at h
    | some trajectory =>
      simp only [hp, ht, Option.isSome_some, Bool.true_and, Bool.not_eq_true'] at h
      refine ⟨p, trajectory, rfl, rfl, ?_, ?_⟩
      · intro hnil
        simp [RobotTrajectory.empty, hnil] at h
      · simp [FixStartStateBounds.addPrefixState, ht, h]

/-- The patch when its condition fails. -/
theorem addPrefixState_of_not_condition (self : FixStartStateBounds)
    (prefix_state : Option RobotState) (solved : Bool) (res : MotionPlanResponse) (idx : List ℕ)
    (h : prefixCondition prefix_state res = false) :
    self.addPrefixState prefix_state solved res idx =
      { solved := solved, res := res, added_path_index := idx } := by
  unfold prefixCondition at h
  unfold FixStartStateBounds.addPrefixState
  cases hp : prefix_state with
  | none => rfl
  | some p =>
    cases ht : res.trajectory with
    | none => rfl
    | some trajectory =>
      simp only [hp, ht, Option.isSome_some, Bool.true_and, Bool.not_eq_false'] at h
      simp [h]

/-! ### Numeric lemmas -/

/-- The constant `M_PI` is positive. -/
theorem M_PI_pos : 0 < M_PI := by
  norm_num [M_PI]

/-- The constant `epsilon` is positive and far below a full turn. -/
theorem epsilon_lt_turn : 0 < epsilon ∧ epsilon < 2 * M_PI := by
  constructor <;> norm_num [epsilon, M_PI]

/-- The remainder `fmod x y` differs from `x` by an integer multiple of `y`. -/
theorem fmod_eq (x y : ℚ) : fmod x y = x - y * (trunc (x / y) : ℚ) := rfl

/-- For a positive divisor the remainder is smaller than the divisor in absolute value. -/
theorem fmod_bounds (x y : ℚ) (hy : 0 < y) : -y < fmod x y ∧ fmod x y < y := by
  unfold fmod trunc
  split_ifs with h
  · have h1 : ((⌊x / y⌋ : ℤ) : ℚ) ≤ x / y := Int.floor_le _
    have h2 : x / y < (⌊x / y⌋ : ℤ) + 1 := Int.lt_floor_add_one _
    have h3 : y * ((⌊x / y⌋ : ℤ) : ℚ) ≤ x := by
      calc y * ((⌊x / y⌋ : ℤ) : ℚ) ≤ y * (x / y) := mul_le_mul_of_nonneg_left h1 hy.le
        _ = x := by field_simp
    have h4 : x < y * ((⌊x / y⌋ : ℤ) : ℚ) + y := by
      calc x = y * (x / y) := by field_simp
        _ < y * (((⌊x / y⌋ : ℤ) : ℚ) + 1) := mul_lt_mul_of_pos_left h2 hy
        _ = y * ((⌊x / y⌋ : ℤ) : ℚ) + y := by ring
    constructor <;> linarith
  · have h1 : x / y ≤ ((⌈x / y⌉ : ℤ) : ℚ) := Int.le_ceil _
    have h2 : ((⌈x / y⌉ : ℤ) : ℚ) < x / y + 1 := Int.ceil_lt_add_one _
    have h3 : x ≤ y * ((⌈x / y⌉ : ℤ) : ℚ) := by
      calc x = y * (x / y) := by field_simp
        _ ≤ y * ((⌈x / y⌉ : ℤ) : ℚ) := mul_le_mul_of_nonneg_left h1 hy.le
    have h4 : y * ((⌈x / y⌉ : ℤ) : ℚ) < x + y := by
      calc y * ((⌈x / y⌉ : ℤ) : ℚ) < y * (x / y + 1) := mul_lt_mul_of_pos_left h2 hy
        _ = x + y := by field_simp
    constructor <;> linarith

/-- The wrap of a continuous joint lands in its canonical range and moves the
value by an integer number of full turns. -/
theorem wrapContinuous_spec (v : ℚ) :
    (-M_PI < wrapContinuous v ∧ wrapContinuous v ≤ M_PI) ∧
      ∃ k : ℤ, wrapContinuous v = v - (k : ℚ) * (2 * M_PI) := by
  have hpi := M_PI_pos
  have hb := fmod_bounds v (2 * M_PI) (by linarith)
  unfold wrapContinuous
  split_ifs with h1 h2 h3
  · refine ⟨⟨by linarith, by linarith⟩, trunc (v / (2 * M_PI)) - 1, ?_⟩
    rw [fmod_eq]; push_cast; ring
  · refine ⟨⟨by linarith, by linarith⟩, trunc (v / (2 * M_PI)) + 1, ?_⟩
    rw [fmod_eq]; push_cast; ring
  · refine ⟨⟨by linarith, by linarith⟩, trunc (v / (2 * M_PI)), ?_⟩
    rw [fmod_eq]; ring
  · refine ⟨⟨?_, ?_⟩, 0, by simp⟩
    · by_contra hc
      exact h1 (Or.inl (by linarith))
    · by_contra hc
      exact h1 (Or.inr (by linarith))

/-- A value in the canonical range is left alone by the wrap. -/
theorem wrapContinuous_of_mem (v : ℚ) (h1 : -M_PI < v) (h2 : v ≤ M_PI) :
    wrapContinuous v = v := by
  unfold wrapContinuous
  rw [if_neg]
  rintro (h | h) <;> linarith

/-- The wrap is idempotent. -/
theorem wrapContinuous_idem (v : ℚ) : wrapContinuous (wrapContinuous v) = wrapContinuous v :=
  wrapContinuous_of_mem _ (wrapContinuous_spec v).1.1 (wrapContinuous_spec v).1.2

/-- The wrap either leaves the value alone or moves it by more than `epsilon`,
so the comparison of source line 100 detects every change. -/
theorem wrapContinuous_eq_or_far (v : ℚ) :
    wrapContinuous v = v ∨ fabs (v - wrapContinuous v) > epsilon := by
  obtain ⟨_, k, hk⟩ := wrapContinuous_spec v
  by_cases h0 : k = 0
  · left
    rw [hk, h0]; simp
  · right
    have hpi := M_PI_pos
    have he := epsilon_lt_turn
    have hv : v - wrapContinuous v = (k : ℚ) * (2 * M_PI) := by rw [hk]; ring
    rw [hv]
    unfold fabs
    rcases lt_or_gt_of_ne h0 with hneg | hpos
    · have hk1 : (k : ℚ) ≤ -1 := by exact_mod_cast Int.le_sub_one_of_lt hneg
      have : (k : ℚ) * (2 * M_PI) < 0 := by nlinarith
      rw [if_pos this]
      nlinarith
    · have hk1 : (1 : ℚ) ≤ k := by exact_mod_cast hpos
      have : ¬ ((k : ℚ) * (2 * M_PI) < 0) := by
        push_neg
        positivity
      rw [if_neg this]
      nlinarith

/-- The rounded-up integer square root: its square reaches `c`, and the square
of its predecessor does not. -/
theorem ceilSqrt_spec (c : ℕ) :
    c ≤ ceilSqrt c * ceilSqrt c ∧ (0 < c → (ceilSqrt c - 1) * (ceilSqrt c - 1) < c) := by
  unfold ceilSqrt
  have h1 := Nat.sqrt_le c
  have h2 := Nat.lt_succ_sqrt c
  split_ifs with h
  · refine ⟨h.ge, fun hc => ?_⟩
    have hpos : 0 < Nat.sqrt c := Nat.sqrt_pos.mpr hc
    have hlt : Nat.sqrt c - 1 < Nat.sqrt c := Nat.sub_lt hpos Nat.one_pos
    calc (Nat.sqrt c - 1) * (Nat.sqrt c - 1) < Nat.sqrt c * Nat.sqrt c :=
          Nat.mul_self_lt_mul_self hlt
      _ = c := h
  · refine ⟨h2.le, fun _ => ?_⟩
    simp only [Nat.add_sub_cancel]
    exact lt_of_le_of_ne h1 h

/-- From the square of `s` reaching `c` and the square of `s - 1` missing it,
with `s` at least `2 ^ 52`: the ratio of `c` to the square of `s` is within
`2 / 2 ^ 52` below 1. -/
theorem ratio_near_one (c s : ℚ) (hs : 4503599627370496 ≤ s) (h1 : c ≤ s * s)
    (h2 : (s - 1) * (s - 1) < c) :
    c / (s * s) ≤ 1 ∧ 1 - 2 / 4503599627370496 ≤ c / (s * s) := by
  have hspos : 0 < s := by linarith
  have hss : 0 < s * s := by positivity
  constructor
  · rw [div_le_one hss]; exact h1
  · rw [le_div_iff₀ hss]
    have h3 : 1 ≤ s / 4503599627370496 := by
      rw [le_div_iff₀ (by norm_num)]; linarith
    have h4 : 2 / 4503599627370496 * (s * s) = 2 * s * (s / 4503599627370496) := by ring
    have h5 : 2 * s ≤ 2 * s * (s / 4503599627370496) := by nlinarith
    nlinarith

/-- The rounded-up integer square root of a number of at least `2 ^ 104` is at least `2 ^ 52`. -/
theorem ceilSqrt_large (c : ℕ) (hc : 20282409603651670423947251286016 ≤ c) :
    4503599627370496 ≤ ceilSqrt c := by
  by_contra hlt
  push_neg at hlt
  have h1 : ceilSqrt c * ceilSqrt c < 4503599627370496 * 4503599627370496 :=
    Nat.mul_self_lt_mul_self hlt
  have h2 := (ceilSqrt_spec c).1
  have h3 : (4503599627370496 : ℕ) * 4503599627370496 = 20282409603651670423947251286016 := by
    norm_num
  omega

/-- The square root is accurate: for positive `x` it is positive and its square
matches `x` up to a relative error far below the threshold `epsilon * 100`. -/
theorem sqrt_accurate (x : ℚ) (hx : 0 < x) :
    0 < sqrt x ∧ fabs (x / (sqrt x * sqrt x) - 1) ≤ epsilon * 100 := by
  have hnum : 0 < x.num := Rat.num_pos.mpr hx
  have hden : 0 < x.den := x.den_pos
  have hpow : (2 : ℕ) ^ 104 = 20282409603651670423947251286016 := by norm_num
  have hpowq : (2 : ℚ) ^ 52 = 4503599627370496 := by norm_num
  have hsqrt : sqrt x = (ceilSqrt (x.num.toNat * x.den * 20282409603651670423947251286016) : ℚ)
      / (4503599627370496 * (x.den : ℚ)) := by
    unfold sqrt
    rw [if_neg (not_le.mpr hx), hpow, hpowq]
  have hxeq : x = (x.num.toNat : ℚ) / x.den := by
    have h1 : ((x.num.toNat : ℤ) : ℚ) = (x.num : ℚ) := by
      rw [Int.toNat_of_nonneg hnum.le]
    have h2 : ((x.num.toNat : ℕ) : ℚ) = ((x.num.toNat : ℤ) : ℚ) := by norm_cast
    rw [h2, h1]
    exact (Rat.num_div_den x).symm
  have hn1 : 0 < x.num.toNat * x.den := Nat.mul_pos (by omega) hden
  have hcge : 20282409603651670423947251286016
      ≤ x.num.toNat * x.den * 20282409603651670423947251286016 :=
    Nat.le_mul_of_pos_left _ hn1
  have hcq : ((x.num.toNat * x.den * 20282409603651670423947251286016 : ℕ) : ℚ)
      = (x.num.toNat : ℚ) * x.den * 20282409603651670423947251286016 := by
    push_cast; ring
  generalize hcdef : x.num.toNat * x.den * 20282409603651670423947251286016 = c at hsqrt hcge hcq
  obtain ⟨hc1, hc2⟩ := ceilSqrt_spec c
  have hc2 := hc2 (by omega)
  have hs52 := ceilSqrt_large c hcge
  generalize hsdef : ceilSqrt c = s at hsqrt hc1 hc2 hs52
  have hs1 : 1 ≤ s := le_trans (by norm_num) hs52
  have hsq : (s : ℚ) = ((s - 1 : ℕ) : ℚ) + 1 := by
    rw [Nat.cast_sub hs1]; simp
  have hc1q : (c : ℚ) ≤ (s : ℚ) * s := by exact_mod_cast hc1
  have hc2q : ((s : ℚ) - 1) * ((s : ℚ) - 1) < c := by
    have : (((s - 1 : ℕ) : ℚ)) * ((s - 1 : ℕ) : ℚ) < c := by exact_mod_cast hc2
    rw [hsq]; simpa using this
  have hs52q : (4503599627370496 : ℚ) ≤ s := by exact_mod_cast hs52
  have hspos : (0 : ℚ) < s := by linarith
  have hdq : (0 : ℚ) < x.den := by exact_mod_cast hden
  have hratio : x / (sqrt x * sqrt x) = (c : ℚ) / ((s : ℚ) * s) := by
    rw [hsqrt, hcq]
    nth_rewrite 1 [hxeq]
    field_simp
    ring
  refine ⟨by rw [hsqrt]; positivity, ?_⟩
  rw [hratio]
  obtain ⟨hle1, hge⟩ := ratio_near_one (c : ℚ) (s : ℚ) hs52q hc1q hc2q
  have he : epsilon * 100 = 100 / 4503599627370496 := by
    unfold epsilon; ring
  rw [he]
  unfold fabs
  split_ifs with hneg
  · linarith
  · linarith

/-! ### Bounds satisfaction and enforcement -/

/-- The bounds of a list are satisfied from variable `k` on exactly when each
bound is satisfied by its variable. -/
theorem satisfiesFrom_iff (bs : List VariableBounds) :
    ∀ (k : ℕ) (values : ℕ → ℚ) (margin : ℚ),
      satisfiesFrom bs k values margin = true ↔
        ∀ (i : ℕ) (b : VariableBounds), bs[i]? = some b →
          b.satisfies (values (k + i)) margin = true := by
  induction bs with
  | nil => intro k values margin; simp [satisfiesFrom]
  | cons a bs ih =>
    intro k values margin
    simp only [satisfiesFrom, Bool.and_eq_true, ih]
    constructor
    · rintro ⟨h0, hrest⟩ i b hb
      cases i with
      | zero =>
        simp only [List.getElem?_cons_zero, Option.some.injEq] at hb
        subst hb
        exact h0
      | succ i =>
        simp only [List.getElem?_cons_succ] at hb
        have := hrest i b hb
        rwa [show k + 1 + i = k + (i + 1) by omega] at this
    · intro h
      refine ⟨h 0 a (by simp), fun i b hb => ?_⟩
      have := h (i + 1) b (by simpa using hb)
      rwa [show k + (i + 1) = k + 1 + i by omega] at this

/-- The position bounds of a joint are among its declared bounds. -/
theorem mem_positionBounds (jm : JointModel) (b : VariableBounds) (h : b ∈ jm.positionBounds) :
    b ∈ jm.variable_bounds_ := by
  unfold JointModel.positionBounds at h
  split at h
  · exact List.mem_of_mem_take h
  · exact List.mem_of_mem_take h
  · exact h

/-- A clamped variable satisfies its bounds strictly when they are ordered. -/
theorem clamp_satisfies (b : VariableBounds) (v : ℚ) (h : b.min_position_ ≤ b.max_position_) :
    b.satisfies (b.clamp v) 0 = true := by
  unfold VariableBounds.satisfies VariableBounds.clamp
  split_ifs with h1 h2
  · simp; exact h
  · simp; exact h
  · simp; push_neg at h1 h2; exact ⟨h1, h2⟩

/-- Bounds enforcement establishes strict bounds satisfaction, for a joint model
whose bounds are ordered. -/
theorem satisfies_enforcePositionBounds (jm : JointModel)
    (hord : ∀ b ∈ jm.variable_bounds_, b.min_position_ ≤ b.max_position_) (values : ℕ → ℚ) :
    jm.satisfiesPositionBounds (jm.enforcePositionBounds values) 0 = true := by
  unfold JointModel.satisfiesPositionBounds JointModel.enforcePositionBounds
  split_ifs with hc
  · rfl
  · rw [satisfiesFrom_iff]
    intro i b hb
    simp only [Nat.zero_add, hb]
    exact clamp_satisfies b _ (hord b (mem_positionBounds jm b (List.getElem?_mem hb)))

/-- Bounds satisfaction of a joint reads only the values of that joint. -/
theorem satisfiesBounds_congr (s s2 : RobotState) (jm : JointModel) (margin : ℚ)
    (h : s.position_ jm.name_ = s2.position_ jm.name_) :
    s.satisfiesBounds jm margin = s2.satisfiesBounds jm margin := by
  unfold RobotState.satisfiesBounds RobotState.getJointPositions
  rw [h]

/-- After bounds enforcement a joint with ordered bounds satisfies them strictly. -/
theorem satisfiesBounds_enforceBounds (s : RobotState) (jm : JointModel)
    (hord : ∀ b ∈ jm.variable_bounds_, b.min_position_ ≤ b.max_position_) :
    (s.enforceBounds jm).satisfiesBounds jm 0 = true := by
  unfold RobotState.satisfiesBounds RobotState.getJointPositions RobotState.enforceBounds
  simp only [if_true]
  exact satisfies_enforcePositionBounds jm hord _

/-! ### One joint in a loop over joints with distinct names -/

/-- In a loop over joints with distinct names, the final values of a joint of
the list are those its own step produced, from a state in which that joint
still had its initial values. -/
theorem foldl_own (step : Working → JointModel → Working)
    (hstep : ∀ w jm n, n ≠ jm.name_ →
      (step w jm).start_state.position_ n = w.start_state.position_ n) :
    ∀ (l : List JointModel) (w : Working) (jm : JointModel),
      (l.map JointModel.name_).Nodup → jm ∈ l →
      ∃ w2 : Working,
        w2.start_state.position_ jm.name_ = w.start_state.position_ jm.name_ ∧
        (l.foldl step w).start_state.position_ jm.name_
          = (step w2 jm).start_state.position_ jm.name_ := by
  intro l
  induction l with
  | nil => intro w jm _ hjm; simp at hjm
  | cons a l ih =>
    intro w jm hnd hjm
    simp only [List.map_cons, List.nodup_cons] at hnd
    rw [List.foldl_cons]
    rcases List.mem_cons.mp hjm with rfl | hmem
    · exact ⟨w, rfl, foldl_frame step hstep l (step w jm) jm.name_ hnd.1⟩
    · have hne : jm.name_ ≠ a.name_ := by
        intro heq
        exact hnd.1 (heq ▸ List.mem_map_of_mem JointModel.name_ hmem)
      obtain ⟨w2, h1, h2⟩ := ih (step w a) jm hnd.2 hmem
      exact ⟨w2, by rw [h1, hstep w a jm.name_ hne], h2⟩

/-- The classification of a joint reads only the values of that joint. -/
theorem correctable_congr (t : ℚ) (s s2 : RobotState) (jm : JointModel)
    (h : s.position_ jm.name_ = s2.position_ jm.name_) :
    correctable t s jm = correctable t s2 jm := by
  unfold correctable
  rw [satisfiesBounds_congr s s2 jm 0 h, satisfiesBounds_congr s s2 jm t h]

/-- The values of the joint a state enforces bounds on. -/
theorem enforceBounds_position (s : RobotState) (jm : JointModel) :
    (s.enforceBounds jm).position_ jm.name_ = jm.enforcePositionBounds (s.position_ jm.name_) := by
  simp [RobotState.enforceBounds]

/-- A joint that is correctable when the second loop starts, in a list of
joints with distinct names: its final values are the enforced ones, the
snapshot is the state the loop started from, and the change flag is set. -/
theorem boundsPass_correctable_joint (t : ℚ) (l : List JointModel) (w : Working)
    (jm : JointModel) (hnd : (l.map JointModel.name_).Nodup) (hjm : jm ∈ l)
    (hw : w.prefix_state = none) (hc : correctable t w.start_state jm = true) :
    (boundsPass t l w).start_state.position_ jm.name_
        = jm.enforcePositionBounds (w.start_state.position_ jm.name_) ∧
      (boundsPass t l w).prefix_state = some w.start_state ∧
      (boundsPass t l w).change_req = true := by
  constructor
  · obtain ⟨w2, h1, h2⟩ := foldl_own (correctJoint t) (correctJoint_frame t) l w jm hnd hjm
    have hc2 : correctable t w2.start_state jm = true := by
      rw [correctable_congr t w2.start_state w.start_state jm h1]; exact hc
    unfold boundsPass
    rw [h2, correctJoint_of_correctable t w2 jm hc2]
    simp only [enforceBounds_position, h1]
  · obtain ⟨pre, post, hl⟩ := List.append_of_mem hjm
    have hpre : jm.name_ ∉ pre.map JointModel.name_ := by
      rw [hl, List.map_append, List.map_cons] at hnd
      intro hmem
      exact (List.nodup_append.mp hnd).2.2 hmem (List.mem_cons_self _ _)
    have hsome : (boundsPass t l w).prefix_state.isSome = true := by
      rw [boundsPass_prefix_isSome_iff]
      right
      refine ⟨pre, jm, post, hl, ?_⟩
      rw [correctable_congr t _ w.start_state jm (boundsPass_frame t pre w jm.name_ hpre)]
      exact hc
    rcases boundsPass_snapshot t l w hw with h | h
    · rw [h, hw] at hsome
      simp at hsome
    · exact h

/-- A joint that is not correctable when the second loop starts, in a list of
joints with distinct names, keeps its values. -/
theorem boundsPass_uncorrectable_joint (t : ℚ) (l : List JointModel) (w : Working)
    (jm : JointModel) (hnd : (l.map JointModel.name_).Nodup) (hjm : jm ∈ l)
    (hc : correctable t w.start_state jm = false) :
    (boundsPass t l w).start_state.position_ jm.name_ = w.start_state.position_ jm.name_ := by
  obtain ⟨w2, h1, h2⟩ := foldl_own (correctJoint t) (correctJoint_frame t) l w jm hnd hjm
  have hc2 : correctable t w2.start_state jm = false := by
    rw [correctable_congr t w2.start_state w.start_state jm h1]; exact hc
  unfold boundsPass
  rw [h2, correctJoint_of_not_correctable t w2 jm hc2, h1]

/-- The first loop does nothing for a joint that is neither a continuous
revolute joint, nor planar, nor floating. -/
theorem normalizeJoint_of_other (w : Working) (jm : JointModel)
    (h1 : jm.isContinuousRevolute = false) (h2 : jm.type_ ≠ JointType.PLANAR)
    (h3 : jm.type_ ≠ JointType.FLOATING) :
    normalizeJoint w jm = w := by
  unfold normalizeJoint
  unfold JointModel.isContinuousRevolute at h1
  split_ifs with ha hb <;> simp_all

/-- In a list of joints with distinct names, the first loop keeps the values
of a joint that is neither continuous revolute, nor planar, nor floating. -/
theorem normalizePass_other (l : List JointModel) (w : Working) (jm : JointModel)
    (hnd : (l.map JointModel.name_).Nodup) (hjm : jm ∈ l)
    (h1 : jm.isContinuousRevolute = false) (h2 : jm.type_ ≠ JointType.PLANAR)
    (h3 : jm.type_ ≠ JointType.FLOATING) :
    (normalizePass l w).start_state.position_ jm.name_ = w.start_state.position_ jm.name_ := by
  obtain ⟨w2, h4, h5⟩ := foldl_own normalizeJoint normalizeJoint_frame l w jm hnd hjm
  unfold normalizePass
  rw [h5, normalizeJoint_of_other w2 jm h1 h2 h3, h4]

/-- The start state the planner receives, when the change flag is set, is the
working state after both loops. -/
theorem plannerRequest_start_state (self : FixStartStateBounds) (planning_scene : PlanningScene)
    (req : MotionPlanRequest) (h : (self.fixStartState planning_scene req).change_req = true) :
    (self.plannerRequest planning_scene req).start_state
        = robotStateToRobotStateMsg (self.fixStartState planning_scene req).start_state ∧
      specifiedStartState planning_scene (self.plannerRequest planning_scene req)
        = (self.fixStartState planning_scene req).start_state := by
  have hr : (self.plannerRequest planning_scene req).start_state
      = robotStateToRobotStateMsg (self.fixStartState planning_scene req).start_state := by
    simp [FixStartStateBounds.plannerRequest, h]
  refine ⟨hr, ?_⟩
  unfold specifiedStartState
  rw [hr, robotStateMsg_roundtrip]

/-- The joint models of the request the planner receives are those of the original request. -/
theorem plannerRequest_jointModels (self : FixStartStateBounds) (planning_scene : PlanningScene)
    (req : MotionPlanRequest) :
    selectJointModels planning_scene (self.plannerRequest planning_scene req)
      = selectJointModels planning_scene req := by
  unfold FixStartStateBounds.plannerRequest
  split_ifs <;> rfl

/-! ### The first loop brings every joint to normal form -/

/-- The flag of the planar normalization reads only the yaw component. -/
theorem planar_flag (l : List ℚ) :
    (PlanarJointModel.normalizeRotation l).1
      = !decide (-M_PI ≤ l.getD 2 0 ∧ l.getD 2 0 ≤ M_PI) := by
  unfold PlanarJointModel.normalizeRotation
  by_cases h : (-M_PI ≤ l.getD 2 0 ∧ l.getD 2 0 ≤ M_PI)
  · rw [if_pos h, decide_eq_true h]; rfl
  · rw [if_neg h, decide_eq_false h]; rfl

/-- The planar normalization on the three values of a joint. -/
theorem planar_copy3 (p : ℕ → ℚ) :
    PlanarJointModel.normalizeRotation (copy3 p) =
      if -M_PI ≤ p 2 ∧ p 2 ≤ M_PI then (false, [p 0, p 1, p 2])
      else (true, [p 0, p 1,
        if fmod (p 2) (2 * M_PI) < -M_PI then fmod (p 2) (2 * M_PI) + 2 * M_PI
        else if fmod (p 2) (2 * M_PI) > M_PI then fmod (p 2) (2 * M_PI) - 2 * M_PI
        else fmod (p 2) (2 * M_PI)]) := rfl

/-- When the planar normalization changes the values, it replaces the yaw
component by a value of the canonical range. -/
theorem planar_changed (p : ℕ → ℚ)
    (h : (PlanarJointModel.normalizeRotation (copy3 p)).1 = true) :
    ∃ y, (PlanarJointModel.normalizeRotation (copy3 p)).2 = [p 0, p 1, y] ∧
      -M_PI ≤ y ∧ y ≤ M_PI := by
  have hpi := M_PI_pos
  have hb := fmod_bounds (p 2) (2 * M_PI) (by linarith)
  rw [planar_copy3] at h ⊢
  by_cases h1 : (-M_PI ≤ p 2 ∧ p 2 ≤ M_PI)
  · rw [if_pos h1] at h
    simp at h
  · rw [if_neg h1]
    refine ⟨_, rfl, ?_, ?_⟩
    · split_ifs <;> linarith
    · split_ifs <;> linarith

/-- The flag of the floating normalization reads only the squared norm of the quaternion. -/
theorem floating_flag (l : List ℚ) :
    (FloatingJointModel.normalizeRotation l).1
      = decide (fabs (quaternionNormSqr l - 1) > epsilon * 100) := by
  unfold FloatingJointModel.normalizeRotation
  by_cases h : fabs (quaternionNormSqr l - 1) > epsilon * 100
  · rw [if_pos h, decide_eq_true h]
    split_ifs <;> rfl
  · rw [if_neg h, decide_eq_false h]

/-- The squared norm of the quaternion among the seven values of a joint. -/
theorem quaternionNormSqr_copy7 (p : ℕ → ℚ) :
    quaternionNormSqr (copy7 p) = p 3 * p 3 + p 4 * p 4 + p 5 * p 5 + p 6 * p 6 := rfl

/-- The floating normalization on the seven values of a joint. -/
theorem floating_copy7 (p : ℕ → ℚ) :
    FloatingJointModel.normalizeRotation (copy7 p) =
      if fabs (quaternionNormSqr (copy7 p) - 1) > epsilon * 100 then
        if sqrt (quaternionNormSqr (copy7 p)) < epsilon * 100 then
          (true, [p 0, p 1, p 2, 0, 0, 0, 1])
        else
          (true, [p 0, p 1, p 2, p 3 / sqrt (quaternionNormSqr (copy7 p)),
            p 4 / sqrt (quaternionNormSqr (copy7 p)), p 5 / sqrt (quaternionNormSqr (copy7 p)),
            p 6 / sqrt (quaternionNormSqr (copy7 p))])
      else (false, copy7 p) := rfl

/-- When the floating normalization changes the values, it keeps the
translation and leaves a quaternion whose squared norm is 1 up to the
threshold. -/
theorem floating_changed (p : ℕ → ℚ)
    (h : (FloatingJointModel.normalizeRotation (copy7 p)).1 = true) :
    ∃ q3 q4 q5 q6, (FloatingJointModel.normalizeRotation (copy7 p)).2
        = [p 0, p 1, p 2, q3, q4, q5, q6] ∧
      fabs (q3 * q3 + q4 * q4 + q5 * q5 + q6 * q6 - 1) ≤ epsilon * 100 := by
  rw [floating_copy7] at h ⊢
  by_cases h1 : fabs (quaternionNormSqr (copy7 p) - 1) > epsilon * 100
  · rw [if_pos h1]
    by_cases h2 : sqrt (quaternionNormSqr (copy7 p)) < epsilon * 100
    · rw [if_pos h2]
      refine ⟨0, 0, 0, 1, rfl, ?_⟩
      norm_num [fabs, epsilon]
    · rw [if_neg h2]
      push_neg at h2
      have he : (0 : ℚ) < epsilon * 100 := by norm_num [epsilon]
      have hpos : 0 < quaternionNormSqr (copy7 p) := by
        by_contra hn
        push_neg at hn
        have : sqrt (quaternionNormSqr (copy7 p)) = 0 := by
          unfold sqrt
          rw [if_pos hn]
        rw [this] at h2
        linarith
      obtain ⟨hs, hacc⟩ := sqrt_accurate _ hpos
      refine ⟨_, _, _, _, rfl, ?_⟩
      have hne : sqrt (quaternionNormSqr (copy7 p)) ≠ 0 := ne_of_gt hs
      generalize sqrt (quaternionNormSqr (copy7 p)) = r at hacc hne ⊢
      have heq : p 3 / r * (p 3 / r) + p 4 / r * (p 4 / r) + p 5 / r * (p 5 / r)
          + p 6 / r * (p 6 / r) = quaternionNormSqr (copy7 p) / (r * r) := by
        rw [quaternionNormSqr_copy7]
        field_simp
      rw [heq]
      exact hacc
  · rw [if_neg h1] at h
    simp at h

/-- The first loop does nothing for a joint whose values are in normal form. -/
theorem normalizeJoint_of_isNormalized (w : Working) (jm : JointModel)
    (h : jm.isNormalized (w.start_state.position_ jm.name_)) :
    normalizeJoint w jm = w := by
  obtain ⟨hc, hp, hf⟩ := h
  unfold normalizeJoint
  split_ifs with h1 h2 h3 h4 h5 h6 h7
  · exfalso
    have hcr : jm.isContinuousRevolute = true := by
      simp [JointModel.isContinuousRevolute, h1, h2]
    have hwrap := hc hcr
    have hsame : w.start_state.enforceBounds jm = w.start_state := by
      apply RobotState.ext
      funext n k
      simp only [RobotState.enforceBounds, JointModel.enforcePositionBounds, hcr, if_true]
      by_cases hn : n = jm.name_
      · subst hn
        by_cases hk : k = 0
        · subst hk; simp [hwrap]
        · simp [hk]
      · simp [hn]
    rw [hsame] at h3
    have he := epsilon_lt_turn.1
    simp [fabs] at h3
    linarith
  · have hcr : jm.isContinuousRevolute = true := by
      simp [JointModel.isContinuousRevolute, h1, h2]
    have hwrap := hc hcr
    have hsame : w.start_state.enforceBounds jm = w.start_state := by
      apply RobotState.ext
      funext n k
      simp only [RobotState.enforceBounds, JointModel.enforcePositionBounds, hcr, if_true]
      by_cases hn : n = jm.name_
      · subst hn
        by_cases hk : k = 0
        · subst hk; simp [hwrap]
        · simp [hk]
      · simp [hn]
    rw [hsame]
  · rfl
  · exfalso
    have := hp h4
    simp only [RobotState.getJointPositions] at h5
    rw [this] at h5
    simp at h5
  · rfl
  · exfalso
    have := hf h6
    simp only [RobotState.getJointPositions] at h7
    rw [this] at h7
    simp at h7
  · rfl
  · rfl

/-- After its step of the first loop, the values of a joint are in normal form. -/
theorem normalizeJoint_isNormalized (w : Working) (jm : JointModel) :
    jm.isNormalized ((normalizeJoint w jm).start_state.position_ jm.name_) := by
  refine ⟨?_, ?_, ?_⟩
  · intro hcr
    have h1 : jm.type_ = JointType.REVOLUTE := by
      simp [JointModel.isContinuousRevolute] at hcr; exact hcr.1
    have h2 : jm.continuous_ = true := by
      simp [JointModel.isContinuousRevolute] at hcr; exact hcr.2
    have hpos : (normalizeJoint w jm).start_state.position_ jm.name_ 0
        = wrapContinuous (w.start_state.position_ jm.name_ 0) := by
      unfold normalizeJoint
      simp only [h1, h2, if_true]
      split_ifs <;>
        simp [RobotState.enforceBounds, JointModel.enforcePositionBounds, hcr]
    rw [hpos, wrapContinuous_idem]
  · intro hpl
    have hnr : jm.type_ ≠ JointType.REVOLUTE := by rw [hpl]; decide
    unfold normalizeJoint
    rw [if_neg hnr, if_pos hpl]
    split_ifs with h5
    · obtain ⟨y, hy, hy1, hy2⟩ := planar_changed _ h5
      rw [planar_flag]
      simp only [RobotState.setJointPositions, ↓reduceIte]
      rw [hy]
      simp [copy3, hy1, hy2]
    · simp only [RobotState.getJointPositions] at h5
      simpa using h5
  · intro hfl
    have hnr : jm.type_ ≠ JointType.REVOLUTE := by rw [hfl]; decide
    have hnp : jm.type_ ≠ JointType.PLANAR := by rw [hfl]; decide
    unfold normalizeJoint
    rw [if_neg hnr, if_neg hnp, if_pos hfl]
    split_ifs with h5
    · obtain ⟨q3, q4, q5, q6, hq, hacc⟩ := floating_changed _ h5
      rw [floating_flag]
      simp only [RobotState.setJointPositions, ↓reduceIte]
      rw [hq]
      simp only [copy7, List.getD_cons_succ, List.getD_cons_zero, quaternionNormSqr,
        decide_eq_false_iff_not, not_lt]
      exact hacc
    · simp only [RobotState.getJointPositions] at h5
      simpa using h5

/-- Bounds satisfaction reads only the variables that have a bound. -/
theorem satisfiesFrom_congr (bs : List VariableBounds) (k : ℕ) (v v2 : ℕ → ℚ) (margin : ℚ)
    (h : ∀ i, i < bs.length → v (k + i) = v2 (k + i)) :
    satisfiesFrom bs k v margin = satisfiesFrom bs k v2 margin := by
  rw [Bool.eq_iff_iff, satisfiesFrom_iff, satisfiesFrom_iff]
  constructor
  · intro hs i b hb
    rw [← h i (List.getElem?_eq_some.mp hb).1]
    exact hs i b hb
  · intro hs i b hb
    rw [h i (List.getElem?_eq_some.mp hb).1]
    exact hs i b hb

/-- A planar joint has at most two position bounds. -/
theorem positionBounds_planar (jm : JointModel) (h : jm.type_ = JointType.PLANAR) :
    jm.positionBounds = jm.variable_bounds_.take 2 := by
  simp [JointModel.positionBounds, h]

/-- A floating joint has at most three position bounds. -/
theorem positionBounds_floating (jm : JointModel) (h : jm.type_ = JointType.FLOATING) :
    jm.positionBounds = jm.variable_bounds_.take 3 := by
  simp [JointModel.positionBounds, h]

/-- A planar or floating joint is not a continuous revolute joint. -/
theorem isContinuousRevolute_of_ne (jm : JointModel) (h : jm.type_ ≠ JointType.REVOLUTE) :
    jm.isContinuousRevolute = false := by
  simp [JointModel.isContinuousRevolute, h]

/-- The first loop does not change whether its joint satisfies its bounds:
it rewrites rotation components only, and a continuous joint has no limit. -/
theorem normalizeJoint_satisfiesBounds (w : Working) (jm : JointModel) (margin : ℚ) :
    (normalizeJoint w jm).start_state.satisfiesBounds jm margin
      = w.start_state.satisfiesBounds jm margin := by
  by_cases hcr : jm.isContinuousRevolute = true
  · simp [RobotState.satisfiesBounds, JointModel.satisfiesPositionBounds, hcr]
  · have hcr2 : jm.isContinuousRevolute = false := by simpa using hcr
    by_cases hpl : jm.type_ = JointType.PLANAR
    · have hnr : jm.type_ ≠ JointType.REVOLUTE := by rw [hpl]; decide
      unfold normalizeJoint
      rw [if_neg hnr, if_pos hpl]
      split_ifs with h5
      · obtain ⟨y, hy, _, _⟩ := planar_changed _ h5
        simp only [RobotState.satisfiesBounds, RobotState.getJointPositions,
          JointModel.satisfiesPositionBounds, hcr2, RobotState.setJointPositions, ↓reduceIte,
          Bool.false_eq_true]
        rw [positionBounds_planar jm hpl]
        apply satisfiesFrom_congr
        intro i hi
        have hi2 : i < 2 := lt_of_lt_of_le hi (List.length_take_le _ _)
        have hy2 : (PlanarJointModel.normalizeRotation (copy3 (w.start_state.position_ jm.name_))).2
            = [w.start_state.position_ jm.name_ 0, w.start_state.position_ jm.name_ 1, y] := hy
        rw [hy2]
        interval_cases i <;> simp
      · rfl
    · by_cases hfl : jm.type_ = JointType.FLOATING
      · have hnr : jm.type_ ≠ JointType.REVOLUTE := by rw [hfl]; decide
        unfold normalizeJoint
        rw [if_neg hnr, if_neg hpl, if_pos hfl]
        split_ifs with h5
        · obtain ⟨q3, q4, q5, q6, hq, _⟩ := floating_changed _ h5
          simp only [RobotState.satisfiesBounds, RobotState.getJointPositions,
            JointModel.satisfiesPositionBounds, hcr2, RobotState.setJointPositions, ↓reduceIte,
            Bool.false_eq_true]
          rw [positionBounds_floating jm hfl]
          apply satisfiesFrom_congr
          intro i hi
          have hi2 : i < 3 := lt_of_lt_of_le hi (List.length_take_le _ _)
          have hq2 : (FloatingJointModel.normalizeRotation
              (copy7 (w.start_state.position_ jm.name_))).2
              = [w.start_state.position_ jm.name_ 0, w.start_state.position_ jm.name_ 1,
                  w.start_state.position_ jm.name_ 2, q3, q4, q5, q6] := hq
          rw [hq2]
          interval_cases i <;> simp
        · rfl
      · rw [normalizeJoint_of_other w jm hcr2 hpl hfl]

/-- Bounds enforcement keeps the values of a joint in normal form: the wrap
is idempotent and the clamp does not touch rotation components. -/
theorem enforcePositionBounds_isNormalized (jm : JointModel) (p : ℕ → ℚ)
    (h : jm.isNormalized p) : jm.isNormalized (jm.enforcePositionBounds p) := by
  obtain ⟨_, hp, hf⟩ := h
  refine ⟨?_, ?_, ?_⟩
  · intro hcr
    simp only [JointModel.enforcePositionBounds, hcr, ↓reduceIte]
    exact wrapContinuous_idem _
  · intro hpl
    have hnr : jm.type_ ≠ JointType.REVOLUTE := by rw [hpl]; decide
    have hcr := isContinuousRevolute_of_ne jm hnr
    have h2 : jm.enforcePositionBounds p 2 = p 2 := by
      simp [JointModel.enforcePositionBounds, hcr, positionBounds_planar jm hpl,
        List.getElem?_take_eq_none]
    have := hp hpl
    rw [planar_flag] at this ⊢
    simp only [copy3, List.getD_cons_succ, List.getD_cons_zero] at this ⊢
    simp only [h2]
    exact this
  · intro hfl
    have hnr : jm.type_ ≠ JointType.REVOLUTE := by rw [hfl]; decide
    have hcr := isContinuousRevolute_of_ne jm hnr
    have hk : ∀ k, 3 ≤ k → jm.enforcePositionBounds p k = p k := by
      intro k hk
      simp [JointModel.enforcePositionBounds, hcr, positionBounds_floating jm hfl,
        List.getElem?_take_eq_none hk]
    have := hf hfl
    rw [floating_flag, quaternionNormSqr_copy7] at this ⊢
    simp only [hk 3 (by norm_num), hk 4 (by norm_num), hk 5 (by norm_num), hk 6 (by norm_num)]
    exact this

/-- After the first loop over joints with distinct names, the values of
every joint of the list are in normal form. -/
theorem normalizePass_isNormalized (l : List JointModel) (w : Working) (jm : JointModel)
    (hnd : (l.map JointModel.name_).Nodup) (hjm : jm ∈ l) :
    jm.isNormalized ((normalizePass l w).start_state.position_ jm.name_) := by
  obtain ⟨w2, _, h2⟩ := foldl_own normalizeJoint normalizeJoint_frame l w jm hnd hjm
  unfold normalizePass
  rw [h2]
  exact normalizeJoint_isNormalized w2 jm

/-- The first loop over joints with distinct names does not change whether a
joint of the list satisfies its bounds. -/
theorem normalizePass_satisfiesBounds (l : List JointModel) (w : Working) (jm : JointModel)
    (margin : ℚ) (hnd : (l.map JointModel.name_).Nodup) (hjm : jm ∈ l) :
    (normalizePass l w).start_state.satisfiesBounds jm margin
      = w.start_state.satisfiesBounds jm margin := by
  obtain ⟨w2, h1, h2⟩ := foldl_own normalizeJoint normalizeJoint_frame l w jm hnd hjm
  unfold normalizePass
  rw [satisfiesBounds_congr _ (normalizeJoint w2 jm).start_state jm margin h2,
    normalizeJoint_satisfiesBounds, satisfiesBounds_congr _ _ jm margin h1]

/-- After the second loop over joints with distinct names and ordered bounds,
every joint of the list keeps its normal form and is no longer correctable. -/
theorem boundsPass_settled (t : ℚ) (l : List JointModel) (w : Working) (jm : JointModel)
    (hnd : (l.map JointModel.name_).Nodup) (hjm : jm ∈ l)
    (hord : ∀ b ∈ jm.variable_bounds_, b.min_position_ ≤ b.max_position_)
    (hnorm : jm.isNormalized (w.start_state.position_ jm.name_)) :
    jm.isNormalized ((boundsPass t l w).start_state.position_ jm.name_) ∧
      correctable t (boundsPass t l w).start_state jm = false := by
  obtain ⟨w2, h1, h2⟩ := foldl_own (correctJoint t) (correctJoint_frame t) l w jm hnd hjm
  have h2b : (boundsPass t l w).start_state.position_ jm.name_
      = (correctJoint t w2 jm).start_state.position_ jm.name_ := h2
  rw [correctable_congr t _ (correctJoint t w2 jm).start_state jm h2b, h2b]
  cases hc : correctable t w2.start_state jm with
  | false =>
    rw [correctJoint_of_not_correctable t w2 jm hc, h1]
    exact ⟨hnorm, hc⟩
  | true =>
    rw [correctJoint_of_correctable t w2 jm hc]
    constructor
    · simp only [enforceBounds_position, h1]
      exact enforcePositionBounds_isNormalized jm _ hnorm
    · unfold correctable
      rw [satisfiesBounds_enforceBounds _ jm hord]
      rfl

/-- The two loops change nothing on a state in which every joint of the list
is in normal form and not correctable. -/
theorem passes_of_settled (t : ℚ) (l : List JointModel) (w : Working)
    (h : ∀ jm ∈ l, jm.isNormalized (w.start_state.position_ jm.name_) ∧
      correctable t w.start_state jm = false) :
    normalizePass l w = w ∧ boundsPass t l w = w := by
  have hn : ∀ (l2 : List JointModel), (∀ jm ∈ l2, jm ∈ l) → normalizePass l2 w = w := by
    intro l2
    induction l2 with
    | nil => intro _; rfl
    | cons a l2 ih =>
      intro hsub
      show normalizePass l2 (normalizeJoint w a) = w
      rw [normalizeJoint_of_isNormalized w a (h a (hsub a (List.mem_cons_self a l2))).1]
      exact ih (fun jm hj => hsub jm (List.mem_cons_of_mem a hj))
  exact ⟨hn l (fun _ hj => hj), boundsPass_of_none_correctable t l w (fun j hj => (h j hj).2)⟩

/-! ### The change flag of the first loop -/

/-- Bounds enforcement on a continuous joint whose value is in its canonical
range changes nothing. -/
theorem enforceBounds_of_wrap_eq (s : RobotState) (jm : JointModel)
    (hcr : jm.isContinuousRevolute = true)
    (hwrap : wrapContinuous (s.position_ jm.name_ 0) = s.position_ jm.name_ 0) :
    s.enforceBounds jm = s := by
  apply RobotState.ext
  funext n k
  simp only [RobotState.enforceBounds, JointModel.enforcePositionBounds, hcr, if_true]
  by_cases hn : n = jm.name_
  · subst hn
    by_cases hk : k = 0
    · subst hk; simp [hwrap]
    · simp [hk]
  · simp [hn]

/-- The first loop never resets the change flag. -/
theorem normalizeJoint_change_req_mono (w : Working) (jm : JointModel)
    (h : w.change_req = true) : (normalizeJoint w jm).change_req = true := by
  unfold normalizeJoint
  split_ifs <;> simp [h]

/-- A step of the first loop that leaves the change flag unset changed nothing. -/
theorem normalizeJoint_eq_of_flag (w : Working) (jm : JointModel)
    (h : (normalizeJoint w jm).change_req = false) : normalizeJoint w jm = w := by
  by_cases hcr : jm.isContinuousRevolute = true
  · have h1 : jm.type_ = JointType.REVOLUTE := by
      simp [JointModel.isContinuousRevolute] at hcr; exact hcr.1
    have h2 : jm.continuous_ = true := by
      simp [JointModel.isContinuousRevolute] at hcr; exact hcr.2
    have hval : (w.start_state.enforceBounds jm).getJointPositions jm 0
        = wrapContinuous (w.start_state.position_ jm.name_ 0) := by
      simp [RobotState.getJointPositions, RobotState.enforceBounds,
        JointModel.enforcePositionBounds, hcr]
    unfold normalizeJoint at h ⊢
    rw [if_pos h1, if_pos h2] at h ⊢
    by_cases h3 : fabs (w.start_state.getJointPositions jm 0
        - (w.start_state.enforceBounds jm).getJointPositions jm 0) > epsilon
    · rw [if_pos h3] at h
      simp at h
    · rw [if_neg h3]
      rw [hval] at h3
      rcases wrapContinuous_eq_or_far (w.start_state.position_ jm.name_ 0) with hw | hw
      · rw [enforceBounds_of_wrap_eq _ jm hcr hw]
      · exact absurd hw h3
  · have hcr2 : jm.isContinuousRevolute = false := by simpa using hcr
    by_cases hpl : jm.type_ = JointType.PLANAR
    · have hnr : jm.type_ ≠ JointType.REVOLUTE := by rw [hpl]; decide
      unfold normalizeJoint at h ⊢
      rw [if_neg hnr, if_pos hpl] at h ⊢
      by_cases h5 : (PlanarJointModel.normalizeRotation
          (copy3 (w.start_state.getJointPositions jm))).1 = true
      · rw [if_pos h5] at h
        simp at h
      · rw [if_neg h5]
    · by_cases hfl : jm.type_ = JointType.FLOATING
      · have hnr : jm.type_ ≠ JointType.REVOLUTE := by rw [hfl]; decide
        unfold normalizeJoint at h ⊢
        rw [if_neg hnr, if_neg hpl, if_pos hfl] at h ⊢
        by_cases h5 : (FloatingJointModel.normalizeRotation
            (copy7 (w.start_state.getJointPositions jm))).1 = true
        · rw [if_pos h5] at h
          simp at h
        · rw [if_neg h5]
      · exact normalizeJoint_of_other w jm hcr2 hpl hfl

/-- The first loop, one joint at a time. -/
theorem normalizePass_cons (a : JointModel) (l : List JointModel) (w : Working) :
    normalizePass (a :: l) w = normalizePass l (normalizeJoint w a) := rfl

/-- The first loop never resets the change flag. -/
theorem normalizePass_change_req_mono (l : List JointModel) :
    ∀ w : Working, w.change_req = true → (normalizePass l w).change_req = true := by
  induction l with
  | nil => intro w h; exact h
  | cons a l ih =>
    intro w h
    rw [normalizePass_cons]
    exact ih _ (normalizeJoint_change_req_mono w a h)

/-- A first loop that leaves the change flag unset changed nothing. -/
theorem normalizePass_eq_of_flag (l : List JointModel) :
    ∀ w : Working, (normalizePass l w).change_req = false → normalizePass l w = w := by
  induction l with
  | nil => intro w _; rfl
  | cons a l ih =>
    intro w h
    rw [normalizePass_cons] at h ⊢
    have ha : (normalizeJoint w a).change_req = false := by
      by_contra hne
      have htrue : (normalizeJoint w a).change_req = true := by simpa using hne
      rw [normalizePass_change_req_mono l _ htrue] at h
      simp at h
    rw [ih _ h]
    exact normalizeJoint_eq_of_flag w a ha

/-- When every joint of the active group, with distinct names, satisfies its
strict bounds in the specified start state, the second loop changes nothing. -/
theorem fixStartState_of_all_satisfied (self : FixStartStateBounds)
    (planning_scene : PlanningScene) (req : MotionPlanRequest)
    (hnames : ((selectJointModels planning_scene req).map JointModel.name_).Nodup)
    (hsat : ∀ j ∈ selectJointModels planning_scene req,
      (specifiedStartState planning_scene req).satisfiesBounds j 0 = true) :
    self.fixStartState planning_scene req = normalizedWorking planning_scene req := by
  unfold FixStartStateBounds.fixStartState
  apply boundsPass_of_none_correctable
  intro j hj
  have h : (normalizedWorking planning_scene req).start_state.satisfiesBounds j 0 = true := by
    unfold normalizedWorking
    rw [normalizePass_satisfiesBounds _ _ j 0 hnames hj]
    exact hsat j hj
  simp [correctable, h]

/-! ### Continuous joints in the two loops -/

/-- A nonnegative value below the divisor is its own remainder. -/
theorem fmod_of_nonneg_lt (x y : ℚ) (h0 : 0 ≤ x) (hy : x < y) : fmod x y = x := by
  have hypos : 0 < y := lt_of_le_of_lt h0 hy
  have hq0 : 0 ≤ x / y := div_nonneg h0 hypos.le
  have hq1 : x / y < 1 := (div_lt_one hypos).mpr hy
  have hfloor : ⌊x / y⌋ = 0 := by
    rw [Int.floor_eq_iff]
    constructor
    · simpa using hq0
    · simpa using hq1
  unfold fmod trunc
  rw [if_pos hq0, hfloor]
  simp

/-- The step of the first loop wraps the value of a continuous revolute joint. -/
theorem normalizeJoint_continuous_position (w : Working) (jm : JointModel)
    (hcr : jm.isContinuousRevolute = true) :
    (normalizeJoint w jm).start_state.position_ jm.name_ 0
      = wrapContinuous (w.start_state.position_ jm.name_ 0) := by
  have h1 : jm.type_ = JointType.REVOLUTE := by
    simp [JointModel.isContinuousRevolute] at hcr; exact hcr.1
  have h2 : jm.continuous_ = true := by
    simp [JointModel.isContinuousRevolute] at hcr; exact hcr.2
  unfold normalizeJoint
  rw [if_pos h1, if_pos h2]
  split_ifs <;> simp [RobotState.enforceBounds, JointModel.enforcePositionBounds, hcr]

/-- In a list of joints with distinct names, the first loop leaves the wrapped
value in a continuous revolute joint. -/
theorem normalizePass_continuous (l : List JointModel) (w : Working) (jm : JointModel)
    (hnd : (l.map JointModel.name_).Nodup) (hjm : jm ∈ l)
    (hcr : jm.isContinuousRevolute = true) :
    (normalizePass l w).start_state.position_ jm.name_ 0
      = wrapContinuous (w.start_state.position_ jm.name_ 0) := by
  obtain ⟨w2, h1, h2⟩ := foldl_own normalizeJoint normalizeJoint_frame l w jm hnd hjm
  unfold normalizePass
  rw [h2, normalizeJoint_continuous_position w2 jm hcr, h1]

/-- A continuous revolute joint is never correctable: it has no limit to violate. -/
theorem correctable_continuous (t : ℚ) (s : RobotState) (jm : JointModel)
    (hcr : jm.isContinuousRevolute = true) : correctable t s jm = false := by
  simp [correctable, RobotState.satisfiesBounds, JointModel.satisfiesPositionBounds, hcr]

/-- The first loop keeps the values under a name that no continuous revolute,
planar or floating joint of the list bears. -/
theorem normalizePass_name_other (l : List JointModel) (n : String)
    (h : ∀ jm ∈ l, jm.name_ = n → jm.isContinuousRevolute = false ∧
      jm.type_ ≠ JointType.PLANAR ∧ jm.type_ ≠ JointType.FLOATING) :
    ∀ w : Working, (normalizePass l w).start_state.position_ n = w.start_state.position_ n := by
  induction l with
  | nil => intro w; rfl
  | cons a l ih =>
    intro w
    rw [normalizePass_cons, ih (fun jm hjm => h jm (List.mem_cons_of_mem a hjm))]
    by_cases hn : a.name_ = n
    · obtain ⟨h1, h2, h3⟩ := h a (List.mem_cons_self a l) hn
      rw [normalizeJoint_of_other w a h1 h2 h3]
    · exact normalizeJoint_frame w a n (fun heq => hn heq.symm)

/-- The wrap of 49/10 (4.9 rad) is 49/10 minus one full turn. -/
theorem wrapContinuous_example : wrapContinuous (49 / 10) = 49 / 10 - 2 * M_PI := by
  have hf : fmod (49 / 10) (2 * M_PI) = 49 / 10 :=
    fmod_of_nonneg_lt _ _ (by norm_num) (by norm_num [M_PI])
  unfold wrapContinuous
  rw [hf]
  have h1 : (49 / 10 : ℚ) ≤ -M_PI ∨ (49 / 10 : ℚ) > M_PI := Or.inr (by norm_num [M_PI])
  have h2 : ¬ ((49 / 10 : ℚ) ≤ -M_PI) := by norm_num [M_PI]
  have h3 : (49 / 10 : ℚ) > M_PI := by norm_num [M_PI]
  rw [if_pos h1, if_neg h2, if_pos h3]

/-! ### The snapshot and the first waypoint -/

/-- A snapshot, when it exists after both loops, is the working state as it
stood after the first loop. -/
theorem fixStartState_prefix_state_eq (self : FixStartStateBounds)
    (planning_scene : PlanningScene) (req : MotionPlanRequest) (p : RobotState)
    (h : (self.fixStartState planning_scene req).prefix_state = some p) :
    p = (normalizedWorking planning_scene req).start_state := by
  unfold FixStartStateBounds.fixStartState at h
  rcases boundsPass_snapshot self.bounds_dist_ (selectJointModels planning_scene req)
    (normalizedWorking planning_scene req)
    (normalizedWorking_prefix_state planning_scene req) with h2 | h2
  · rw [h2, normalizedWorking_prefix_state] at h
    simp at h
  · rw [h2.1] at h
    exact (Option.some.inj h).symm

/-- Setting the duration of the first waypoint of a non-empty list. -/
theorem setDurationAt_zero (w : WayPoint) (ws : List WayPoint) (value : ℚ) :
    setDurationAt (w :: ws) 0 value = { w with duration_from_previous := value } :: ws := rfl

/-- When the trajectory patch runs, the returned trajectory is the snapshot with
duration 0, then the planner's first waypoint with the computed duration, then
the planner's other waypoints as they were; the snapshot is the working state
as it stood after the first loop. -/
theorem adaptAndPlan_patched (self : FixStartStateBounds) (planner : PlannerFn)
    (planning_scene : PlanningScene) (req : MotionPlanRequest) (res : MotionPlanResponse)
    (added_path_index : List ℕ)
    (hrun : prefixCondition (self.fixStartState planning_scene req).prefix_state
      (planner planning_scene (self.plannerRequest planning_scene req) res).2 = true) :
    ∃ (w0 : WayPoint) (ws : List WayPoint),
      (planner planning_scene (self.plannerRequest planning_scene req) res).2.trajectory
        = some { waypoints_ := w0 :: ws } ∧
      (self.fixStartState planning_scene req).prefix_state
        = some (normalizedWorking planning_scene req).start_state ∧
      (self.adaptAndPlan planner planning_scene req res added_path_index).res.trajectory
        = some { waypoints_ :=
            { state := (normalizedWorking planning_scene req).start_state
              duration_from_previous := 0 } ::
            { state := w0.state
              duration_from_previous := min self.max_dt_offset_
                (RobotTrajectory.getAverageSegmentDuration { waypoints_ := w0 :: ws }) } ::
            ws } := by
  obtain ⟨p, trajectory, hp, ht, hne, heq⟩ :=
    addPrefixState_of_condition self _
      (planner planning_scene (self.plannerRequest planning_scene req) res).1 _
      added_path_index hrun
  have hpeq := fixStartState_prefix_state_eq self planning_scene req p hp
  obtain ⟨wps⟩ := trajectory
  cases wps with
  | nil => exact absurd rfl hne
  | cons w0 ws =>
    refine ⟨w0, ws, ht, by rw [hp, hpeq], ?_⟩
    unfold FixStartStateBounds.adaptAndPlan
    rw [heq, hpeq]
    rfl

/-! ### Planar joints in the first loop -/

/-- The step of the first loop on a planar joint keeps x and y. -/
theorem normalizeJoint_planar_xy (w : Working) (jm : JointModel)
    (hpl : jm.type_ = JointType.PLANAR) (k : ℕ) (hk : k < 2) :
    (normalizeJoint w jm).start_state.position_ jm.name_ k
      = w.start_state.position_ jm.name_ k := by
  have hnr : jm.type_ ≠ JointType.REVOLUTE := by rw [hpl]; decide
  unfold normalizeJoint
  rw [if_neg hnr, if_pos hpl]
  by_cases h5 : (PlanarJointModel.normalizeRotation
      (copy3 (w.start_state.getJointPositions jm))).1 = true
  · rw [if_pos h5]
    obtain ⟨y, hy, _, _⟩ := planar_changed _ h5
    simp only [RobotState.setJointPositions, ↓reduceIte]
    rw [hy]
    interval_cases k <;> simp [RobotState.getJointPositions]
  · rw [if_neg h5]

/-- In a list of joints with distinct names, the first loop keeps x and y of a
planar joint and leaves its yaw in the canonical range. -/
theorem normalizePass_planar (l : List JointModel) (w : Working) (jm : JointModel)
    (hnd : (l.map JointModel.name_).Nodup) (hjm : jm ∈ l)
    (hpl : jm.type_ = JointType.PLANAR) :
    (normalizePass l w).start_state.position_ jm.name_ 0 = w.start_state.position_ jm.name_ 0 ∧
    (normalizePass l w).start_state.position_ jm.name_ 1 = w.start_state.position_ jm.name_ 1 ∧
    -M_PI ≤ (normalizePass l w).start_state.position_ jm.name_ 2 ∧
    (normalizePass l w).start_state.position_ jm.name_ 2 ≤ M_PI := by
  obtain ⟨w2, h1, h2⟩ := foldl_own normalizeJoint normalizeJoint_frame l w jm hnd hjm
  have h2b : (normalizePass l w).start_state.position_ jm.name_
      = (normalizeJoint w2 jm).start_state.position_ jm.name_ := h2
  have hn := (normalizePass_isNormalized l w jm hnd hjm).2.1 hpl
  rw [planar_flag] at hn
  simp only [copy3, List.getD_cons_succ, List.getD_cons_zero, Bool.not_eq_false',
    decide_eq_true_eq] at hn
  refine ⟨?_, ?_, hn.1, hn.2⟩
  · rw [h2b, normalizeJoint_planar_xy w2 jm hpl 0 (by norm_num), h1]
  · rw [h2b, normalizeJoint_planar_xy w2 jm hpl 1 (by norm_num), h1]

/-! ### A corrected joint in the final working state -/

/-- Among joints of distinct names, a joint with ordered bounds that was
correctable at the moment it was evaluated satisfies its strict bounds in the
working state after both loops. -/
theorem fixStartState_corrected_satisfies (self : FixStartStateBounds)
    (planning_scene : PlanningScene) (req : MotionPlanRequest)
    (pre post : List JointModel) (j : JointModel)
    (hsel : selectJointModels planning_scene req = pre ++ j :: post)
    (hnames : ((selectJointModels planning_scene req).map JointModel.name_).Nodup)
    (hord : ∀ b ∈ j.variable_bounds_, b.min_position_ ≤ b.max_position_)
    (hc : correctable self.bounds_dist_ (boundsPass self.bounds_dist_ pre
      (normalizedWorking planning_scene req)).start_state j = true) :
    (self.fixStartState planning_scene req).start_state.satisfiesBounds j 0 = true := by
  have hpost : j.name_ ∉ post.map JointModel.name_ := by
    rw [hsel, List.map_append, List.map_cons] at hnames
    exact (List.nodup_cons.mp (List.nodup_append.mp hnames).2.1).1
  unfold FixStartStateBounds.fixStartState
  rw [hsel, boundsPass_append, boundsPass_cons,
    satisfiesBounds_congr _ _ j 0 (boundsPass_frame self.bounds_dist_ post _ j.name_ hpost),
    correctJoint_of_correctable _ _ _ hc]
  exact satisfiesBounds_enforceBounds _ j hord

/-- Among joints of distinct names, a joint that was correctable at the moment
it was evaluated violates its strict bounds in the specified start state. -/
theorem specified_violates_of_correctable (self : FixStartStateBounds)
    (planning_scene : PlanningScene) (req : MotionPlanRequest)
    (pre post : List JointModel) (j : JointModel)
    (hsel : selectJointModels planning_scene req = pre ++ j :: post)
    (hnames : ((selectJointModels planning_scene req).map JointModel.name_).Nodup)
    (hc : correctable self.bounds_dist_ (boundsPass self.bounds_dist_ pre
      (normalizedWorking planning_scene req)).start_state j = true) :
    (specifiedStartState planning_scene req).satisfiesBounds j 0 = false := by
  have hpre : j.name_ ∉ pre.map JointModel.name_ := by
    rw [hsel, List.map_append, List.map_cons] at hnames
    intro hmem
    exact (List.nodup_append.mp hnames).2.2 hmem (List.mem_cons_self _ _)
  have hj : j ∈ selectJointModels planning_scene req := by
    rw [hsel]; simp
  have h1 : (boundsPass self.bounds_dist_ pre
      (normalizedWorking planning_scene req)).start_state.satisfiesBounds j 0 = false := by
    simp only [correctable, Bool.and_eq_true, Bool.not_eq_true'] at hc
    exact hc.1
  rw [satisfiesBounds_congr _ _ j 0 (boundsPass_frame self.bounds_dist_ pre _ j.name_ hpre)] at h1
  unfold normalizedWorking at h1
  rw [normalizePass_satisfiesBounds _ _ j 0 hnames hj] at h1
  exact h1

/-! ### The change flag and the start state the planner receives -/

/-- The change flag after both loops is the flag of the first loop, or a captured snapshot. -/
theorem fixStartState_change_req (self : FixStartStateBounds) (planning_scene : PlanningScene)
    (req : MotionPlanRequest) :
    (self.fixStartState planning_scene req).change_req =
      ((normalizedWorking planning_scene req).change_req ||
        (self.fixStartState planning_scene req).prefix_state.isSome) := by
  unfold FixStartStateBounds.fixStartState
  rcases boundsPass_snapshot self.bounds_dist_ (selectJointModels planning_scene req)
    (normalizedWorking planning_scene req) (normalizedWorking_prefix_state planning_scene req) with h | h
  · rw [h, normalizedWorking_prefix_state]; simp
  · rw [h.1, h.2]; simp

/-- The first loop changes nothing on a state in which every joint of the list
is in normal form. -/
theorem normalizePass_of_isNormalized (l : List JointModel) (w : Working)
    (h : ∀ jm ∈ l, jm.isNormalized (w.start_state.position_ jm.name_)) :
    normalizePass l w = w := by
  induction l with
  | nil => rfl
  | cons a l ih =>
    rw [normalizePass_cons, normalizeJoint_of_isNormalized w a (h a (List.mem_cons_self a l))]
    exact ih (fun jm hj => h jm (List.mem_cons_of_mem a hj))

/-- When the change flag is not set after both loops, the loops changed nothing. -/
theorem fixStartState_of_no_change (self : FixStartStateBounds) (planning_scene : PlanningScene)
    (req : MotionPlanRequest)
    (h : (self.fixStartState planning_scene req).change_req = false) :
    self.fixStartState planning_scene req
      = { start_state := specifiedStartState planning_scene req
          prefix_state := none
          change_req := false } := by
  have hflags := fixStartState_change_req self planning_scene req
  rw [h] at hflags
  have hnf : (normalizedWorking planning_scene req).change_req = false := by
    cases hc : (normalizedWorking planning_scene req).change_req with
    | false => rfl
    | true => rw [hc] at hflags; simp at hflags
  have hnw : normalizedWorking planning_scene req
      = { start_state := specifiedStartState planning_scene req
          prefix_state := none
          change_req := false } := normalizePass_eq_of_flag _ _ hnf
  rcases boundsPass_snapshot self.bounds_dist_ (selectJointModels planning_scene req)
    (normalizedWorking planning_scene req)
    (normalizedWorking_prefix_state planning_scene req) with h2 | h2
  · show boundsPass self.bounds_dist_ _ (normalizedWorking planning_scene req) = _
    rw [h2, hnw]
  · have : (self.fixStartState planning_scene req).change_req = true := h2.2
    rw [h] at this
    simp at this

/-- The start state the planner receives is the working state after both loops,
whether the request was rewritten or not. -/
theorem plannerStartState_eq (self : FixStartStateBounds) (planning_scene : PlanningScene)
    (req : MotionPlanRequest) :
    specifiedStartState planning_scene (self.plannerRequest planning_scene req)
      = (self.fixStartState planning_scene req).start_state := by
  cases hchg : (self.fixStartState planning_scene req).change_req with
  | true => exact (plannerRequest_start_state self planning_scene req hchg).2
  | false =>
    have hreq : self.plannerRequest planning_scene req = req := by
      simp [FixStartStateBounds.plannerRequest, hchg]
    rw [hreq, fixStartState_of_no_change self planning_scene req hchg]

/-- The satisfaction query of a single-variable bounded joint reads its one variable. -/
theorem satisfiesBounds_single (j : JointModel) (mn mx : ℚ)
    (htype : (j.type_ = JointType.REVOLUTE ∧ j.continuous_ = false)
      ∨ j.type_ = JointType.PRISMATIC)
    (hbounds : j.variable_bounds_ = [{ min_position_ := mn, max_position_ := mx }])
    (s : RobotState) (m : ℚ) :
    s.satisfiesBounds j m
      = VariableBounds.satisfies { min_position_ := mn, max_position_ := mx }
          (s.position_ j.name_ 0) m := by
  have h1 : j.isContinuousRevolute = false := by
    unfold JointModel.isContinuousRevolute
    rcases htype with ⟨_, h⟩ | h <;> simp [h]
  have hpb : j.positionBounds = [{ min_position_ := mn, max_position_ := mx }] := by
    unfold JointModel.positionBounds
    rcases htype with ⟨h, _⟩ | h <;> simp [h, hbounds]
  simp [RobotState.satisfiesBounds, RobotState.getJointPositions,
    JointModel.satisfiesPositionBounds, h1, hpb, satisfiesFrom]

/-- A single-variable bounded joint is left alone by the first loop. -/
theorem single_not_normalized (j : JointModel)
    (htype : (j.type_ = JointType.REVOLUTE ∧ j.continuous_ = false)
      ∨ j.type_ = JointType.PRISMATIC) :
    j.isContinuousRevolute = false ∧ j.type_ ≠ JointType.PLANAR ∧
      j.type_ ≠ JointType.FLOATING := by
  refine ⟨?_, ?_, ?_⟩
  · unfold JointModel.isContinuousRevolute
    rcases htype with ⟨_, h⟩ | h <;> simp [h]
  · rcases htype with ⟨h, _⟩ | h <;> simp [h]
  · rcases htype with ⟨h, _⟩ | h <;> simp [h]

/-! ### Evaluation of the example data -/

/-- With the default tolerance, a shoulder value of -41/40 (range from -1 to 1)
is corrected: the snapshot exists and the change flag is set. -/
theorem exShoulder_within_tolerance :
    (exAdapter.fixStartState (exScene [exShoulder]) (exRequest "shoulder" (-41 / 40))).prefix_state.isSome
      = true ∧
    (exAdapter.fixStartState (exScene [exShoulder]) (exRequest "shoulder" (-41 / 40))).change_req
      = true := by
  constructor <;>
  · simp [FixStartStateBounds.fixStartState, boundsPass, normalizedWorking, normalizePass,
      selectJointModels, exScene, exShoulder, exRequest, exAdapter, initializeAdapter, getParam,
      RobotModel.hasJointModelGroup, RobotModel.getGroupJointModels, normalizeJoint, correctJoint,
      specifiedStartState, robotStateMsgToRobotState, RobotState.satisfiesBounds,
      RobotState.getJointPositions, JointModel.satisfiesPositionBounds, JointModel.positionBounds,
      JointModel.isContinuousRevolute, satisfiesFrom, VariableBounds.satisfies,
      BOUNDS_PARAM_NAME, DT_PARAM_NAME]
    norm_num

/-- With the default tolerance, a shoulder value of -2 (range from -1 to 1) is
left alone by the first loop and is beyond tolerance in the second. -/
theorem exShoulder_beyond_tolerance :
    (normalizedWorking (exScene [exShoulder]) (exRequest "shoulder" (-2))).change_req = false ∧
    ∀ j ∈ selectJointModels (exScene [exShoulder]) (exRequest "shoulder" (-2)),
      (normalizedWorking (exScene [exShoulder]) (exRequest "shoulder" (-2))).start_state.satisfiesBounds
          j 0 = true ∨
        (normalizedWorking (exScene [exShoulder]) (exRequest "shoulder" (-2))).start_state.satisfiesBounds
          j exAdapter.bounds_dist_ = false := by
  constructor
  · simp [normalizedWorking, normalizePass, selectJointModels, exScene, exShoulder, exRequest,
      RobotModel.hasJointModelGroup, RobotModel.getGroupJointModels, normalizeJoint]
  · intro j hj
    right
    simp [selectJointModels, exScene, RobotModel.hasJointModelGroup,
      RobotModel.getGroupJointModels, exRequest] at hj
    subst hj
    simp [normalizedWorking, normalizePass, selectJointModels, exScene, exShoulder, exRequest,
      exAdapter, initializeAdapter, getParam,
      RobotModel.hasJointModelGroup, RobotModel.getGroupJointModels, normalizeJoint,
      specifiedStartState, robotStateMsgToRobotState, RobotState.satisfiesBounds,
      RobotState.getJointPositions, JointModel.satisfiesPositionBounds, JointModel.positionBounds,
      JointModel.isContinuousRevolute, satisfiesFrom, VariableBounds.satisfies,
      BOUNDS_PARAM_NAME, DT_PARAM_NAME]
    norm_num

/-- In the example with a shoulder value within tolerance and the planner
`exPlanner d`, the condition of the trajectory patch holds. -/
theorem exShoulder_prefixCondition (d : ℚ) (req2 : MotionPlanRequest) :
    prefixCondition
      (exAdapter.fixStartState (exScene [exShoulder]) (exRequest "shoulder" (-41 / 40))).prefix_state
      (exPlanner d (exScene [exShoulder]) req2 exResponse).2 = true := by
  unfold prefixCondition
  rw [exShoulder_within_tolerance.1]
  simp [exPlanner, RobotTrajectory.empty]

/-- In the example with a shoulder value beyond tolerance, the condition of the
trajectory patch fails whatever the planner leaves. -/
theorem exShoulder_not_prefixCondition (res : MotionPlanResponse) :
    prefixCondition
      (exAdapter.fixStartState (exScene [exShoulder]) (exRequest "shoulder" (-2))).prefix_state
      res = false := by
  unfold prefixCondition FixStartStateBounds.fixStartState
  rw [boundsPass_of_none_correctable, normalizedWorking_prefix_state]
  · rfl
  · intro j hj
    unfold correctable
    rcases exShoulder_beyond_tolerance.2 j hj with h | h <;> simp [h]

/-- In the example of a floating joint whose start quaternion is zero, the
first loop replaces the quaternion by the identity and sets the change flag. -/
theorem exBase_normalized :
    (normalizedWorking (exScene [exBase]) (exRequest "base" 0)).change_req = true ∧
    (normalizedWorking (exScene [exBase]) (exRequest "base" 0)).start_state.position_ "base" 6
      = 1 := by
  constructor <;>
  · simp [normalizedWorking, normalizePass, selectJointModels, exScene, exBase, exRequest,
      RobotModel.hasJointModelGroup, RobotModel.getGroupJointModels, normalizeJoint,
      specifiedStartState, robotStateMsgToRobotState, RobotState.getJointPositions,
      RobotState.setJointPositions, floating_copy7, quaternionNormSqr_copy7, sqrt]
    norm_num [fabs, epsilon]

/-- In the example of a planar platform with start yaw 4 next to a wrist at 0,
the first loop replaces the yaw by 4 minus one full turn, and the wrist is
corrected, so a snapshot exists. -/
theorem exPlatform_normalized :
    (normalizedWorking (exScene [exPlatform, exWrist])
      (exRequestAt "platform" 2 4)).start_state.position_ "platform" 2 = 4 - 2 * M_PI ∧
    (exAdapter.fixStartState (exScene [exPlatform, exWrist])
      (exRequestAt "platform" 2 4)).prefix_state.isSome = true := by
  have hf : fmod 4 (2 * M_PI) = 4 :=
    fmod_of_nonneg_lt _ _ (by norm_num) (by norm_num [M_PI])
  have h1 : ¬ ((4 : ℚ) ≤ M_PI) := by norm_num [M_PI]
  have h2 : ¬ ((4 : ℚ) < -M_PI) := by norm_num [M_PI]
  have h3 : M_PI < (4 : ℚ) := by norm_num [M_PI]
  constructor
  · simp [normalizedWorking, normalizePass, selectJointModels, exScene, exPlatform, exWrist,
      exRequestAt, RobotModel.hasJointModelGroup, RobotModel.getGroupJointModels, normalizeJoint,
      specifiedStartState, robotStateMsgToRobotState, RobotState.getJointPositions,
      RobotState.setJointPositions, planar_copy3, hf, h1, h2, h3]
  · have hj : exWrist ∈ selectJointModels (exScene [exPlatform, exWrist])
        (exRequestAt "platform" 2 4) := by
      simp [selectJointModels, exScene, RobotModel.hasJointModelGroup,
        RobotModel.getGroupJointModels, exRequestAt]
    have hnd : ((selectJointModels (exScene [exPlatform, exWrist])
        (exRequestAt "platform" 2 4)).map JointModel.name_).Nodup := by
      simp [selectJointModels, exScene, RobotModel.hasJointModelGroup,
        RobotModel.getGroupJointModels, exRequestAt, exPlatform, exWrist]
    have htype : (exWrist.type_ = JointType.REVOLUTE ∧ exWrist.continuous_ = false)
        ∨ exWrist.type_ = JointType.PRISMATIC := Or.inr rfl
    obtain ⟨ha, hb, hc⟩ := single_not_normalized exWrist htype
    have hw0 : (normalizedWorking (exScene [exPlatform, exWrist])
        (exRequestAt "platform" 2 4)).start_state.position_ exWrist.name_ 0 = 0 := by
      unfold normalizedWorking
      rw [normalizePass_other _ _ exWrist hnd hj ha hb hc]
      simp [specifiedStartState, robotStateMsgToRobotState, exRequestAt, exWrist, exScene]
    have hcorr : correctable exAdapter.bounds_dist_ (normalizedWorking
        (exScene [exPlatform, exWrist]) (exRequestAt "platform" 2 4)).start_state exWrist
        = true := by
      unfold correctable
      rw [satisfiesBounds_single exWrist (1 / 100) 2 htype rfl,
        satisfiesBounds_single exWrist (1 / 100) 2 htype rfl, hw0]
      simp [VariableBounds.satisfies, exAdapter, initializeAdapter, getParam, BOUNDS_PARAM_NAME]
      norm_num
    have := (boundsPass_correctable_joint exAdapter.bounds_dist_ _ _ exWrist hnd hj
      (normalizedWorking_prefix_state _ _) hcorr).2.1
    unfold FixStartStateBounds.fixStartState
    rw [this]
    rfl

/-- In the platform example with the planner `exPlanner d`, the condition of
the trajectory patch holds. -/
theorem exPlatform_prefixCondition (d : ℚ) (req2 : MotionPlanRequest) :
    prefixCondition
      (exAdapter.fixStartState (exScene [exPlatform, exWrist])
        (exRequestAt "platform" 2 4)).prefix_state
      (exPlanner d (exScene [exPlatform, exWrist]) req2 exResponse).2 = true := by
  unfold prefixCondition
  rw [exPlatform_normalized.2]
  simp [exPlanner, RobotTrajectory.empty]

/-- In the example of a shoulder at -41/40 and a wrist at 0, the wrist still
has the value 0 after the shoulder was corrected, violates its strict bounds
and satisfies them widened by the tolerance. -/
theorem exWrist_after_shoulder :
    selectJointModels (exScene [exShoulder, exWrist]) (exRequest "shoulder" (-41 / 40))
      = [exShoulder] ++ exWrist :: [] ∧
    ((selectJointModels (exScene [exShoulder, exWrist])
      (exRequest "shoulder" (-41 / 40))).map JointModel.name_).Nodup ∧
    (boundsPass exAdapter.bounds_dist_ [exShoulder]
      (normalizedWorking (exScene [exShoulder, exWrist])
        (exRequest "shoulder" (-41 / 40)))).start_state.position_ "wrist" 0 = 0 ∧
    (boundsPass exAdapter.bounds_dist_ [exShoulder]
      (normalizedWorking (exScene [exShoulder, exWrist])
        (exRequest "shoulder" (-41 / 40)))).start_state.satisfiesBounds exWrist 0 = false ∧
    (boundsPass exAdapter.bounds_dist_ [exShoulder]
      (normalizedWorking (exScene [exShoulder, exWrist])
        (exRequest "shoulder" (-41 / 40)))).start_state.satisfiesBounds exWrist
          exAdapter.bounds_dist_ = true := by
  have hsel : selectJointModels (exScene [exShoulder, exWrist]) (exRequest "shoulder" (-41 / 40))
      = [exShoulder, exWrist] := by
    simp [selectJointModels, exScene, RobotModel.hasJointModelGroup,
      RobotModel.getGroupJointModels, exRequest]
  have hnd : ((selectJointModels (exScene [exShoulder, exWrist])
      (exRequest "shoulder" (-41 / 40))).map JointModel.name_).Nodup := by
    rw [hsel]
    simp [exShoulder, exWrist]
  have htype : (exWrist.type_ = JointType.REVOLUTE ∧ exWrist.continuous_ = false)
      ∨ exWrist.type_ = JointType.PRISMATIC := Or.inr rfl
  have hpos : (boundsPass exAdapter.bounds_dist_ [exShoulder]
      (normalizedWorking (exScene [exShoulder, exWrist])
        (exRequest "shoulder" (-41 / 40)))).start_state.position_ "wrist" 0 = 0 := by
    rw [boundsPass_frame exAdapter.bounds_dist_ [exShoulder] _ "wrist"
      (by simp [exShoulder])]
    have hj : exWrist ∈ selectJointModels (exScene [exShoulder, exWrist])
        (exRequest "shoulder" (-41 / 40)) := by
      rw [hsel]; simp
    obtain ⟨ha, hb, hc⟩ := single_not_normalized exWrist htype
    have hother := normalizePass_other
      (selectJointModels (exScene [exShoulder, exWrist]) (exRequest "shoulder" (-41 / 40)))
      { start_state := specifiedStartState (exScene [exShoulder, exWrist])
          (exRequest "shoulder" (-41 / 40))
        prefix_state := none
        change_req := false } exWrist hnd hj ha hb hc
    show (normalizedWorking (exScene [exShoulder, exWrist])
      (exRequest "shoulder" (-41 / 40))).start_state.position_ exWrist.name_ 0 = 0
    unfold normalizedWorking
    rw [hother]
    simp [specifiedStartState, robotStateMsgToRobotState, exRequest, exScene, exWrist]
  refine ⟨hsel, hnd, hpos, ?_, ?_⟩
  · rw [satisfiesBounds_single exWrist (1 / 100) 2 htype rfl]
    have hp : (boundsPass exAdapter.bounds_dist_ [exShoulder]
        (normalizedWorking (exScene [exShoulder, exWrist])
          (exRequest "shoulder" (-41 / 40)))).start_state.position_ exWrist.name_ 0 = 0 := hpos
    rw [hp]
    simp [VariableBounds.satisfies]
  · rw [satisfiesBounds_single exWrist (1 / 100) 2 htype rfl]
    have hp : (boundsPass exAdapter.bounds_dist_ [exShoulder]
        (normalizedWorking (exScene [exShoulder, exWrist])
          (exRequest "shoulder" (-41 / 40)))).start_state.position_ exWrist.name_ 0 = 0 := hpos
    rw [hp]
    simp [VariableBounds.satisfies, exAdapter, initializeAdapter, getParam, BOUNDS_PARAM_NAME]
    norm_num

/-! ### The claims -/

/-- C1: the boolean returned by `adaptAndPlan` is the boolean returned by the
one planner call it makes, on the request `plannerRequest`; neither a
correction nor the trajectory patch changes it. -/
theorem C1_adaptAndPlan_returns_planner_result (self : FixStartStateBounds) (planner : PlannerFn)
    (planning_scene : PlanningScene) (req : MotionPlanRequest) (res : MotionPlanResponse)
    (added_path_index : List ℕ) :
    (self.adaptAndPlan planner planning_scene req res added_path_index).solved
      = (planner planning_scene (self.plannerRequest planning_scene req) res).1 := by
  unfold FixStartStateBounds.adaptAndPlan FixStartStateBounds.addPrefixState
  split
  · split <;> rfl
  · rfl

/-- C2: if the change flag is not set after the two loops (neither the
normalization pass nor the bounds pass set it), the planner is called with the
original request itself; otherwise it is called with a copy of the request whose
start-state field is the message form of the corrected working state and whose
other fields, the group name among them, are those of the original. -/
theorem C2_planner_request (self : FixStartStateBounds) (planner : PlannerFn)
    (planning_scene : PlanningScene) (req : MotionPlanRequest) (res : MotionPlanResponse)
    (added_path_index : List ℕ) :
    ((self.fixStartState planning_scene req).change_req =
        ((normalizedWorking planning_scene req).change_req ||
          (self.fixStartState planning_scene req).prefix_state.isSome)) ∧
    ((self.fixStartState planning_scene req).change_req = false →
      self.plannerRequest planning_scene req = req ∧
      self.adaptAndPlan planner planning_scene req res added_path_index =
        self.addPrefixState (self.fixStartState planning_scene req).prefix_state
          (planner planning_scene req res).1 (planner planning_scene req res).2
          added_path_index) ∧
    ((self.fixStartState planning_scene req).change_req = true →
      (self.plannerRequest planning_scene req).start_state =
        robotStateToRobotStateMsg (self.fixStartState planning_scene req).start_state ∧
      (self.plannerRequest planning_scene req).group_name = req.group_name ∧
      (self.plannerRequest planning_scene req).planner_id = req.planner_id ∧
      (self.plannerRequest planning_scene req).num_planning_attempts = req.num_planning_attempts ∧
      (self.plannerRequest planning_scene req).allowed_planning_time = req.allowed_planning_time ∧
      self.adaptAndPlan planner planning_scene req res added_path_index =
        self.addPrefixState (self.fixStartState planning_scene req).prefix_state
          (planner planning_scene
            { req with
              start_state :=
                robotStateToRobotStateMsg (self.fixStartState planning_scene req).start_state }
            res).1
          (planner planning_scene
            { req with
              start_state :=
                robotStateToRobotStateMsg (self.fixStartState planning_scene req).start_state }
            res).2
          added_path_index) := by
  refine ⟨fixStartState_change_req self planning_scene req, ?_, ?_⟩
  · intro h
    have hr : self.plannerRequest planning_scene req = req := by
      simp [FixStartStateBounds.plannerRequest, h]
    refine ⟨hr, ?_⟩
    unfold FixStartStateBounds.adaptAndPlan
    rw [hr]
  · intro h
    have hr : self.plannerRequest planning_scene req =
        { req with
          start_state :=
            robotStateToRobotStateMsg (self.fixStartState planning_scene req).start_state } := by
      simp [FixStartStateBounds.plannerRequest, h]
    refine ⟨by rw [hr], by rw [hr], by rw [hr], by rw [hr], by rw [hr], ?_⟩
    unfold FixStartStateBounds.adaptAndPlan
    rw [hr]

/-- C2 at two requests: a shoulder value beyond tolerance (flag not set, the
original request is forwarded) and one within tolerance (flag set, the group
name is kept). -/
theorem C2_planner_request_witness :
    exAdapter.plannerRequest (exScene [exShoulder]) (exRequest "shoulder" (-2))
      = exRequest "shoulder" (-2) ∧
    (exAdapter.plannerRequest (exScene [exShoulder]) (exRequest "shoulder" (-41 / 40))).group_name
      = "arm" := by
  constructor
  · refine ((C2_planner_request exAdapter (exPlanner 4) (exScene [exShoulder])
      (exRequest "shoulder" (-2)) exResponse []).2.1 ?_).1
    rw [fixStartState_change_req, exShoulder_beyond_tolerance.1]
    unfold FixStartStateBounds.fixStartState
    rw [boundsPass_of_none_correctable, normalizedWorking_prefix_state]
    · rfl
    · intro j hj
      unfold correctable
      rcases exShoulder_beyond_tolerance.2 j hj with h | h <;> simp [h]
  · exact ((C2_planner_request exAdapter (exPlanner 4) (exScene [exShoulder])
      (exRequest "shoulder" (-41 / 40)) exResponse []).2.2 exShoulder_within_tolerance.2).2.1

/-- C3: with joints of distinct names, a joint of the active group with
ordered bounds that the bounds pass classified as correctable at the moment it
was evaluated (it violated its strict bounds and satisfied them widened by
`bounds_dist_`) satisfies its strict bounds in the start state handed to the
planner; the corrections of the joints after it do not undo this. -/
theorem C3_correctable_joint_in_bounds (self : FixStartStateBounds)
    (planning_scene : PlanningScene) (req : MotionPlanRequest)
    (pre post : List JointModel) (j : JointModel)
    (hsel : selectJointModels planning_scene req = pre ++ j :: post)
    (hnames : ((selectJointModels planning_scene req).map JointModel.name_).Nodup)
    (hord : ∀ b ∈ j.variable_bounds_, b.min_position_ ≤ b.max_position_)
    (hviol : (boundsPass self.bounds_dist_ pre
      (normalizedWorking planning_scene req)).start_state.satisfiesBounds j 0 = false)
    (htol : (boundsPass self.bounds_dist_ pre
      (normalizedWorking planning_scene req)).start_state.satisfiesBounds j
        self.bounds_dist_ = true) :
    (self.plannerRequest planning_scene req).start_state
        = robotStateToRobotStateMsg (self.fixStartState planning_scene req).start_state ∧
      (specifiedStartState planning_scene
        (self.plannerRequest planning_scene req)).satisfiesBounds j 0 = true := by
  have hc : correctable self.bounds_dist_ (boundsPass self.bounds_dist_ pre
      (normalizedWorking planning_scene req)).start_state j = true := by
    simp [correctable, hviol, htol]
  have hpost : j.name_ ∉ post.map JointModel.name_ := by
    rw [hsel, List.map_append, List.map_cons] at hnames
    exact (List.nodup_cons.mp (List.nodup_append.mp hnames).2.1).1
  have hfix : self.fixStartState planning_scene req
      = boundsPass self.bounds_dist_ post
          (correctJoint self.bounds_dist_
            (boundsPass self.bounds_dist_ pre (normalizedWorking planning_scene req)) j) := by
    unfold FixStartStateBounds.fixStartState
    rw [hsel, boundsPass_append, boundsPass_cons]
  have hsome : (self.fixStartState planning_scene req).prefix_state.isSome = true := by
    unfold FixStartStateBounds.fixStartState
    rw [boundsPass_prefix_isSome_iff]
    exact Or.inr ⟨pre, j, post, hsel, hc⟩
  have hchange : (self.fixStartState planning_scene req).change_req = true := by
    rw [fixStartState_change_req, hsome]; simp
  obtain ⟨hmsg, hstart⟩ := plannerRequest_start_state self planning_scene req hchange
  refine ⟨hmsg, ?_⟩
  rw [hstart, hfix]
  rw [satisfiesBounds_congr _ _ j 0 (boundsPass_frame self.bounds_dist_ post _ j.name_ hpost),
    correctJoint_of_correctable _ _ _ hc]
  exact satisfiesBounds_enforceBounds _ j hord

/-- C3 in an example with two joints that are both corrected: the shoulder,
corrected first, still satisfies its strict bounds in the start state handed to
the planner after the wrist was corrected too. -/
theorem C3_correctable_joint_in_bounds_witness :
    (specifiedStartState (exScene [exShoulder, exWrist])
      (exAdapter.plannerRequest (exScene [exShoulder, exWrist])
        (exRequest "shoulder" (-41 / 40)))).satisfiesBounds exShoulder 0 = true := by
  refine (C3_correctable_joint_in_bounds exAdapter (exScene [exShoulder, exWrist])
    (exRequest "shoulder" (-41 / 40)) [] [exWrist] exShoulder ?_ ?_ ?_ ?_ ?_).2
  · simp [selectJointModels, exScene, RobotModel.hasJointModelGroup,
      RobotModel.getGroupJointModels, exRequest]
  · simp [selectJointModels, exScene, RobotModel.hasJointModelGroup,
      RobotModel.getGroupJointModels, exRequest, exShoulder, exWrist]
  · simp [exShoulder]
  · simp [boundsPass, normalizedWorking, normalizePass,
      selectJointModels, exScene, exShoulder, exWrist, exRequest,
      RobotModel.hasJointModelGroup, RobotModel.getGroupJointModels, normalizeJoint,
      specifiedStartState, robotStateMsgToRobotState, RobotState.satisfiesBounds,
      RobotState.getJointPositions, JointModel.satisfiesPositionBounds, JointModel.positionBounds,
      JointModel.isContinuousRevolute, satisfiesFrom, VariableBounds.satisfies]
    norm_num
  · simp [boundsPass, normalizedWorking, normalizePass,
      selectJointModels, exScene, exShoulder, exWrist, exRequest, exAdapter, initializeAdapter,
      getParam, BOUNDS_PARAM_NAME,
      RobotModel.hasJointModelGroup, RobotModel.getGroupJointModels, normalizeJoint,
      specifiedStartState, robotStateMsgToRobotState, RobotState.satisfiesBounds,
      RobotState.getJointPositions, JointModel.satisfiesPositionBounds, JointModel.positionBounds,
      JointModel.isContinuousRevolute, satisfiesFrom, VariableBounds.satisfies]
    norm_num

/-- C4: after the bounds pass a snapshot exists if and only if some joint of the
active group, at the moment it was evaluated (after the joints before it were
processed), violated its strict bounds and satisfied them widened by the
tolerance; when every violation of the normalized state is beyond tolerance, no
snapshot exists. -/
theorem C4_snapshot_iff_correctable (self : FixStartStateBounds) (planning_scene : PlanningScene)
    (req : MotionPlanRequest) :
    ((self.fixStartState planning_scene req).prefix_state.isSome = true ↔
      ∃ pre j post, selectJointModels planning_scene req = pre ++ j :: post ∧
        (boundsPass self.bounds_dist_ pre
          (normalizedWorking planning_scene req)).start_state.satisfiesBounds j 0 = false ∧
        (boundsPass self.bounds_dist_ pre
          (normalizedWorking planning_scene req)).start_state.satisfiesBounds j
            self.bounds_dist_ = true) ∧
    ((∀ j ∈ selectJointModels planning_scene req,
        (normalizedWorking planning_scene req).start_state.satisfiesBounds j 0 = true ∨
        (normalizedWorking planning_scene req).start_state.satisfiesBounds j
          self.bounds_dist_ = false) →
      (self.fixStartState planning_scene req).prefix_state = none) := by
  constructor
  · unfold FixStartStateBounds.fixStartState
    rw [boundsPass_prefix_isSome_iff, normalizedWorking_prefix_state]
    simp only [Option.isSome_none, Bool.false_eq_true, false_or, correctable, Bool.and_eq_true,
      Bool.not_eq_true']
  · intro h
    unfold FixStartStateBounds.fixStartState
    rw [boundsPass_of_none_correctable, normalizedWorking_prefix_state]
    intro j hj
    unfold correctable
    rcases h j hj with h | h <;> simp [h]

/-- C4 at a shoulder value beyond tolerance: no snapshot. -/
theorem C4_snapshot_iff_correctable_witness :
    (exAdapter.fixStartState (exScene [exShoulder]) (exRequest "shoulder" (-2))).prefix_state
      = none :=
  (C4_snapshot_iff_correctable exAdapter (exScene [exShoulder]) (exRequest "shoulder" (-2))).2
    exShoulder_beyond_tolerance.2

/-- C5: the trajectory patch runs exactly when a snapshot was captured and the
response the planner left holds a non-empty trajectory. When it runs, the
returned trajectory is the planner's with the first duration replaced and the
snapshot prepended (one waypoint more) and the index collection has one element
more; in every other case the returned response and index collection are
exactly those the planner left. -/
theorem C5_patch_runs_iff (self : FixStartStateBounds) (planner : PlannerFn)
    (planning_scene : PlanningScene) (req : MotionPlanRequest) (res : MotionPlanResponse)
    (added_path_index : List ℕ) :
    (prefixCondition (self.fixStartState planning_scene req).prefix_state
        (planner planning_scene (self.plannerRequest planning_scene req) res).2 = true ↔
      ((self.fixStartState planning_scene req).prefix_state.isSome = true ∧
        ∃ trajectory,
          (planner planning_scene (self.plannerRequest planning_scene req) res).2.trajectory
            = some trajectory ∧ trajectory.waypoints_ ≠ [])) ∧
    (prefixCondition (self.fixStartState planning_scene req).prefix_state
        (planner planning_scene (self.plannerRequest planning_scene req) res).2 = true →
      ∃ p trajectory, (self.fixStartState planning_scene req).prefix_state = some p ∧
        (planner planning_scene (self.plannerRequest planning_scene req) res).2.trajectory
          = some trajectory ∧
        (self.adaptAndPlan planner planning_scene req res added_path_index).res.trajectory =
          some ((trajectory.setWayPointDurationFromPrevious 0
            (min self.max_dt_offset_ trajectory.getAverageSegmentDuration)).addPrefixWayPoint p 0) ∧
        ((trajectory.setWayPointDurationFromPrevious 0
            (min self.max_dt_offset_ trajectory.getAverageSegmentDuration)).addPrefixWayPoint
              p 0).getWayPointCount = trajectory.getWayPointCount + 1 ∧
        (self.adaptAndPlan planner planning_scene req res added_path_index).added_path_index.length
          = added_path_index.length + 1) ∧
    (prefixCondition (self.fixStartState planning_scene req).prefix_state
        (planner planning_scene (self.plannerRequest planning_scene req) res).2 = false →
      (self.adaptAndPlan planner planning_scene req res added_path_index).res =
        (planner planning_scene (self.plannerRequest planning_scene req) res).2 ∧
      (self.adaptAndPlan planner planning_scene req res added_path_index).added_path_index =
        added_path_index) := by
  refine ⟨?_, ?_, ?_⟩
  · unfold prefixCondition
    cases ht : (planner planning_scene (self.plannerRequest planning_scene req) res).2.trajectory with
    | none => simp
    | some trajectory =>
      simp only [Bool.and_eq_true, Bool.not_eq_true', Option.some.injEq, exists_eq_left']
      constructor
      · rintro ⟨h1, h2⟩
        refine ⟨h1, ?_⟩
        intro hnil
        simp [RobotTrajectory.empty, hnil] at h2
      · rintro ⟨h1, h2⟩
        refine ⟨h1, ?_⟩
        cases hw : trajectory.waypoints_ with
        | nil => exact absurd hw h2
        | cons a l => simp [RobotTrajectory.empty, hw]
  · intro h
    obtain ⟨p, trajectory, hp, ht, _, heq⟩ :=
      addPrefixState_of_condition self _
        (planner planning_scene (self.plannerRequest planning_scene req) res).1 _
        added_path_index h
    refine ⟨p, trajectory, hp, ht, ?_, ?_, ?_⟩
    · unfold FixStartStateBounds.adaptAndPlan
      rw [heq]
    · simp [RobotTrajectory.getWayPointCount, RobotTrajectory.addPrefixWayPoint,
        RobotTrajectory.setWayPointDurationFromPrevious, setDurationAt_length]
    · unfold FixStartStateBounds.adaptAndPlan
      rw [heq]
      simp
  · intro h
    unfold FixStartStateBounds.adaptAndPlan
    rw [addPrefixState_of_not_condition self _ _ _ _ h]
    exact ⟨rfl, rfl⟩

/-- C5 at two requests: within tolerance with a planner that returns two
waypoints (the patch runs, one tracked index more), and beyond tolerance (the
tracked indices are returned as they were). -/
theorem C5_patch_runs_iff_witness :
    (exAdapter.adaptAndPlan (exPlanner 4) (exScene [exShoulder]) (exRequest "shoulder" (-41 / 40))
        exResponse [0, 3]).added_path_index.length = 3 ∧
    (exAdapter.adaptAndPlan (exPlanner 4) (exScene [exShoulder]) (exRequest "shoulder" (-2))
        exResponse [0, 3]).added_path_index = [0, 3] := by
  constructor
  · obtain ⟨_, _, _, _, _, _, h⟩ :=
      (C5_patch_runs_iff exAdapter (exPlanner 4) (exScene [exShoulder])
        (exRequest "shoulder" (-41 / 40)) exResponse [0, 3]).2.1
        (exShoulder_prefixCondition 4 _)
    exact h
  · exact ((C5_patch_runs_iff exAdapter (exPlanner 4) (exScene [exShoulder])
      (exRequest "shoulder" (-2)) exResponse [0, 3]).2.2
      (exShoulder_not_prefixCondition _)).2

/-- C6: whenever the trajectory patch runs, the duration from the previous
waypoint of the planner's original first waypoint, which is the waypoint at
index 1 of the returned trajectory, is the minimum of `max_dt_offset_` and the
average segment duration of the trajectory as the planner returned it, so it
never exceeds `max_dt_offset_`; with ceiling 1/2 an average of 2 gives 1/2 and
an average of 1/5 gives 1/5. -/
theorem C6_prefix_duration (self : FixStartStateBounds) (planner : PlannerFn)
    (planning_scene : PlanningScene) (req : MotionPlanRequest) (res : MotionPlanResponse)
    (added_path_index : List ℕ)
    (hrun : prefixCondition (self.fixStartState planning_scene req).prefix_state
      (planner planning_scene (self.plannerRequest planning_scene req) res).2 = true) :
    ∃ trajectory patched,
      (planner planning_scene (self.plannerRequest planning_scene req) res).2.trajectory
        = some trajectory ∧
      (self.adaptAndPlan planner planning_scene req res added_path_index).res.trajectory
        = some patched ∧
      patched.getWayPointDurationFromPrevious 1
        = min self.max_dt_offset_ trajectory.getAverageSegmentDuration ∧
      patched.getWayPointDurationFromPrevious 1 ≤ self.max_dt_offset_ ∧
      (self.max_dt_offset_ = 1 / 2 → trajectory.getAverageSegmentDuration = 2 →
        patched.getWayPointDurationFromPrevious 1 = 1 / 2) ∧
      (self.max_dt_offset_ = 1 / 2 → trajectory.getAverageSegmentDuration = 1 / 5 →
        patched.getWayPointDurationFromPrevious 1 = 1 / 5) := by
  obtain ⟨p, trajectory, _, ht, hne, heq⟩ :=
    addPrefixState_of_condition self _
      (planner planning_scene (self.plannerRequest planning_scene req) res).1 _
      added_path_index hrun
  have hd : ((trajectory.setWayPointDurationFromPrevious 0
      (min self.max_dt_offset_ trajectory.getAverageSegmentDuration)).addPrefixWayPoint
        p 0).getWayPointDurationFromPrevious 1
      = min self.max_dt_offset_ trajectory.getAverageSegmentDuration := by
    cases hw : trajectory.waypoints_ with
    | nil => exact absurd hw hne
    | cons a l =>
      simp [RobotTrajectory.getWayPointDurationFromPrevious, RobotTrajectory.addPrefixWayPoint,
        RobotTrajectory.setWayPointDurationFromPrevious, setDurationAt, hw]
  refine ⟨trajectory, _, ht, ?_, hd, ?_, ?_, ?_⟩
  · unfold FixStartStateBounds.adaptAndPlan
    rw [heq]
  · rw [hd]; exact min_le_left _ _
  · intro h1 h2
    rw [hd, h1, h2]
    norm_num
  · intro h1 h2
    rw [hd, h1, h2]
    norm_num

/-- C6 in the example, with ceiling 1/2: a planner trajectory with durations 0
and 4 has average 2 and the leading segment of the patched trajectory gets 1/2;
with durations 0 and 2/5 the average is 1/5 and the leading segment gets 1/5. -/
theorem C6_prefix_duration_witness :
    (∃ patched,
      (exAdapter.adaptAndPlan (exPlanner 4) (exScene [exShoulder])
        (exRequest "shoulder" (-41 / 40)) exResponse []).res.trajectory = some patched ∧
      patched.getWayPointDurationFromPrevious 1 = 1 / 2) ∧
    (∃ patched,
      (exAdapter.adaptAndPlan (exPlanner (2 / 5)) (exScene [exShoulder])
        (exRequest "shoulder" (-41 / 40)) exResponse []).res.trajectory = some patched ∧
      patched.getWayPointDurationFromPrevious 1 = 1 / 5) := by
  constructor
  · obtain ⟨trajectory, patched, ht, hp, _, _, h2, _⟩ :=
      C6_prefix_duration exAdapter (exPlanner 4) (exScene [exShoulder])
        (exRequest "shoulder" (-41 / 40)) exResponse [] (exShoulder_prefixCondition 4 _)
    refine ⟨patched, hp, h2 ?_ ?_⟩
    · simp [exAdapter, initializeAdapter, getParam, DT_PARAM_NAME]
    · simp only [exPlanner, Option.some.injEq] at ht
      subst ht
      simp [RobotTrajectory.getAverageSegmentDuration, RobotTrajectory.getDuration]
      norm_num
  · obtain ⟨trajectory, patched, ht, hp, _, _, _, h3⟩ :=
      C6_prefix_duration exAdapter (exPlanner (2 / 5)) (exScene [exShoulder])
        (exRequest "shoulder" (-41 / 40)) exResponse [] (exShoulder_prefixCondition (2 / 5) _)
    refine ⟨patched, hp, h3 ?_ ?_⟩
    · simp [exAdapter, initializeAdapter, getParam, DT_PARAM_NAME]
    · simp only [exPlanner, Option.some.injEq] at ht
      subst ht
      simp [RobotTrajectory.getAverageSegmentDuration, RobotTrajectory.getDuration]
      norm_num

/-- C7: whenever the trajectory patch runs, and every tracked index is below
the largest `std::size_t`, the tracked index collection on return is the input
collection with every element incremented by one, in the same order, followed
by a single appended 0; its length grows by exactly one. -/
theorem C7_index_shift (self : FixStartStateBounds) (planner : PlannerFn)
    (planning_scene : PlanningScene) (req : MotionPlanRequest) (res : MotionPlanResponse)
    (added_path_index : List ℕ)
    (hrun : prefixCondition (self.fixStartState planning_scene req).prefix_state
      (planner planning_scene (self.plannerRequest planning_scene req) res).2 = true)
    (hsize : ∀ i ∈ added_path_index, i + 1 < 2 ^ 64) :
    (self.adaptAndPlan planner planning_scene req res added_path_index).added_path_index
      = added_path_index.map (fun i => i + 1) ++ [0] ∧
    (self.adaptAndPlan planner planning_scene req res added_path_index).added_path_index.length
      = added_path_index.length + 1 := by
  obtain ⟨p, trajectory, _, _, _, heq⟩ :=
    addPrefixState_of_condition self _
      (planner planning_scene (self.plannerRequest planning_scene req) res).1 _
      added_path_index hrun
  have hmap : added_path_index.map sizeIncr = added_path_index.map (fun i => i + 1) := by
    apply List.map_congr_left
    intro i hi
    exact Nat.mod_eq_of_lt (hsize i hi)
  unfold FixStartStateBounds.adaptAndPlan
  rw [heq]
  simp [hmap]

/-- C7 in the example: the tracked indices 0 and 3 become 1, 4 and 0. -/
theorem C7_index_shift_witness :
    (exAdapter.adaptAndPlan (exPlanner 4) (exScene [exShoulder]) (exRequest "shoulder" (-41 / 40))
      exResponse [0, 3]).added_path_index = [1, 4, 0] :=
  (C7_index_shift exAdapter (exPlanner 4) (exScene [exShoulder])
    (exRequest "shoulder" (-41 / 40)) exResponse [0, 3] (exShoulder_prefixCondition 4 _)
    (by decide)).1

/-- C8, counterexample: a floating joint "base" whose seven start values are all
zero. Every variable is within its declared bounds, so the joint satisfies its
strict bounds, yet the zero quaternion is replaced by the identity: the planner
receives a rewritten request whose start state has 1 where the original has 0. -/
theorem C8_counterexample :
    (∀ j ∈ selectJointModels (exScene [exBase]) (exRequest "base" 0),
      (specifiedStartState (exScene [exBase]) (exRequest "base" 0)).satisfiesBounds j 0 = true) ∧
    (∀ k b, exBase.variable_bounds_[k]? = some b →
      b.min_position_ ≤ (specifiedStartState (exScene [exBase]) (exRequest "base" 0)).position_
        "base" k ∧
      (specifiedStartState (exScene [exBase]) (exRequest "base" 0)).position_ "base" k
        ≤ b.max_position_) ∧
    (specifiedStartState (exScene [exBase]) (exRequest "base" 0)).position_ "base" 6 = 0 ∧
    (specifiedStartState (exScene [exBase])
      (exAdapter.plannerRequest (exScene [exBase]) (exRequest "base" 0))).position_ "base" 6 = 1 ∧
    exAdapter.plannerRequest (exScene [exBase]) (exRequest "base" 0) ≠ exRequest "base" 0 := by
  have hspec : ∀ k, (specifiedStartState (exScene [exBase]) (exRequest "base" 0)).position_
      "base" k = 0 := by
    intro k
    simp [specifiedStartState, robotStateMsgToRobotState, exRequest]
  have hchg : (exAdapter.fixStartState (exScene [exBase]) (exRequest "base" 0)).change_req
      = true := by
    rw [fixStartState_change_req, exBase_normalized.1]
    rfl
  obtain ⟨_, hstart⟩ := plannerRequest_start_state exAdapter (exScene [exBase])
    (exRequest "base" 0) hchg
  have hsat : ∀ j ∈ selectJointModels (exScene [exBase]) (exRequest "base" 0),
      (specifiedStartState (exScene [exBase]) (exRequest "base" 0)).satisfiesBounds j 0
        = true := by
    intro j hj
    simp [selectJointModels, exScene, RobotModel.hasJointModelGroup,
      RobotModel.getGroupJointModels, exRequest] at hj
    subst hj
    simp [RobotState.satisfiesBounds, RobotState.getJointPositions,
      JointModel.satisfiesPositionBounds, JointModel.isContinuousRevolute,
      JointModel.positionBounds, exBase, satisfiesFrom, VariableBounds.satisfies,
      specifiedStartState, robotStateMsgToRobotState, exRequest]
  have hone : (specifiedStartState (exScene [exBase])
      (exAdapter.plannerRequest (exScene [exBase]) (exRequest "base" 0))).position_ "base" 6
      = 1 := by
    have hnd : ((selectJointModels (exScene [exBase]) (exRequest "base" 0)).map
        JointModel.name_).Nodup := by
      simp [selectJointModels, exScene, RobotModel.hasJointModelGroup,
        RobotModel.getGroupJointModels, exRequest]
    rw [hstart, fixStartState_of_all_satisfied exAdapter _ _ hnd hsat]
    exact exBase_normalized.2
  refine ⟨hsat, ?_, hspec 6, hone, ?_⟩
  · intro k b hb
    rw [hspec k]
    have hmem : b ∈ exBase.variable_bounds_ := List.getElem?_mem hb
    simp [exBase] at hmem
    rcases hmem with rfl | rfl <;> norm_num
  · intro heq
    rw [heq, hspec 6] at hone
    norm_num at hone

/-- C8, amended: for joints with distinct names, when every joint of the
active group satisfies its strict bounds in the specified start state, no
snapshot is captured and no prefix waypoint is added (the response and the
tracked indices are returned as the planner left them); the working state is
the normalized start state, and the planner receives the original request
whenever the normalization pass changed nothing, and otherwise a copy whose
start state is the normalized one. -/
theorem C8_in_bounds_no_prefix (self : FixStartStateBounds) (planner : PlannerFn)
    (planning_scene : PlanningScene) (req : MotionPlanRequest) (res : MotionPlanResponse)
    (added_path_index : List ℕ)
    (hnames : ((selectJointModels planning_scene req).map JointModel.name_).Nodup)
    (hsat : ∀ j ∈ selectJointModels planning_scene req,
      (specifiedStartState planning_scene req).satisfiesBounds j 0 = true) :
    (self.fixStartState planning_scene req).prefix_state = none ∧
    (self.adaptAndPlan planner planning_scene req res added_path_index).res
      = (planner planning_scene (self.plannerRequest planning_scene req) res).2 ∧
    (self.adaptAndPlan planner planning_scene req res added_path_index).added_path_index
      = added_path_index ∧
    ((normalizedWorking planning_scene req).change_req = false →
      self.plannerRequest planning_scene req = req) ∧
    ((normalizedWorking planning_scene req).change_req = true →
      (self.plannerRequest planning_scene req).start_state
        = robotStateToRobotStateMsg (normalizedWorking planning_scene req).start_state) := by
  have hfix := fixStartState_of_all_satisfied self planning_scene req hnames hsat
  have hpre : (self.fixStartState planning_scene req).prefix_state = none := by
    rw [hfix, normalizedWorking_prefix_state]
  have hcond : prefixCondition (self.fixStartState planning_scene req).prefix_state
      (planner planning_scene (self.plannerRequest planning_scene req) res).2 = false := by
    simp [prefixCondition, hpre]
  refine ⟨hpre, ?_, ?_, ?_, ?_⟩
  · unfold FixStartStateBounds.adaptAndPlan
    rw [addPrefixState_of_not_condition self _ _ _ _ hcond]
  · unfold FixStartStateBounds.adaptAndPlan
    rw [addPrefixState_of_not_condition self _ _ _ _ hcond]
  · intro h
    simp [FixStartStateBounds.plannerRequest, hfix, h]
  · intro h
    simp [FixStartStateBounds.plannerRequest, hfix, h]

/-- C8, amended, at a shoulder value of 0 (range from -1 to 1): the planner
receives the original request and the tracked indices are untouched. -/
theorem C8_in_bounds_no_prefix_witness :
    exAdapter.plannerRequest (exScene [exShoulder]) (exRequest "shoulder" 0)
      = exRequest "shoulder" 0 ∧
    (exAdapter.adaptAndPlan (exPlanner 4) (exScene [exShoulder]) (exRequest "shoulder" 0)
      exResponse [0, 3]).added_path_index = [0, 3] := by
  have h := C8_in_bounds_no_prefix exAdapter (exPlanner 4) (exScene [exShoulder])
    (exRequest "shoulder" 0) exResponse [0, 3]
    (by simp [selectJointModels, exScene, RobotModel.hasJointModelGroup,
      RobotModel.getGroupJointModels, exRequest])
    (by
      intro j hj
      simp [selectJointModels, exScene, RobotModel.hasJointModelGroup,
        RobotModel.getGroupJointModels, exRequest] at hj
      subst hj
      simp [RobotState.satisfiesBounds, RobotState.getJointPositions,
        JointModel.satisfiesPositionBounds, JointModel.isContinuousRevolute,
        JointModel.positionBounds, exShoulder, satisfiesFrom, VariableBounds.satisfies,
        specifiedStartState, robotStateMsgToRobotState, exRequest])
  refine ⟨h.2.2.2.1 ?_, h.2.2.1⟩
  simp [normalizedWorking, normalizePass, selectJointModels, exScene, exShoulder, exRequest,
    RobotModel.hasJointModelGroup, RobotModel.getGroupJointModels, normalizeJoint]

/-- C9: for joints with distinct names and ordered bounds, the
normalize-then-correct pass is idempotent. Running `adaptAndPlan`'s two loops
again on the request the first run handed to the planner leaves the start state
of that request unchanged, sets no change flag and captures no snapshot, so the
second run forwards the very same request. -/
theorem C9_pass_idempotent (self : FixStartStateBounds) (planning_scene : PlanningScene)
    (req : MotionPlanRequest)
    (hnames : ((selectJointModels planning_scene req).map JointModel.name_).Nodup)
    (hord : ∀ jm ∈ selectJointModels planning_scene req,
      ∀ b ∈ jm.variable_bounds_, b.min_position_ ≤ b.max_position_) :
    self.fixStartState planning_scene (self.plannerRequest planning_scene req)
        = { start_state :=
              specifiedStartState planning_scene (self.plannerRequest planning_scene req)
            prefix_state := none
            change_req := false } ∧
      self.plannerRequest planning_scene (self.plannerRequest planning_scene req)
        = self.plannerRequest planning_scene req := by
  have hmain : self.fixStartState planning_scene (self.plannerRequest planning_scene req)
      = { start_state :=
            specifiedStartState planning_scene (self.plannerRequest planning_scene req)
          prefix_state := none
          change_req := false } := by
    cases hchg : (self.fixStartState planning_scene req).change_req with
    | true =>
      obtain ⟨_, hstart⟩ := plannerRequest_start_state self planning_scene req hchg
      have hsettled : ∀ jm ∈ selectJointModels planning_scene req,
          jm.isNormalized ((self.fixStartState planning_scene req).start_state.position_ jm.name_) ∧
          correctable self.bounds_dist_ (self.fixStartState planning_scene req).start_state jm
            = false := by
        intro jm hjm
        exact boundsPass_settled self.bounds_dist_ _ _ jm hnames hjm (hord jm hjm)
          (normalizePass_isNormalized _ _ jm hnames hjm)
      obtain ⟨hn, hb⟩ := passes_of_settled self.bounds_dist_ (selectJointModels planning_scene req)
        { start_state := (self.fixStartState planning_scene req).start_state
          prefix_state := none
          change_req := false } hsettled
      have hunf : self.fixStartState planning_scene (self.plannerRequest planning_scene req)
          = boundsPass self.bounds_dist_ (selectJointModels planning_scene req)
              (normalizePass (selectJointModels planning_scene req)
                { start_state := (self.fixStartState planning_scene req).start_state
                  prefix_state := none
                  change_req := false }) := by
        show boundsPass self.bounds_dist_ _ (normalizePass _ _) = _
        rw [plannerRequest_jointModels, hstart]
      rw [hunf, hn, hb, hstart]
    | false =>
      have hreq : self.plannerRequest planning_scene req = req := by
        simp [FixStartStateBounds.plannerRequest, hchg]
      rw [hreq]
      have hflags := fixStartState_change_req self planning_scene req
      rw [hchg] at hflags
      have hnf : (normalizedWorking planning_scene req).change_req = false := by
        cases h : (normalizedWorking planning_scene req).change_req with
        | false => rfl
        | true => rw [h] at hflags; simp at hflags
      have hnw : normalizedWorking planning_scene req
          = { start_state := specifiedStartState planning_scene req
              prefix_state := none
              change_req := false } := normalizePass_eq_of_flag _ _ hnf
      rcases boundsPass_snapshot self.bounds_dist_ (selectJointModels planning_scene req)
        (normalizedWorking planning_scene req)
        (normalizedWorking_prefix_state planning_scene req) with h | h
      · show boundsPass self.bounds_dist_ _ (normalizedWorking planning_scene req) = _
        rw [h, hnw]
      · have : (self.fixStartState planning_scene req).change_req = true := h.2
        rw [hchg] at this
        simp at this
  refine ⟨hmain, ?_⟩
  have hsame : ∀ r : MotionPlanRequest,
      (self.fixStartState planning_scene r).change_req = false →
        self.plannerRequest planning_scene r = r := by
    intro r hr
    simp [FixStartStateBounds.plannerRequest, hr]
  exact hsame _ (by rw [hmain])

/-- C9 in the example with two corrected joints: the second run on the
forwarded request sets no change flag and captures no snapshot. -/
theorem C9_pass_idempotent_witness :
    (exAdapter.fixStartState (exScene [exShoulder, exWrist])
      (exAdapter.plannerRequest (exScene [exShoulder, exWrist])
        (exRequest "shoulder" (-41 / 40)))).change_req = false ∧
    (exAdapter.fixStartState (exScene [exShoulder, exWrist])
      (exAdapter.plannerRequest (exScene [exShoulder, exWrist])
        (exRequest "shoulder" (-41 / 40)))).prefix_state = none := by
  have h := (C9_pass_idempotent exAdapter (exScene [exShoulder, exWrist])
    (exRequest "shoulder" (-41 / 40))
    (by simp [selectJointModels, exScene, RobotModel.hasJointModelGroup,
      RobotModel.getGroupJointModels, exRequest, exShoulder, exWrist])
    (by
      intro jm hjm b hb
      simp [selectJointModels, exScene, RobotModel.hasJointModelGroup,
        RobotModel.getGroupJointModels, exRequest] at hjm
      rcases hjm with rfl | rfl
      · simp [exShoulder] at hb
        subst hb
        norm_num
      · simp [exWrist] at hb
        subst hb
        norm_num)).1
  rw [h]
  exact ⟨rfl, rfl⟩

/-- C10: in a group of joints with distinct names, take a single-variable
bounded joint (revolute and not continuous, or prismatic) with ordered bounds
`mn` and `mx`, a positive tolerance `bounds_dist_` and a start value `v` that is
below `mn` by at most the tolerance, or above `mx` by at most the tolerance.
Then the planner receives a rewritten request, in whose start state the joint
has the value `mn` (respectively `mx`), and a snapshot is captured in which the
joint still has the value `v`. -/
theorem C10_within_tolerance_corrected (self : FixStartStateBounds)
    (planning_scene : PlanningScene) (req : MotionPlanRequest) (j : JointModel) (mn mx v : ℚ)
    (hj : j ∈ selectJointModels planning_scene req)
    (hnames : ((selectJointModels planning_scene req).map JointModel.name_).Nodup)
    (htype : (j.type_ = JointType.REVOLUTE ∧ j.continuous_ = false)
      ∨ j.type_ = JointType.PRISMATIC)
    (hbounds : j.variable_bounds_ = [{ min_position_ := mn, max_position_ := mx }])
    (hord : mn ≤ mx) (ht : 0 < self.bounds_dist_)
    (hv : (specifiedStartState planning_scene req).position_ j.name_ 0 = v)
    (hrange : (mn - self.bounds_dist_ ≤ v ∧ v < mn) ∨ (mx < v ∧ v ≤ mx + self.bounds_dist_)) :
    (self.plannerRequest planning_scene req).start_state
        = robotStateToRobotStateMsg (self.fixStartState planning_scene req).start_state ∧
      (v < mn →
        (specifiedStartState planning_scene
          (self.plannerRequest planning_scene req)).position_ j.name_ 0 = mn) ∧
      (mx < v →
        (specifiedStartState planning_scene
          (self.plannerRequest planning_scene req)).position_ j.name_ 0 = mx) ∧
      ∃ p, (self.fixStartState planning_scene req).prefix_state = some p ∧
        p.position_ j.name_ 0 = v := by
  have h1 : j.isContinuousRevolute = false := by
    unfold JointModel.isContinuousRevolute
    rcases htype with ⟨_, h⟩ | h <;> simp [h]
  have h2 : j.type_ ≠ JointType.PLANAR := by
    rcases htype with ⟨h, _⟩ | h <;> simp [h]
  have h3 : j.type_ ≠ JointType.FLOATING := by
    rcases htype with ⟨h, _⟩ | h <;> simp [h]
  have hpb : j.positionBounds = [{ min_position_ := mn, max_position_ := mx }] := by
    unfold JointModel.positionBounds
    rcases htype with ⟨h, _⟩ | h <;> simp [h, hbounds]
  have hw0 : (normalizedWorking planning_scene req).start_state.position_ j.name_
      = (specifiedStartState planning_scene req).position_ j.name_ :=
    normalizePass_other _ _ j hnames hj h1 h2 h3
  have hsat : ∀ (s : RobotState) (m : ℚ), s.satisfiesBounds j m
      = VariableBounds.satisfies { min_position_ := mn, max_position_ := mx }
          (s.position_ j.name_ 0) m := by
    intro s m
    simp [RobotState.satisfiesBounds, RobotState.getJointPositions,
      JointModel.satisfiesPositionBounds, h1, hpb, satisfiesFrom]
  have hc : correctable self.bounds_dist_ (normalizedWorking planning_scene req).start_state j
      = true := by
    unfold correctable
    rw [hsat, hsat, hw0, hv]
    simp only [VariableBounds.satisfies, Bool.and_eq_true, Bool.not_eq_true', Bool.not_eq_false',
      Bool.or_eq_true, Bool.or_eq_false_iff, decide_eq_true_eq, decide_eq_false_iff_not, not_lt,
      sub_zero, add_zero]
    rcases hrange with ⟨ha, hb⟩ | ⟨ha, hb⟩
    · exact ⟨Or.inl hb, by linarith, by linarith⟩
    · exact ⟨Or.inr ha, by linarith, by linarith⟩
  obtain ⟨hpos, hpre, hchg⟩ := boundsPass_correctable_joint self.bounds_dist_
    (selectJointModels planning_scene req) (normalizedWorking planning_scene req) j hnames hj
    (normalizedWorking_prefix_state planning_scene req) hc
  have hchange : (self.fixStartState planning_scene req).change_req = true := hchg
  obtain ⟨hmsg, hstart⟩ := plannerRequest_start_state self planning_scene req hchange
  have hfinal : (specifiedStartState planning_scene
      (self.plannerRequest planning_scene req)).position_ j.name_ 0
      = VariableBounds.clamp { min_position_ := mn, max_position_ := mx } v := by
    rw [hstart]
    unfold FixStartStateBounds.fixStartState
    rw [hpos, hw0]
    simp [JointModel.enforcePositionBounds, h1, hpb, hv]
  refine ⟨hmsg, ?_, ?_, (normalizedWorking planning_scene req).start_state, hpre, ?_⟩
  · intro hlt
    rw [hfinal]
    simp [VariableBounds.clamp, hlt]
  · intro hgt
    rw [hfinal]
    have hnot : ¬ v < mn := by linarith
    simp [VariableBounds.clamp, hnot, hgt]
  · rw [hw0, hv]

/-- C10 at the shoulder (range from -1 to 1, tolerance 1/20): the start value
-41/40 reaches the planner as -1, and the start value 41/40 as 1. -/
theorem C10_within_tolerance_corrected_witness :
    (specifiedStartState (exScene [exShoulder, exWrist])
      (exAdapter.plannerRequest (exScene [exShoulder, exWrist])
        (exRequest "shoulder" (-41 / 40)))).position_ "shoulder" 0 = -1 ∧
    (specifiedStartState (exScene [exShoulder, exWrist])
      (exAdapter.plannerRequest (exScene [exShoulder, exWrist])
        (exRequest "shoulder" (41 / 40)))).position_ "shoulder" 0 = 1 := by
  constructor
  · refine (C10_within_tolerance_corrected exAdapter (exScene [exShoulder, exWrist])
      (exRequest "shoulder" (-41 / 40)) exShoulder (-1) 1 (-41 / 40) ?_ ?_ ?_ ?_ ?_ ?_ ?_ ?_).2.1 ?_
    · simp [selectJointModels, exScene, RobotModel.hasJointModelGroup,
        RobotModel.getGroupJointModels, exRequest]
    · simp [selectJointModels, exScene, RobotModel.hasJointModelGroup,
        RobotModel.getGroupJointModels, exRequest, exShoulder, exWrist]
    · simp [exShoulder]
    · simp [exShoulder]
    · norm_num
    · norm_num [exAdapter, initializeAdapter, getParam, BOUNDS_PARAM_NAME]
    · simp [specifiedStartState, robotStateMsgToRobotState, exRequest, exShoulder]
    · left
      norm_num [exAdapter, initializeAdapter, getParam, BOUNDS_PARAM_NAME]
    · norm_num
  · refine (C10_within_tolerance_corrected exAdapter (exScene [exShoulder, exWrist])
      (exRequest "shoulder" (41 / 40)) exShoulder (-1) 1 (41 / 40) ?_ ?_ ?_ ?_ ?_ ?_ ?_ ?_).2.2.1 ?_
    · simp [selectJointModels, exScene, RobotModel.hasJointModelGroup,
        RobotModel.getGroupJointModels, exRequest]
    · simp [selectJointModels, exScene, RobotModel.hasJointModelGroup,
        RobotModel.getGroupJointModels, exRequest, exShoulder, exWrist]
    · simp [exShoulder]
    · simp [exShoulder]
    · norm_num
    · norm_num [exAdapter, initializeAdapter, getParam, BOUNDS_PARAM_NAME]
    · simp [specifiedStartState, robotStateMsgToRobotState, exRequest, exShoulder]
    · right
      norm_num [exAdapter, initializeAdapter, getParam, BOUNDS_PARAM_NAME]
    · norm_num

/-- C11: in a group of joints with distinct names, take a single-variable
bounded joint (revolute and not continuous, or prismatic) with bounds `mn` and
`mx` whose start value `v` lies below `mn - bounds_dist_` or above
`mx + bounds_dist_`. No correction is applied to it: its value in the start
state the planner receives is `v`; its step of the second loop changes nothing
(no snapshot, no flag, no clamp); and if no other joint needs attention (the
normalization pass set no flag and every other joint satisfies its strict
bounds), the planner receives the original request and no snapshot exists. -/
theorem C11_beyond_tolerance_untouched (self : FixStartStateBounds)
    (planning_scene : PlanningScene) (req : MotionPlanRequest) (j : JointModel) (mn mx v : ℚ)
    (hj : j ∈ selectJointModels planning_scene req)
    (hnames : ((selectJointModels planning_scene req).map JointModel.name_).Nodup)
    (htype : (j.type_ = JointType.REVOLUTE ∧ j.continuous_ = false)
      ∨ j.type_ = JointType.PRISMATIC)
    (hbounds : j.variable_bounds_ = [{ min_position_ := mn, max_position_ := mx }])
    (hv : (specifiedStartState planning_scene req).position_ j.name_ 0 = v)
    (hrange : v < mn - self.bounds_dist_ ∨ mx + self.bounds_dist_ < v) :
    (specifiedStartState planning_scene
        (self.plannerRequest planning_scene req)).position_ j.name_ 0 = v ∧
      (∀ pre post, selectJointModels planning_scene req = pre ++ j :: post →
        correctJoint self.bounds_dist_
            (boundsPass self.bounds_dist_ pre (normalizedWorking planning_scene req)) j
          = boundsPass self.bounds_dist_ pre (normalizedWorking planning_scene req)) ∧
      ((normalizedWorking planning_scene req).change_req = false →
        (∀ j2 ∈ selectJointModels planning_scene req, j2 ≠ j →
          (specifiedStartState planning_scene req).satisfiesBounds j2 0 = true) →
        self.plannerRequest planning_scene req = req ∧
          (self.fixStartState planning_scene req).prefix_state = none) := by
  obtain ⟨h1, h2, h3⟩ := single_not_normalized j htype
  have hw0 : (normalizedWorking planning_scene req).start_state.position_ j.name_
      = (specifiedStartState planning_scene req).position_ j.name_ :=
    normalizePass_other _ _ j hnames hj h1 h2 h3
  have hnc : ∀ s : RobotState, s.position_ j.name_ 0 = v →
      correctable self.bounds_dist_ s j = false := by
    intro s hs
    unfold correctable
    rw [satisfiesBounds_single j mn mx htype hbounds, satisfiesBounds_single j mn mx htype hbounds,
      hs]
    have hfalse : VariableBounds.satisfies { min_position_ := mn, max_position_ := mx } v
        self.bounds_dist_ = false := by
      simp only [VariableBounds.satisfies, Bool.not_eq_false', Bool.or_eq_true, decide_eq_true_eq]
      rcases hrange with h | h
      · exact Or.inl h
      · exact Or.inr h
    rw [hfalse]
    simp
  have hw0v : (normalizedWorking planning_scene req).start_state.position_ j.name_ 0 = v := by
    rw [hw0, hv]
  refine ⟨?_, ?_, ?_⟩
  · rw [plannerStartState_eq]
    unfold FixStartStateBounds.fixStartState
    rw [boundsPass_uncorrectable_joint self.bounds_dist_ _ _ j hnames hj (hnc _ hw0v)]
    exact hw0v
  · intro pre post hsel
    have hpre : j.name_ ∉ pre.map JointModel.name_ := by
      rw [hsel, List.map_append, List.map_cons] at hnames
      intro hmem
      exact (List.nodup_append.mp hnames).2.2 hmem (List.mem_cons_self _ _)
    apply correctJoint_of_not_correctable
    apply hnc
    rw [boundsPass_frame self.bounds_dist_ pre _ j.name_ hpre]
    exact hw0v
  · intro hflag hothers
    have hnw : normalizedWorking planning_scene req
        = { start_state := specifiedStartState planning_scene req
            prefix_state := none
            change_req := false } := normalizePass_eq_of_flag _ _ hflag
    have hfix : self.fixStartState planning_scene req = normalizedWorking planning_scene req := by
      unfold FixStartStateBounds.fixStartState
      apply boundsPass_of_none_correctable
      intro j2 hj2
      by_cases heq : j2 = j
      · rw [heq]
        exact hnc _ hw0v
      · have hs := hothers j2 hj2 heq
        rw [hnw]
        simp [correctable, hs]
    constructor
    · simp [FixStartStateBounds.plannerRequest, hfix, hflag]
    · rw [hfix, normalizedWorking_prefix_state]

/-- C11 at the shoulder (range from -1 to 1, tolerance 1/20) with start value
-2, next to a continuous elbow at 0: the planner receives the value -2 in the
original request. -/
theorem C11_beyond_tolerance_untouched_witness :
    (specifiedStartState (exScene [exShoulder, exElbow])
      (exAdapter.plannerRequest (exScene [exShoulder, exElbow])
        (exRequest "shoulder" (-2)))).position_ "shoulder" 0 = -2 ∧
    exAdapter.plannerRequest (exScene [exShoulder, exElbow]) (exRequest "shoulder" (-2))
      = exRequest "shoulder" (-2) := by
  have h := C11_beyond_tolerance_untouched exAdapter (exScene [exShoulder, exElbow])
    (exRequest "shoulder" (-2)) exShoulder (-1) 1 (-2)
    (by simp [selectJointModels, exScene, RobotModel.hasJointModelGroup,
      RobotModel.getGroupJointModels, exRequest])
    (by simp [selectJointModels, exScene, RobotModel.hasJointModelGroup,
      RobotModel.getGroupJointModels, exRequest, exShoulder, exElbow])
    (by simp [exShoulder])
    (by simp [exShoulder])
    (by simp [specifiedStartState, robotStateMsgToRobotState, exRequest, exShoulder])
    (by left; norm_num [exAdapter, initializeAdapter, getParam, BOUNDS_PARAM_NAME])
  refine ⟨h.1, (h.2.2 ?_ ?_).1⟩
  · have hz : wrapContinuous 0 = 0 :=
      wrapContinuous_of_mem 0 (by linarith [M_PI_pos]) (by linarith [M_PI_pos])
    unfold normalizedWorking
    rw [normalizePass_of_isNormalized]
    intro jm hjm
    simp [selectJointModels, exScene, RobotModel.hasJointModelGroup,
      RobotModel.getGroupJointModels, exRequest] at hjm
    rcases hjm with rfl | rfl
    · simp [JointModel.isNormalized, JointModel.isContinuousRevolute, exShoulder]
    · simp [JointModel.isNormalized, JointModel.isContinuousRevolute, exElbow,
        specifiedStartState, robotStateMsgToRobotState, exRequest, exScene, hz]
  · intro j2 hj2 hne
    simp [selectJointModels, exScene, RobotModel.hasJointModelGroup,
      RobotModel.getGroupJointModels, exRequest] at hj2
    rcases hj2 with rfl | rfl
    · exact absurd rfl hne
    · simp [RobotState.satisfiesBounds, JointModel.satisfiesPositionBounds,
        JointModel.isContinuousRevolute, exElbow]

/-- C12: in a group of joints with distinct names, for a continuous revolute
joint with start value `v`, the value the normalization pass leaves in the
working state is `wrapContinuous v`: it lies in the canonical range, above
`-M_PI` and at most `M_PI`, and differs from `v` by an integer multiple of the
full turn `2 * M_PI`; it is also the value the planner receives. When it differs
from `v`, the change flag is set and the planner receives the rewritten request.
The wrap captures no snapshot: none exists after the normalization pass, the
joint is never correctable, and none exists after the bounds pass when no other
joint is correctable. -/
theorem C12_continuous_wrap (self : FixStartStateBounds) (planning_scene : PlanningScene)
    (req : MotionPlanRequest) (j : JointModel) (v : ℚ)
    (hj : j ∈ selectJointModels planning_scene req)
    (hnames : ((selectJointModels planning_scene req).map JointModel.name_).Nodup)
    (hcr : j.isContinuousRevolute = true)
    (hv : (specifiedStartState planning_scene req).position_ j.name_ 0 = v) :
    (normalizedWorking planning_scene req).start_state.position_ j.name_ 0 = wrapContinuous v ∧
    (-M_PI < wrapContinuous v ∧ wrapContinuous v ≤ M_PI) ∧
    (∃ k : ℤ, wrapContinuous v = v - (k : ℚ) * (2 * M_PI)) ∧
    (specifiedStartState planning_scene
      (self.plannerRequest planning_scene req)).position_ j.name_ 0 = wrapContinuous v ∧
    (wrapContinuous v ≠ v →
      (normalizedWorking planning_scene req).change_req = true ∧
      (self.fixStartState planning_scene req).change_req = true ∧
      (self.plannerRequest planning_scene req).start_state
        = robotStateToRobotStateMsg (self.fixStartState planning_scene req).start_state) ∧
    (normalizedWorking planning_scene req).prefix_state = none ∧
    (∀ s : RobotState, correctable self.bounds_dist_ s j = false) ∧
    ((∀ j2 ∈ selectJointModels planning_scene req, j2 ≠ j →
        correctable self.bounds_dist_ (normalizedWorking planning_scene req).start_state j2
          = false) →
      (self.fixStartState planning_scene req).prefix_state = none) := by
  have hnorm : (normalizedWorking planning_scene req).start_state.position_ j.name_ 0
      = wrapContinuous v := by
    unfold normalizedWorking
    rw [normalizePass_continuous _ _ j hnames hj hcr, hv]
  have hflag : wrapContinuous v ≠ v → (normalizedWorking planning_scene req).change_req = true := by
    intro hne
    by_contra hnot
    have hfalse : (normalizedWorking planning_scene req).change_req = false := by
      simpa using hnot
    have hsame : normalizedWorking planning_scene req
        = { start_state := specifiedStartState planning_scene req
            prefix_state := none
            change_req := false } := normalizePass_eq_of_flag _ _ hfalse
    rw [hsame] at hnorm
    exact hne (by rw [← hnorm]; exact hv)
  refine ⟨hnorm, (wrapContinuous_spec v).1, (wrapContinuous_spec v).2, ?_, ?_,
    normalizedWorking_prefix_state planning_scene req,
    fun s => correctable_continuous self.bounds_dist_ s j hcr, ?_⟩
  · rw [plannerStartState_eq]
    unfold FixStartStateBounds.fixStartState
    rw [boundsPass_uncorrectable_joint self.bounds_dist_ _ _ j hnames hj
      (correctable_continuous self.bounds_dist_ _ j hcr)]
    exact hnorm
  · intro hne
    have hchg : (self.fixStartState planning_scene req).change_req = true := by
      rw [fixStartState_change_req, hflag hne]
      rfl
    exact ⟨hflag hne, hchg, (plannerRequest_start_state self planning_scene req hchg).1⟩
  · intro hothers
    unfold FixStartStateBounds.fixStartState
    rw [boundsPass_of_none_correctable, normalizedWorking_prefix_state]
    intro j2 hj2
    by_cases heq : j2 = j
    · rw [heq]
      exact correctable_continuous self.bounds_dist_ _ j hcr
    · exact hothers j2 hj2 heq

/-- C12 at the continuous elbow with start value 49/10 (4.9 rad): the planner
receives 49/10 minus one full turn, the change flag is set, and no snapshot is
captured. -/
theorem C12_continuous_wrap_witness :
    (specifiedStartState (exScene [exElbow])
      (exAdapter.plannerRequest (exScene [exElbow])
        (exRequest "elbow" (49 / 10)))).position_ "elbow" 0 = 49 / 10 - 2 * M_PI ∧
    (exAdapter.fixStartState (exScene [exElbow]) (exRequest "elbow" (49 / 10))).change_req
      = true ∧
    (exAdapter.fixStartState (exScene [exElbow]) (exRequest "elbow" (49 / 10))).prefix_state
      = none := by
  have h := C12_continuous_wrap exAdapter (exScene [exElbow]) (exRequest "elbow" (49 / 10))
    exElbow (49 / 10)
    (by simp [selectJointModels, exScene, RobotModel.hasJointModelGroup,
      RobotModel.getGroupJointModels, exRequest])
    (by simp [selectJointModels, exScene, RobotModel.hasJointModelGroup,
      RobotModel.getGroupJointModels, exRequest])
    (by simp [JointModel.isContinuousRevolute, exElbow])
    (by simp [specifiedStartState, robotStateMsgToRobotState, exRequest, exElbow])
  have hne : wrapContinuous (49 / 10) ≠ 49 / 10 := by
    rw [wrapContinuous_example]
    have := M_PI_pos
    intro heq
    linarith
  refine ⟨?_, (h.2.2.2.2.1 hne).2.1, h.2.2.2.2.2.2.2 ?_⟩
  · rw [← wrapContinuous_example]
    exact h.2.2.2.1
  · intro j2 hj2 hne2
    simp [selectJointModels, exScene, RobotModel.hasJointModelGroup,
      RobotModel.getGroupJointModels, exRequest] at hj2
    exact absurd hj2 hne2

/-- C13, counterexample: a planar platform whose reported start yaw is 4 (more
than `M_PI`), next to a wrist at 0 that is corrected. A prefix waypoint is
added, and its yaw is 4 minus one full turn, not the yaw 4 specified by the
incoming request: the snapshot is taken after the normalization pass. -/
theorem C13_counterexample :
    ∃ first rest,
      (exAdapter.adaptAndPlan (exPlanner 4) (exScene [exPlatform, exWrist])
        (exRequestAt "platform" 2 4) exResponse []).res.trajectory
        = some { waypoints_ := first :: rest } ∧
      first.state.position_ "platform" 2 = 4 - 2 * M_PI ∧
      (specifiedStartState (exScene [exPlatform, exWrist])
        (exRequestAt "platform" 2 4)).position_ "platform" 2 = 4 ∧
      first.state.position_ "platform" 2
        ≠ (specifiedStartState (exScene [exPlatform, exWrist])
            (exRequestAt "platform" 2 4)).position_ "platform" 2 := by
  have hrun : prefixCondition
      (exAdapter.fixStartState (exScene [exPlatform, exWrist])
        (exRequestAt "platform" 2 4)).prefix_state
      (exPlanner 4 (exScene [exPlatform, exWrist])
        (exAdapter.plannerRequest (exScene [exPlatform, exWrist]) (exRequestAt "platform" 2 4))
        exResponse).2 = true := by
    unfold prefixCondition
    rw [exPlatform_normalized.2]
    simp [exPlanner, RobotTrajectory.empty]
  obtain ⟨w0, ws, _, _, hres⟩ := adaptAndPlan_patched exAdapter (exPlanner 4)
    (exScene [exPlatform, exWrist]) (exRequestAt "platform" 2 4) exResponse [] hrun
  have hspec : (specifiedStartState (exScene [exPlatform, exWrist])
      (exRequestAt "platform" 2 4)).position_ "platform" 2 = 4 := by
    simp [specifiedStartState, robotStateMsgToRobotState, exRequestAt]
  refine ⟨_, _, hres, exPlatform_normalized.1, hspec, ?_⟩
  rw [hspec]
  show (normalizedWorking (exScene [exPlatform, exWrist])
    (exRequestAt "platform" 2 4)).start_state.position_ "platform" 2 ≠ 4
  rw [exPlatform_normalized.1]
  have := M_PI_pos
  intro heq
  linarith

/-- C13, amended: whenever a prefix waypoint is added, the first waypoint of the
returned trajectory equals the start state specified by the incoming request
under every joint name that no continuous revolute, planar or floating joint of
the active group bears, and on all joints when the normalization pass changed
nothing. For a planar joint of the active group (joints having distinct names)
it holds the specified x and y and a yaw normalized into the canonical range:
the snapshot is taken after the normalization pass, before any clamping. -/
theorem C13_first_waypoint_normalized_start (self : FixStartStateBounds) (planner : PlannerFn)
    (planning_scene : PlanningScene) (req : MotionPlanRequest) (res : MotionPlanResponse)
    (added_path_index : List ℕ)
    (hrun : prefixCondition (self.fixStartState planning_scene req).prefix_state
      (planner planning_scene (self.plannerRequest planning_scene req) res).2 = true) :
    ∃ first rest,
      (self.adaptAndPlan planner planning_scene req res added_path_index).res.trajectory
        = some { waypoints_ := first :: rest } ∧
      (∀ n : String,
        (∀ jm ∈ selectJointModels planning_scene req, jm.name_ = n →
          jm.isContinuousRevolute = false ∧ jm.type_ ≠ JointType.PLANAR ∧
            jm.type_ ≠ JointType.FLOATING) →
        first.state.position_ n = (specifiedStartState planning_scene req).position_ n) ∧
      ((normalizedWorking planning_scene req).change_req = false →
        first.state = specifiedStartState planning_scene req) ∧
      (((selectJointModels planning_scene req).map JointModel.name_).Nodup →
        ∀ jm ∈ selectJointModels planning_scene req, jm.type_ = JointType.PLANAR →
          first.state.position_ jm.name_ 0
            = (specifiedStartState planning_scene req).position_ jm.name_ 0 ∧
          first.state.position_ jm.name_ 1
            = (specifiedStartState planning_scene req).position_ jm.name_ 1 ∧
          -M_PI ≤ first.state.position_ jm.name_ 2 ∧
          first.state.position_ jm.name_ 2 ≤ M_PI) := by
  obtain ⟨w0, ws, _, _, hres⟩ := adaptAndPlan_patched self planner planning_scene req res
    added_path_index hrun
  refine ⟨_, _, hres, ?_, ?_, ?_⟩
  · intro n hn
    show (normalizedWorking planning_scene req).start_state.position_ n = _
    unfold normalizedWorking
    rw [normalizePass_name_other _ n hn]
  · intro hflag
    show (normalizedWorking planning_scene req).start_state = _
    have hnw : normalizedWorking planning_scene req
        = { start_state := specifiedStartState planning_scene req
            prefix_state := none
            change_req := false } := normalizePass_eq_of_flag _ _ hflag
    rw [hnw]
  · intro hnd jm hjm hpl
    exact normalizePass_planar _ _ jm hnd hjm hpl

/-- C13, amended, at a shoulder start value of -41/40 that is corrected to -1:
the first waypoint of the returned trajectory still holds -41/40. -/
theorem C13_first_waypoint_normalized_start_witness :
    ∃ first rest,
      (exAdapter.adaptAndPlan (exPlanner 4) (exScene [exShoulder])
        (exRequest "shoulder" (-41 / 40)) exResponse []).res.trajectory
        = some { waypoints_ := first :: rest } ∧
      first.state.position_ "shoulder" 0 = -41 / 40 := by
  obtain ⟨first, rest, hres, hn, _, _⟩ := C13_first_waypoint_normalized_start exAdapter
    (exPlanner 4) (exScene [exShoulder]) (exRequest "shoulder" (-41 / 40)) exResponse []
    (exShoulder_prefixCondition 4 _)
  refine ⟨first, rest, hres, ?_⟩
  rw [hn "shoulder" ?_]
  · simp [specifiedStartState, robotStateMsgToRobotState, exRequest]
  · intro jm hjm _
    simp [selectJointModels, exScene, RobotModel.hasJointModelGroup,
      RobotModel.getGroupJointModels, exRequest] at hjm
    subst hjm
    simp [JointModel.isContinuousRevolute, exShoulder]

/-- C14, counterexample: a planner that returns failure and still leaves a
trajectory of two waypoints, on a request whose shoulder value is corrected.
`adaptAndPlan` returns failure, yet the snapshot is prepended (three waypoints)
and the tracked indices 0 and 3 are shifted to 1, 4 and 0. -/
theorem C14_counterexample :
    (exPartialPlanner (exScene [exShoulder])
      (exAdapter.plannerRequest (exScene [exShoulder]) (exRequest "shoulder" (-41 / 40)))
      exResponse).1 = false ∧
    (exAdapter.adaptAndPlan exPartialPlanner (exScene [exShoulder])
      (exRequest "shoulder" (-41 / 40)) exResponse [0, 3]).solved = false ∧
    (exAdapter.adaptAndPlan exPartialPlanner (exScene [exShoulder])
      (exRequest "shoulder" (-41 / 40)) exResponse [0, 3]).added_path_index = [1, 4, 0] ∧
    ∃ patched,
      (exAdapter.adaptAndPlan exPartialPlanner (exScene [exShoulder])
        (exRequest "shoulder" (-41 / 40)) exResponse [0, 3]).res.trajectory = some patched ∧
      patched.getWayPointCount = 3 := by
  have hrun : prefixCondition
      (exAdapter.fixStartState (exScene [exShoulder]) (exRequest "shoulder" (-41 / 40))).prefix_state
      (exPartialPlanner (exScene [exShoulder])
        (exAdapter.plannerRequest (exScene [exShoulder]) (exRequest "shoulder" (-41 / 40)))
        exResponse).2 = true := by
    unfold prefixCondition
    rw [exShoulder_within_tolerance.1]
    simp [exPartialPlanner, RobotTrajectory.empty]
  obtain ⟨p, trajectory, _, ht, _, heq⟩ :=
    addPrefixState_of_condition exAdapter _
      (exPartialPlanner (exScene [exShoulder])
        (exAdapter.plannerRequest (exScene [exShoulder]) (exRequest "shoulder" (-41 / 40)))
        exResponse).1 _ [0, 3] hrun
  have hunf : exAdapter.adaptAndPlan exPartialPlanner (exScene [exShoulder])
      (exRequest "shoulder" (-41 / 40)) exResponse [0, 3]
      = exAdapter.addPrefixState
          (exAdapter.fixStartState (exScene [exShoulder])
            (exRequest "shoulder" (-41 / 40))).prefix_state
          (exPartialPlanner (exScene [exShoulder])
            (exAdapter.plannerRequest (exScene [exShoulder]) (exRequest "shoulder" (-41 / 40)))
            exResponse).1
          (exPartialPlanner (exScene [exShoulder])
            (exAdapter.plannerRequest (exScene [exShoulder]) (exRequest "shoulder" (-41 / 40)))
            exResponse).2 [0, 3] := rfl
  rw [hunf, heq]
  refine ⟨rfl, rfl, ?_, _, rfl, ?_⟩
  · show List.map sizeIncr [0, 3] ++ [0] = [1, 4, 0]
    simp [sizeIncr]
  · simp only [exPartialPlanner, Option.some.injEq] at ht
    subst ht
    rfl

/-- C14, amended: the patch is decided by the snapshot and the trajectory the
planner left, not by the boolean it returned. For a planner call that returns
failure, `adaptAndPlan` returns failure; when the response then holds no
trajectory or an empty one, or no snapshot was captured, no prefix waypoint is
added and the tracked indices are not shifted; when a snapshot was captured and
the response holds a non-empty trajectory, the snapshot is prepended and the
indices are shifted all the same. -/
theorem C14_failed_plan_patch (self : FixStartStateBounds) (planner : PlannerFn)
    (planning_scene : PlanningScene) (req : MotionPlanRequest) (res : MotionPlanResponse)
    (added_path_index : List ℕ)
    (hfail : (planner planning_scene (self.plannerRequest planning_scene req) res).1 = false) :
    (self.adaptAndPlan planner planning_scene req res added_path_index).solved = false ∧
    (prefixCondition (self.fixStartState planning_scene req).prefix_state
        (planner planning_scene (self.plannerRequest planning_scene req) res).2 = false →
      (self.adaptAndPlan planner planning_scene req res added_path_index).res
        = (planner planning_scene (self.plannerRequest planning_scene req) res).2 ∧
      (self.adaptAndPlan planner planning_scene req res added_path_index).added_path_index
        = added_path_index) ∧
    (prefixCondition (self.fixStartState planning_scene req).prefix_state
        (planner planning_scene (self.plannerRequest planning_scene req) res).2 = true →
      (self.adaptAndPlan planner planning_scene req res added_path_index).added_path_index
        = added_path_index.map sizeIncr ++ [0] ∧
      ∃ (w0 : WayPoint) (ws : List WayPoint) (first second : WayPoint),
        (planner planning_scene (self.plannerRequest planning_scene req) res).2.trajectory
          = some { waypoints_ := w0 :: ws } ∧
        (self.adaptAndPlan planner planning_scene req res added_path_index).res.trajectory
          = some { waypoints_ := first :: second :: ws } ∧
        first.state = (normalizedWorking planning_scene req).start_state) := by
  refine ⟨?_, ?_, ?_⟩
  · unfold FixStartStateBounds.adaptAndPlan FixStartStateBounds.addPrefixState
    split
    · split <;> exact hfail
    · exact hfail
  · intro h
    unfold FixStartStateBounds.adaptAndPlan
    rw [addPrefixState_of_not_condition self _ _ _ _ h]
    exact ⟨rfl, rfl⟩
  · intro h
    constructor
    · obtain ⟨p, trajectory, _, _, _, heq⟩ :=
        addPrefixState_of_condition self _
          (planner planning_scene (self.plannerRequest planning_scene req) res).1 _
          added_path_index h
      unfold FixStartStateBounds.adaptAndPlan
      rw [heq]
    · obtain ⟨w0, ws, ht, _, hres⟩ := adaptAndPlan_patched self planner planning_scene req res
        added_path_index h
      exact ⟨w0, ws, _, _, ht, hres, rfl⟩

/-- C14, amended, with a planner that fails and leaves no trajectory, on a
request whose shoulder value is corrected: failure is returned and the tracked
indices 0 and 3 are returned as they were. -/
theorem C14_failed_plan_patch_witness :
    (exAdapter.adaptAndPlan exFailingPlanner (exScene [exShoulder])
      (exRequest "shoulder" (-41 / 40)) exResponse [0, 3]).solved = false ∧
    (exAdapter.adaptAndPlan exFailingPlanner (exScene [exShoulder])
      (exRequest "shoulder" (-41 / 40)) exResponse [0, 3]).added_path_index = [0, 3] := by
  have h := C14_failed_plan_patch exAdapter exFailingPlanner (exScene [exShoulder])
    (exRequest "shoulder" (-41 / 40)) exResponse [0, 3] rfl
  refine ⟨h.1, (h.2.1 ?_).2⟩
  simp [prefixCondition, exFailingPlanner, exResponse]

/-- C15: the snapshot is captured once and covers all corrections. Whenever it
exists it equals the whole working state as it stood after the normalization
pass; once it exists part-way through the bounds pass, it is the snapshot at
the end of the pass too (no later clamp alters it); and, for joints of distinct
names, for every joint corrected in the bounds pass, the first or a later one,
the snapshot holds the values that joint had right before its clamp. -/
theorem C15_snapshot_covers_all (self : FixStartStateBounds) (planning_scene : PlanningScene)
    (req : MotionPlanRequest) :
    (∀ p : RobotState, (self.fixStartState planning_scene req).prefix_state = some p →
      p = (normalizedWorking planning_scene req).start_state) ∧
    (∀ (pre post : List JointModel) (p : RobotState),
      selectJointModels planning_scene req = pre ++ post →
      (boundsPass self.bounds_dist_ pre (normalizedWorking planning_scene req)).prefix_state
        = some p →
      (self.fixStartState planning_scene req).prefix_state = some p) ∧
    (((selectJointModels planning_scene req).map JointModel.name_).Nodup →
      ∀ (pre post : List JointModel) (j : JointModel),
        selectJointModels planning_scene req = pre ++ j :: post →
        (boundsPass self.bounds_dist_ pre
          (normalizedWorking planning_scene req)).start_state.satisfiesBounds j 0 = false →
        (boundsPass self.bounds_dist_ pre
          (normalizedWorking planning_scene req)).start_state.satisfiesBounds j
            self.bounds_dist_ = true →
        ∃ p, (self.fixStartState planning_scene req).prefix_state = some p ∧
          p.position_ j.name_
            = (boundsPass self.bounds_dist_ pre
                (normalizedWorking planning_scene req)).start_state.position_ j.name_) := by
  refine ⟨fun p hp => fixStartState_prefix_state_eq self planning_scene req p hp, ?_, ?_⟩
  · intro pre post p hsel hp
    unfold FixStartStateBounds.fixStartState
    rw [hsel, boundsPass_append]
    exact (boundsPass_prefix_some self.bounds_dist_ post _ p hp).1
  · intro hnames pre post j hsel hviol htol
    have hc : correctable self.bounds_dist_ (boundsPass self.bounds_dist_ pre
        (normalizedWorking planning_scene req)).start_state j = true := by
      simp [correctable, hviol, htol]
    have hsome : (self.fixStartState planning_scene req).prefix_state.isSome = true := by
      unfold FixStartStateBounds.fixStartState
      rw [boundsPass_prefix_isSome_iff]
      exact Or.inr ⟨pre, j, post, hsel, hc⟩
    obtain ⟨p, hp⟩ := Option.isSome_iff_exists.mp hsome
    have hpeq := fixStartState_prefix_state_eq self planning_scene req p hp
    have hpre : j.name_ ∉ pre.map JointModel.name_ := by
      rw [hsel, List.map_append, List.map_cons] at hnames
      intro hmem
      exact (List.nodup_append.mp hnames).2.2 hmem (List.mem_cons_self _ _)
    refine ⟨p, hp, ?_⟩
    rw [hpeq, boundsPass_frame self.bounds_dist_ pre _ j.name_ hpre]

/-- C15 in the example with two corrected joints: the wrist is corrected second,
after the shoulder, and the one snapshot holds the value 0 the wrist had before
its clamp. -/
theorem C15_snapshot_covers_all_witness :
    ∃ p, (exAdapter.fixStartState (exScene [exShoulder, exWrist])
        (exRequest "shoulder" (-41 / 40))).prefix_state = some p ∧
      p.position_ "wrist" 0 = 0 := by
  obtain ⟨hsel, hnd, hpos, hviol, htol⟩ := exWrist_after_shoulder
  obtain ⟨p, hp, hval⟩ := (C15_snapshot_covers_all exAdapter (exScene [exShoulder, exWrist])
    (exRequest "shoulder" (-41 / 40))).2.2 hnd [exShoulder] [] exWrist hsel hviol htol
  refine ⟨p, hp, ?_⟩
  have hval0 : p.position_ "wrist" 0
      = (boundsPass exAdapter.bounds_dist_ [exShoulder]
          (normalizedWorking (exScene [exShoulder, exWrist])
            (exRequest "shoulder" (-41 / 40)))).start_state.position_ "wrist" 0 :=
    congrFun hval 0
  rw [hval0, hpos]

/-- C16: whenever the trajectory patch runs on a planner trajectory with
waypoints `w0 :: ws`, the returned trajectory has one waypoint more: the snapshot
at index 0 with duration 0, then `w0` with its state unchanged and its duration
replaced, then the waypoints `ws` exactly as they were. So the states follow in
the same order, and the duration of every planner waypoint but the first is
unchanged (it sits one index later). -/
theorem C16_patched_trajectory_shape (self : FixStartStateBounds) (planner : PlannerFn)
    (planning_scene : PlanningScene) (req : MotionPlanRequest) (res : MotionPlanResponse)
    (added_path_index : List ℕ)
    (hrun : prefixCondition (self.fixStartState planning_scene req).prefix_state
      (planner planning_scene (self.plannerRequest planning_scene req) res).2 = true) :
    ∃ (p : RobotState) (w0 : WayPoint) (ws : List WayPoint) (patched : RobotTrajectory),
      (self.fixStartState planning_scene req).prefix_state = some p ∧
      (planner planning_scene (self.plannerRequest planning_scene req) res).2.trajectory
        = some { waypoints_ := w0 :: ws } ∧
      (self.adaptAndPlan planner planning_scene req res added_path_index).res.trajectory
        = some patched ∧
      patched.waypoints_
        = { state := p, duration_from_previous := 0 } ::
          { state := w0.state
            duration_from_previous := min self.max_dt_offset_
              (RobotTrajectory.getAverageSegmentDuration { waypoints_ := w0 :: ws }) } :: ws ∧
      patched.getWayPointCount = (w0 :: ws).length + 1 ∧
      patched.waypoints_.map WayPoint.state = p :: (w0 :: ws).map WayPoint.state ∧
      patched.getWayPointDurationFromPrevious 0 = 0 ∧
      (∀ i : ℕ, 1 ≤ i →
        patched.getWayPointDurationFromPrevious (i + 1)
          = RobotTrajectory.getWayPointDurationFromPrevious { waypoints_ := w0 :: ws } i) := by
  obtain ⟨w0, ws, ht, hp, hres⟩ := adaptAndPlan_patched self planner planning_scene req res
    added_path_index hrun
  refine ⟨_, w0, ws, _, hp, ht, hres, rfl, ?_, ?_, ?_, ?_⟩
  · simp [RobotTrajectory.getWayPointCount]
  · simp
  · simp [RobotTrajectory.getWayPointDurationFromPrevious]
  · intro i hi
    obtain ⟨m, rfl⟩ : ∃ m, i = m + 1 := ⟨i - 1, by omega⟩
    simp [RobotTrajectory.getWayPointDurationFromPrevious]

/-- C16 in the example: the planner returns two waypoints with durations 0 and
4; the returned trajectory has three waypoints, the first with duration 0 and
the last still with duration 4. -/
theorem C16_patched_trajectory_shape_witness :
    ∃ patched,
      (exAdapter.adaptAndPlan (exPlanner 4) (exScene [exShoulder])
        (exRequest "shoulder" (-41 / 40)) exResponse []).res.trajectory = some patched ∧
      patched.getWayPointCount = 3 ∧
      patched.getWayPointDurationFromPrevious 0 = 0 ∧
      patched.getWayPointDurationFromPrevious 2 = 4 := by
  obtain ⟨p, w0, ws, patched, _, ht, hres, _, hcount, _, hd0, hdi⟩ :=
    C16_patched_trajectory_shape exAdapter (exPlanner 4) (exScene [exShoulder])
      (exRequest "shoulder" (-41 / 40)) exResponse [] (exShoulder_prefixCondition 4 _)
  simp only [exPlanner, Option.some.injEq, RobotTrajectory.mk.injEq, List.cons.injEq] at ht
  obtain ⟨rfl, rfl⟩ := ht
  refine ⟨patched, hres, ?_, hd0, ?_⟩
  · rw [hcount]; rfl
  · rw [hdi 1 (le_refl 1)]
    simp [RobotTrajectory.getWayPointDurationFromPrevious]

/-- C17: the normalization pass changes nothing but rotation representations.
Among joints of distinct names, every joint of the active group that is neither
continuous revolute, nor planar, nor floating, has the same values after the
pass as before, every bounded revolute joint in particular; and for every
planar joint the x and y components are the same after the pass as before. -/
theorem C17_normalization_frame (planning_scene : PlanningScene) (req : MotionPlanRequest)
    (j : JointModel)
    (hnames : ((selectJointModels planning_scene req).map JointModel.name_).Nodup)
    (hj : j ∈ selectJointModels planning_scene req) :
    (j.isContinuousRevolute = false ∧ j.type_ ≠ JointType.PLANAR ∧
        j.type_ ≠ JointType.FLOATING →
      (normalizedWorking planning_scene req).start_state.position_ j.name_
        = (specifiedStartState planning_scene req).position_ j.name_) ∧
    (j.type_ = JointType.REVOLUTE ∧ j.continuous_ = false →
      (normalizedWorking planning_scene req).start_state.position_ j.name_
        = (specifiedStartState planning_scene req).position_ j.name_) ∧
    (j.type_ = JointType.PLANAR →
      (normalizedWorking planning_scene req).start_state.position_ j.name_ 0
        = (specifiedStartState planning_scene req).position_ j.name_ 0 ∧
      (normalizedWorking planning_scene req).start_state.position_ j.name_ 1
        = (specifiedStartState planning_scene req).position_ j.name_ 1) := by
  refine ⟨?_, ?_, ?_⟩
  · rintro ⟨h1, h2, h3⟩
    exact normalizePass_other _ _ j hnames hj h1 h2 h3
  · intro h
    obtain ⟨h1, h2, h3⟩ := single_not_normalized j (Or.inl h)
    exact normalizePass_other _ _ j hnames hj h1 h2 h3
  · intro hpl
    have h := normalizePass_planar (selectJointModels planning_scene req)
      { start_state := specifiedStartState planning_scene req
        prefix_state := none
        change_req := false } j hnames hj hpl
    exact ⟨h.1, h.2.1⟩

/-- C17 in the example of a planar platform whose yaw 4 is normalized, next to
a prismatic wrist: the x component of the platform and the value of the wrist
are the same after the normalization pass as before. -/
theorem C17_normalization_frame_witness :
    (normalizedWorking (exScene [exPlatform, exWrist])
      (exRequestAt "platform" 2 4)).start_state.position_ "platform" 0
      = (specifiedStartState (exScene [exPlatform, exWrist])
          (exRequestAt "platform" 2 4)).position_ "platform" 0 ∧
    (normalizedWorking (exScene [exPlatform, exWrist])
      (exRequestAt "platform" 2 4)).start_state.position_ "wrist"
      = (specifiedStartState (exScene [exPlatform, exWrist])
          (exRequestAt "platform" 2 4)).position_ "wrist" := by
  have hnd : ((selectJointModels (exScene [exPlatform, exWrist])
      (exRequestAt "platform" 2 4)).map JointModel.name_).Nodup := by
    simp [selectJointModels, exScene, RobotModel.hasJointModelGroup,
      RobotModel.getGroupJointModels, exRequestAt, exPlatform, exWrist]
  constructor
  · exact ((C17_normalization_frame (exScene [exPlatform, exWrist])
      (exRequestAt "platform" 2 4) exPlatform hnd
      (by simp [selectJointModels, exScene, RobotModel.hasJointModelGroup,
        RobotModel.getGroupJointModels, exRequestAt])).2.2 rfl).1
  · exact (C17_normalization_frame (exScene [exPlatform, exWrist])
      (exRequestAt "platform" 2 4) exWrist hnd
      (by simp [selectJointModels, exScene, RobotModel.hasJointModelGroup,
        RobotModel.getGroupJointModels, exRequestAt])).1
      (by simp [JointModel.isContinuousRevolute, exWrist])

/-- C18: a captured snapshot implies a rewritten request. Whenever the snapshot
exists after the two loops, the change flag is set and the planner is called
with the copy of the request whose start state is the corrected working state;
so whenever a prefix waypoint is added, the trajectory it is added to was
planned from that rewritten copy, not through the branch that forwards the
original request. For joints of distinct names and ordered bounds the
rewritten copy differs from the original request. -/
theorem C18_snapshot_implies_rewrite (self : FixStartStateBounds) (planner : PlannerFn)
    (planning_scene : PlanningScene) (req : MotionPlanRequest) (res : MotionPlanResponse)
    (added_path_index : List ℕ) :
    ((self.fixStartState planning_scene req).prefix_state.isSome = true →
      (self.fixStartState planning_scene req).change_req = true ∧
      self.plannerRequest planning_scene req =
        { req with
          start_state :=
            robotStateToRobotStateMsg (self.fixStartState planning_scene req).start_state }) ∧
    (prefixCondition (self.fixStartState planning_scene req).prefix_state
        (planner planning_scene (self.plannerRequest planning_scene req) res).2 = true →
      (self.fixStartState planning_scene req).change_req = true ∧
      self.adaptAndPlan planner planning_scene req res added_path_index =
        self.addPrefixState (self.fixStartState planning_scene req).prefix_state
          (planner planning_scene
            { req with
              start_state :=
                robotStateToRobotStateMsg (self.fixStartState planning_scene req).start_state }
            res).1
          (planner planning_scene
            { req with
              start_state :=
                robotStateToRobotStateMsg (self.fixStartState planning_scene req).start_state }
            res).2
          added_path_index) ∧
    ((self.fixStartState planning_scene req).prefix_state.isSome = true →
      ((selectJointModels planning_scene req).map JointModel.name_).Nodup →
      (∀ jm ∈ selectJointModels planning_scene req,
        ∀ b ∈ jm.variable_bounds_, b.min_position_ ≤ b.max_position_) →
      self.plannerRequest planning_scene req ≠ req) := by
  have hmain : (self.fixStartState planning_scene req).prefix_state.isSome = true →
      (self.fixStartState planning_scene req).change_req = true ∧
      self.plannerRequest planning_scene req =
        { req with
          start_state :=
            robotStateToRobotStateMsg (self.fixStartState planning_scene req).start_state } := by
    intro hsome
    have hchg : (self.fixStartState planning_scene req).change_req = true := by
      rw [fixStartState_change_req, hsome]
      simp
    refine ⟨hchg, ?_⟩
    simp [FixStartStateBounds.plannerRequest, hchg]
  refine ⟨hmain, ?_, ?_⟩
  · intro hrun
    have hsome : (self.fixStartState planning_scene req).prefix_state.isSome = true := by
      unfold prefixCondition at hrun
      simp only [Bool.and_eq_true] at hrun
      exact hrun.1
    obtain ⟨hchg, hreq⟩ := hmain hsome
    refine ⟨hchg, ?_⟩
    unfold FixStartStateBounds.adaptAndPlan
    rw [hreq]
  · intro hsome hnames hord heq
    have hiff := hsome
    unfold FixStartStateBounds.fixStartState at hiff
    rw [boundsPass_prefix_isSome_iff, normalizedWorking_prefix_state] at hiff
    simp only [Option.isSome_none, Bool.false_eq_true, false_or] at hiff
    obtain ⟨pre, j, post, hsel, hc⟩ := hiff
    have hj : j ∈ selectJointModels planning_scene req := by
      rw [hsel]; simp
    have h1 := fixStartState_corrected_satisfies self planning_scene req pre post j hsel hnames
      (hord j hj) hc
    have h2 := specified_violates_of_correctable self planning_scene req pre post j hsel hnames hc
    rw [← plannerStartState_eq, heq, h2] at h1
    simp at h1

/-- C18 in the example of a corrected shoulder: the snapshot exists, so the
change flag is set and the planner receives the group name unchanged in a
rewritten request. -/
theorem C18_snapshot_implies_rewrite_witness :
    (exAdapter.fixStartState (exScene [exShoulder]) (exRequest "shoulder" (-41 / 40))).change_req
      = true ∧
    (exAdapter.plannerRequest (exScene [exShoulder])
      (exRequest "shoulder" (-41 / 40))).start_state
      = robotStateToRobotStateMsg
          (exAdapter.fixStartState (exScene [exShoulder])
            (exRequest "shoulder" (-41 / 40))).start_state := by
  obtain ⟨h1, h2⟩ := (C18_snapshot_implies_rewrite exAdapter (exPlanner 4) (exScene [exShoulder])
    (exRequest "shoulder" (-41 / 40)) exResponse []).1 exShoulder_within_tolerance.1
  exact ⟨h1, by rw [h2]⟩

/-- C19: when the request names an existing planning group, the two loops run
over that group's joints only. Under every joint name outside the group the
start state handed to the planner has the values of the incoming start state,
whatever the bounds of that joint; a snapshot, when one exists, was triggered by
a joint of the group, and none exists when no joint of the group is correctable.
When the request's group name is not a group of the robot model, the loops run
over all joints of the model. -/
theorem C19_group_selection (self : FixStartStateBounds) (planning_scene : PlanningScene)
    (req : MotionPlanRequest) :
    (∀ g : JointModelGroup,
      planning_scene.robot_model_.joint_model_group_map_ req.group_name = some g →
      selectJointModels planning_scene req = g.joint_model_vector_ ∧
      (∀ n : String, n ∉ g.joint_model_vector_.map JointModel.name_ →
        (specifiedStartState planning_scene (self.plannerRequest planning_scene req)).position_ n
          = (specifiedStartState planning_scene req).position_ n) ∧
      ((self.fixStartState planning_scene req).prefix_state.isSome = true →
        ∃ pre j post, g.joint_model_vector_ = pre ++ j :: post ∧
          (boundsPass self.bounds_dist_ pre
            (normalizedWorking planning_scene req)).start_state.satisfiesBounds j 0 = false ∧
          (boundsPass self.bounds_dist_ pre
            (normalizedWorking planning_scene req)).start_state.satisfiesBounds j
              self.bounds_dist_ = true) ∧
      ((∀ j ∈ g.joint_model_vector_,
          correctable self.bounds_dist_ (normalizedWorking planning_scene req).start_state j
            = false) →
        (self.fixStartState planning_scene req).prefix_state = none)) ∧
    (planning_scene.robot_model_.joint_model_group_map_ req.group_name = none →
      selectJointModels planning_scene req = planning_scene.robot_model_.joint_model_vector_) := by
  constructor
  · intro g hg
    have hsel : selectJointModels planning_scene req = g.joint_model_vector_ := by
      simp [selectJointModels, RobotModel.hasJointModelGroup, RobotModel.getGroupJointModels, hg]
    refine ⟨hsel, ?_, ?_, ?_⟩
    · intro n hn
      rw [plannerStartState_eq]
      unfold FixStartStateBounds.fixStartState normalizedWorking
      rw [hsel, boundsPass_frame self.bounds_dist_ _ _ n hn, normalizePass_frame _ _ n hn]
    · intro hsome
      unfold FixStartStateBounds.fixStartState at hsome
      rw [boundsPass_prefix_isSome_iff, normalizedWorking_prefix_state, hsel] at hsome
      simp only [Option.isSome_none, Bool.false_eq_true, false_or, correctable,
        Bool.and_eq_true, Bool.not_eq_true'] at hsome
      exact hsome
    · intro hnone
      unfold FixStartStateBounds.fixStartState
      rw [boundsPass_of_none_correctable, normalizedWorking_prefix_state]
      rw [hsel]
      exact hnone
  · intro hnone
    simp [selectJointModels, RobotModel.hasJointModelGroup, hnone]

/-- C19 in an example robot with a shoulder and a wrist of which only the
shoulder is in the group "arm": the wrist, at 0, violates its bounds (from 1/100
to 2) within tolerance, yet it reaches the planner at 0 and no snapshot is
captured; for a request that names the unknown group "legs", both joints are
processed. -/
theorem C19_group_selection_witness :
    (specifiedStartState (exSceneGroup [exShoulder] [exShoulder, exWrist])
      (exRequest "shoulder" 0)).satisfiesBounds exWrist 0 = false ∧
    (specifiedStartState (exSceneGroup [exShoulder] [exShoulder, exWrist])
      (exAdapter.plannerRequest (exSceneGroup [exShoulder] [exShoulder, exWrist])
        (exRequest "shoulder" 0))).position_ "wrist" 0 = 0 ∧
    (exAdapter.fixStartState (exSceneGroup [exShoulder] [exShoulder, exWrist])
      (exRequest "shoulder" 0)).prefix_state = none ∧
    selectJointModels (exSceneGroup [exShoulder] [exShoulder, exWrist])
      { exRequest "shoulder" 0 with group_name := "legs" } = [exShoulder, exWrist] := by
  have hg : (exSceneGroup [exShoulder] [exShoulder, exWrist]).robot_model_.joint_model_group_map_
      (exRequest "shoulder" 0).group_name
      = some { name_ := "arm", joint_model_vector_ := [exShoulder] } := by
    simp [exSceneGroup, exRequest]
  obtain ⟨hsel, hframe, _, hnone⟩ := (C19_group_selection exAdapter
    (exSceneGroup [exShoulder] [exShoulder, exWrist]) (exRequest "shoulder" 0)).1 _ hg
  refine ⟨?_, ?_, hnone ?_, ?_⟩
  · simp [RobotState.satisfiesBounds, RobotState.getJointPositions,
      JointModel.satisfiesPositionBounds, JointModel.isContinuousRevolute,
      JointModel.positionBounds, exWrist, satisfiesFrom, VariableBounds.satisfies,
      specifiedStartState, robotStateMsgToRobotState, exRequest, exSceneGroup]
  · rw [hframe "wrist" (by simp [exShoulder])]
    simp [specifiedStartState, robotStateMsgToRobotState, exRequest, exSceneGroup]
  · intro j hj
    simp only [List.mem_singleton] at hj
    subst hj
    have hnd : ((selectJointModels (exSceneGroup [exShoulder] [exShoulder, exWrist])
        (exRequest "shoulder" 0)).map JointModel.name_).Nodup := by
      rw [hsel]; simp
    have hmem : exShoulder ∈ selectJointModels (exSceneGroup [exShoulder] [exShoulder, exWrist])
        (exRequest "shoulder" 0) := by
      rw [hsel]; simp
    have hs : (normalizedWorking (exSceneGroup [exShoulder] [exShoulder, exWrist])
        (exRequest "shoulder" 0)).start_state.satisfiesBounds exShoulder 0 = true := by
      unfold normalizedWorking
      rw [normalizePass_satisfiesBounds _ _ exShoulder 0 hnd hmem]
      simp [RobotState.satisfiesBounds, RobotState.getJointPositions,
        JointModel.satisfiesPositionBounds, JointModel.isContinuousRevolute,
        JointModel.positionBounds, exShoulder, satisfiesFrom, VariableBounds.satisfies,
        specifiedStartState, robotStateMsgToRobotState, exRequest]
    simp [correctable, hs]
  · exact (C19_group_selection exAdapter (exSceneGroup [exShoulder] [exShoulder, exWrist])
      { exRequest "shoulder" 0 with group_name := "legs" }).2
      (by simp [exSceneGroup])

end default_planner_request_adapters
